import Mathlib

/-!
# Milk delivery backend: dispatch and billing core

A shallow embedding of the wallet / subscription part of the backend:
`models/user_model.js`, `models/subscription_model.js`, `models/product_model.js`,
`controllers/admin_controller.js` (`dispatchDeliveries`,
`pauseInsufficientBalanceSubscriptions`, `getDashboardStats`) and
`controllers/subscription_controller.js` (`createSubscription`,
`getSubscriptionById`, `updateSubscriptionStatus`, `completeSubscriptionPayment`).

Modelling conventions.

* A MongoDB collection is a list of documents; `_id` is a natural number.
  `findById` returns the first document with the given `_id`, `save` of a loaded
  document replaces the document carrying the same `_id`, `save` of a new document
  appends it.
* JavaScript numbers that carry money or quantities are integers (`Int`), dates are
  integer milliseconds since the epoch.  The products that make up a total cost are
  rounded as JavaScript numbers are (`mulNumber`); the sums and differences of
  wallet amounts are exact.  All `new Date()` / `Date.now()` calls of
  one request read the same instant `Env.now`.
* A stored document has exactly the paths its Mongoose schema declares.  A property
  assigned on a loaded document that the schema does not declare lives on the
  in-memory document only (`SubscriptionDoc.lastDelivered`), and an object pushed
  into a document array is cast to the array's sub-schema (`castTransaction`).
* Store writes can fail: `Env.saveFails k` tells whether the `k`-th `save()` call
  of a request throws.  `dispatchDeliveries` runs inside a session transaction:
  its writes go to a working copy that replaces the store on commit and is thrown
  away on abort.
-/

namespace MilkDelivery

/-! ## Data model -/

abbrev ObjectId := Nat

abbrev Date := Int

/-- The `type` enum of a wallet transaction (`user_model.js`). -/
inductive TxnType where
  | credit
  | debit
deriving DecidableEq, Repr

/-- A stored element of `wallet.transactions`: the sub-schema declares `amount`,
`type` and `date` only. -/
structure Transaction where
  amount : Int
  type : TxnType
  date : Date
deriving DecidableEq, Repr

/-- An object literal handed to `wallet.transactions.push`, before it is cast. -/
structure TransactionInput where
  amount : Int
  type : TxnType
  reason : Option String
  description : Option String
  date : Option Date
deriving DecidableEq, Repr

structure Wallet where
  balance : Int
  transactions : List Transaction
deriving DecidableEq, Repr

/-- A user document; only the paths the billing core reads are kept
(`profile.address` is a string in the schema). -/
structure User where
  _id : ObjectId
  name : String
  profileAddress : String
  wallet : Wallet
deriving DecidableEq, Repr

inductive Status where
  | active
  | paused
  | cancelled
  | pending_payment
  | expired
deriving DecidableEq, Repr

inductive PauseReason where
  | insufficient_balance
  | user_paused
  | none
deriving DecidableEq, Repr

inductive DeliveryStatus where
  | delivered
  | missed
deriving DecidableEq, Repr

structure DeliveryEntry where
  date : Date
  status : DeliveryStatus
deriving DecidableEq, Repr

inductive DeliveryFrequency where
  | daily
  | alternate
  | weekly
  | one_time
deriving DecidableEq, Repr

inductive SubscriptionPlan where
  | plan_15_days
  | plan_1_month
  | plan_2_months
  | plan_3_months
  | plan_6_months
  | plan_1_year
deriving DecidableEq, Repr

inductive PaymentMethod where
  | wallet
  | online
  | cod
deriving DecidableEq, Repr

/-- The nested `address` path of a subscription: four required strings and an
optional landmark. -/
structure Address where
  street : String
  city : String
  state : String
  pincode : String
  landmark : Option String
deriving DecidableEq, Repr

/-- A stored subscription document: exactly the paths of `SubscriptionSchema`. -/
structure Subscription where
  _id : ObjectId
  userId : ObjectId
  productId : ObjectId
  product : String
  quantity : Int
  pricePerDay : Int
  totalCost : Int
  startDate : Date
  endDate : Date
  nextDeliveryDate : Date
  deliveryHistory : List DeliveryEntry
  status : Status
  pauseReason : PauseReason
  deliveryFrequency : DeliveryFrequency
  subscriptionPlan : SubscriptionPlan
  durationDays : Int
  address : Address
  paymentMethod : PaymentMethod
  paymentId : Option String
  lastPaymentDate : Option Date
  nextPaymentDate : Option Date
  createdAt : Date
  updatedAt : Date
deriving DecidableEq, Repr

/-- A subscription document in memory: the schema paths plus the one property the
controllers assign that the schema does not declare. -/
structure SubscriptionDoc where
  fields : Subscription
  lastDelivered : Option Date
deriving DecidableEq, Repr

/-- A product document; only the paths `createSubscription` reads are kept. -/
structure Product where
  _id : ObjectId
  name : String
  pricePerDay : Int
  quantity : Int
  availability : Bool
deriving DecidableEq, Repr

structure Store where
  users : List User
  subscriptions : List Subscription
  products : List Product
deriving DecidableEq, Repr

/-- What a request reads from outside the store: the clock, the offset of local
time from UTC in milliseconds, and which `save()` calls fail. -/
structure Env where
  now : Date
  tzOffset : Int
  saveFails : Nat → Bool

/-- The ways a handler body throws: a property read on `null`, a failed store
write, a document rejected by schema validation. -/
inductive Failure where
  | typeError
  | storeError
  | validationError
deriving DecidableEq, Repr

/-- A value inside a JSON response body. -/
inductive Payload where
  | text (s : String)
  | number (n : Int)
  | flag (b : Bool)
  | subscription (s : Subscription)
  | transactions (ts : List Transaction)
  | failure (e : Failure)
  | null
  | object (members : List (String × Payload))

structure Response where
  status : Nat
  body : List (String × Payload)

/-- The keys of a response body. -/
def Response.keys (r : Response) : List String :=
  r.body.map Prod.fst

/-! ## Store access -/

/-- Mongoose casts a pushed object to the `wallet.transactions` sub-schema: the
undeclared `reason` and `description` are dropped and a missing `date` takes the
default `Date.now`. -/
def castTransaction (now : Date) (t : TransactionInput) : Transaction :=
  { amount := t.amount, type := t.type, date := t.date.getD now }

/-- The query `User.findById`. -/
def User.findById (s : Store) (id : ObjectId) : Option User :=
  s.users.find? (fun u => u._id == id)

/-- The query `Subscription.findById`. -/
def Subscription.findById (s : Store) (id : ObjectId) : Option Subscription :=
  s.subscriptions.find? (fun x => x._id == id)

/-- The query `Product.findById`. -/
def Product.findById (s : Store) (id : ObjectId) : Option Product :=
  s.products.find? (fun p => p._id == id)

/-- A document as `find` / `findById` hands it to the controller. -/
def Subscription.hydrate (s : Subscription) : SubscriptionDoc :=
  { fields := s, lastDelivered := none }

/-- The call `user.save()` on a loaded user. -/
def User.save (s : Store) (u : User) : Store :=
  { s with users := s.users.map (fun x => if x._id = u._id then u else x) }

/-- The call `sub.save()` on a loaded subscription: the `pre('save')` hook stamps
`updatedAt`, then the schema paths are written. -/
def SubscriptionDoc.save (env : Env) (s : Store) (d : SubscriptionDoc) : Store :=
  let stored : Subscription := { d.fields with updatedAt := env.now }
  { s with subscriptions := s.subscriptions.map (fun x => if x._id = stored._id then stored else x) }

/-- The call `newSubscription.save()` on a document that is not in the collection yet. -/
def SubscriptionDoc.insert (env : Env) (s : Store) (d : SubscriptionDoc) : Store :=
  let stored : Subscription := { d.fields with updatedAt := env.now }
  { s with subscriptions := s.subscriptions ++ [stored] }

/-- Documents of one collection have pairwise different `_id`s. -/
def Store.wf (s : Store) : Prop :=
  (s.subscriptions.map (fun x => x._id)).Nodup ∧ (s.users.map (fun u => u._id)).Nodup

instance (s : Store) : Decidable s.wf := by
  unfold Store.wf; infer_instance

/-! ## `dispatchDeliveries` (admin_controller.js; delivery_controller.js is a copy) -/

/-- The state of a request in flight: the store as the request sees it and the
number of `save()` calls it has issued. -/
structure Session where
  store : Store
  saves : Nat

/-- The query `Subscription.find(userId in userIds, status active)`. -/
def selectSubscriptions (s : Store) (userIds : List ObjectId) : List Subscription :=
  s.subscriptions.filter (fun sub => decide (sub.userId ∈ userIds) && decide (sub.status = Status.active))

/-- The debit that the sufficient-funds branch applies to the user document. -/
def chargeUser (env : Env) (user : User) (sub : Subscription) : User :=
  { user with
    wallet :=
      { balance := user.wallet.balance - sub.pricePerDay
        transactions := user.wallet.transactions ++
          [castTransaction env.now
            { amount := sub.pricePerDay
              type := TxnType.debit
              reason := some ("Milk delivery for " ++ sub.product)
              description := none
              date := some env.now }] } }

/-- The sufficient-funds branch on the subscription document. -/
def markDelivered (env : Env) (sub : SubscriptionDoc) : SubscriptionDoc :=
  { fields :=
      { sub.fields with
        deliveryHistory := sub.fields.deliveryHistory ++ [{ date := env.now, status := DeliveryStatus.delivered }] }
    lastDelivered := some env.now }

/-- The insufficient-funds branch on the subscription document. -/
def markPaused (sub : SubscriptionDoc) : SubscriptionDoc :=
  { sub with
    fields := { sub.fields with status := Status.paused, pauseReason := PauseReason.insufficient_balance } }

/-- One iteration of the `for (let sub of subscriptions)` loop. -/
def dispatchOne (env : Env) (st : Session) (sub : SubscriptionDoc) : Except Failure Session :=
  match User.findById st.store sub.fields.userId with
  | none => Except.error Failure.typeError
  | some user =>
    if sub.fields.pricePerDay ≤ user.wallet.balance then
      if env.saveFails st.saves then Except.error Failure.storeError
      else if env.saveFails (st.saves + 1) then Except.error Failure.storeError
      else
        Except.ok
          { store := (markDelivered env sub).save env (User.save st.store (chargeUser env user sub.fields))
            saves := st.saves + 2 }
    else
      if env.saveFails st.saves then Except.error Failure.storeError
      else Except.ok { store := (markPaused sub).save env st.store, saves := st.saves + 1 }

/-- The loop over the selected subscriptions. -/
def dispatchLoop (env : Env) : Session → List Subscription → Except Failure Session
  | st, [] => Except.ok st
  | st, sub :: rest =>
    match dispatchOne env st sub.hydrate with
    | Except.error e => Except.error e
    | Except.ok st1 => dispatchLoop env st1 rest

/-- The handler: the transaction's working copy becomes the store on commit, the
store is untouched on abort. -/
def dispatchDeliveries (env : Env) (s : Store) (userIds : List ObjectId) : Response × Store :=
  match dispatchLoop env { store := s, saves := 0 } (selectSubscriptions s userIds) with
  | Except.ok st =>
    ({ status := 200, body := [("message", Payload.text "Deliveries updated successfully")] }, st.store)
  | Except.error e =>
    ({ status := 500
       body := [("message", Payload.text "Error updating deliveries"), ("error", Payload.failure e)] }, s)

/-- The stored subscription after the sufficient-funds branch. -/
def deliveredDoc (env : Env) (sub : Subscription) : Subscription :=
  { sub with
    deliveryHistory := sub.deliveryHistory ++ [{ date := env.now, status := DeliveryStatus.delivered }]
    updatedAt := env.now }

/-- The stored subscription after the insufficient-funds branch. -/
def pausedDoc (env : Env) (sub : Subscription) : Subscription :=
  { sub with status := Status.paused, pauseReason := PauseReason.insufficient_balance, updatedAt := env.now }

/-- The ledger record of the charge for one delivered subscription. -/
def debitOf (env : Env) (sub : Subscription) : Transaction :=
  { amount := sub.pricePerDay, type := TxnType.debit, date := env.now }

/-- Whether the stored history of `sub` in `s` is its old history plus one
`delivered` entry of this cycle. -/
def deliveredIn (env : Env) (s : Store) (sub : Subscription) : Bool :=
  decide ((Subscription.findById s sub._id).map (fun x => x.deliveryHistory) =
    some (sub.deliveryHistory ++ [{ date := env.now, status := DeliveryStatus.delivered }]))

/-! ## `pauseInsufficientBalanceSubscriptions` (admin_controller.js) -/

/-- One iteration of the sweep loop: a missing owner is skipped, a low balance
pauses the subscription (only `status` is assigned). -/
def sweepOne (env : Env) (st : Session) (sub : SubscriptionDoc) : Except Failure Session :=
  match User.findById st.store sub.fields.userId with
  | none => Except.ok st
  | some user =>
    if user.wallet.balance < sub.fields.pricePerDay then
      if env.saveFails st.saves then Except.error Failure.storeError
      else
        Except.ok
          { store := SubscriptionDoc.save env st.store { sub with fields := { sub.fields with status := Status.paused } }
            saves := st.saves + 1 }
    else Except.ok st

/-- The sweep loop.  There is no transaction: the writes made before a failing
`save()` stay in the store. -/
def sweepLoop (env : Env) : Session → List Subscription → Session × Option Failure
  | st, [] => (st, none)
  | st, sub :: rest =>
    match sweepOne env st sub.hydrate with
    | Except.error e => (st, some e)
    | Except.ok st1 => sweepLoop env st1 rest

/-- The handler of the sweep. -/
def pauseInsufficientBalanceSubscriptions (env : Env) (s : Store) : Response × Store :=
  match sweepLoop env { store := s, saves := 0 }
      (s.subscriptions.filter (fun sub => decide (sub.status = Status.active))) with
  | (st, none) =>
    ({ status := 200
       body := [("message", Payload.text "Checked and paused subscriptions with insufficient balance.")] },
      st.store)
  | (st, some e) =>
    ({ status := 500
       body := [("message", Payload.text "Error pausing subscriptions"), ("error", Payload.failure e)] },
      st.store)

/-! ## `createSubscription` (subscription_controller.js) -/

/-- The `address` of a request body: a JSON object or a string. -/
inductive AddressInput where
  | object (street city state pincode landmark : Option String)
  | text (s : String)
deriving DecidableEq, Repr

/-- The fields `createSubscription` destructures from `req.body`; `none` is an
absent field. -/
structure CreateSubscriptionBody where
  productId : Option ObjectId
  quantity : Option Int
  deliveryFrequency : Option String
  address : Option AddressInput
  paymentMethod : Option String
  subscriptionPlan : Option String
deriving DecidableEq, Repr

/-- JavaScript truthiness of an optional string. -/
def truthyString : Option String → Bool
  | none => false
  | some s => decide (s ≠ "")

/-- JavaScript truthiness of an optional number. -/
def truthyNumber : Option Int → Bool
  | none => false
  | some n => decide (n ≠ 0)

/-- The frequency multiplier in quarters: `1` is 4, `0.5` is 2, `0.25` is 1. -/
def frequencyMultiplier (deliveryFrequency : String) : Nat :=
  if deliveryFrequency = "daily" then 4
  else if deliveryFrequency = "alternate" then 2
  else if deliveryFrequency = "weekly" then 1
  else 4

/-- The `switch (subscriptionPlan)` that sets `durationDays`. -/
def durationDays (subscriptionPlan : String) : Nat :=
  if subscriptionPlan = "15_days" then 15
  else if subscriptionPlan = "1_month" then 30
  else if subscriptionPlan = "2_months" then 60
  else if subscriptionPlan = "3_months" then 90
  else if subscriptionPlan = "6_months" then 180
  else if subscriptionPlan = "1_year" then 365
  else 15

/-- The value `Math.ceil(durationDays * frequencyMultiplier)`, the multiplier given in
quarters. -/
def totalDeliveries (days quarters : Nat) : Nat :=
  (days * quarters + 3) / 4

/-- The number of low bits of `a` that do not fit in the 53-bit significand of a
JavaScript number: the least `e` with `a / 2 ^ e < 2 ^ 53`, for `fuel ≥ a`. -/
def excessBits : Nat → Nat → Nat
  | 0, _ => 0
  | fuel + 1, a => if a < 9007199254740992 then 0 else excessBits fuel (a / 2) + 1

/-- The JavaScript number nearest to the integer `n`: `n` itself up to `2 ^ 53` in
magnitude, beyond that the nearest multiple of `2 ^ e` with a 53-bit quotient, a tie
going to the even quotient (IEEE 754 round-to-nearest-even).  Magnitudes from
`2 ^ 1024` on, where JavaScript yields `Infinity`, are outside the model. -/
def roundNumber (n : Int) : Int :=
  if n.natAbs ≤ 9007199254740992 then n
  else
    let e := excessBits n.natAbs n.natAbs
    let q := n.natAbs / 2 ^ e
    let r := n.natAbs % 2 ^ e
    let m := if 2 ^ (e - 1) < r ∨ (r = 2 ^ (e - 1) ∧ q % 2 = 1) then q + 1 else q
    if n < 0 then -((m * 2 ^ e : Nat) : Int) else ((m * 2 ^ e : Nat) : Int)

/-- The JavaScript product `a * b` of two integer-valued numbers: the exact product,
rounded to the nearest number. -/
def mulNumber (a b : Int) : Int :=
  roundNumber (a * b)

/-- The value `dailyCost * totalDeliveries` with `dailyCost = product.pricePerDay * quantity`,
each `*` a JavaScript multiplication. -/
def totalCost (product : Product) (quantity : Int) (deliveryFrequency subscriptionPlan : String) : Int :=
  mulNumber (mulNumber product.pricePerDay quantity)
    (totalDeliveries (durationDays subscriptionPlan) (frequencyMultiplier deliveryFrequency) : Nat)

def dayMs : Int := 24 * 60 * 60 * 1000

/-- Tomorrow at local midnight: `setDate(getDate() + 1)` then `setHours(0, 0, 0, 0)`. -/
def startDate (env : Env) : Date :=
  ((env.now + env.tzOffset) / dayMs + 1) * dayMs - env.tzOffset

/-- Enum validation of `deliveryFrequency`. -/
def parseFrequency (s : String) : Option DeliveryFrequency :=
  if s = "daily" then some DeliveryFrequency.daily
  else if s = "alternate" then some DeliveryFrequency.alternate
  else if s = "weekly" then some DeliveryFrequency.weekly
  else if s = "one-time" then some DeliveryFrequency.one_time
  else none

/-- Enum validation of `subscriptionPlan`. -/
def parsePlan (s : String) : Option SubscriptionPlan :=
  if s = "15_days" then some SubscriptionPlan.plan_15_days
  else if s = "1_month" then some SubscriptionPlan.plan_1_month
  else if s = "2_months" then some SubscriptionPlan.plan_2_months
  else if s = "3_months" then some SubscriptionPlan.plan_3_months
  else if s = "6_months" then some SubscriptionPlan.plan_6_months
  else if s = "1_year" then some SubscriptionPlan.plan_1_year
  else none

/-- Enum validation of `paymentMethod`. -/
def parsePaymentMethod (s : String) : Option PaymentMethod :=
  if s = "wallet" then some PaymentMethod.wallet
  else if s = "online" then some PaymentMethod.online
  else if s = "cod" then some PaymentMethod.cod
  else none

/-- A required schema string: present and not empty. -/
def requiredString : Option String → Option String
  | some s => if s = "" then none else some s
  | none => none

/-- Validation of the nested `address` path: a string cannot be cast to it, and
`street`, `city`, `state`, `pincode` are required. -/
def parseAddress : AddressInput → Option Address
  | AddressInput.text _ => none
  | AddressInput.object street city state pincode landmark =>
    match requiredString street, requiredString city, requiredString state, requiredString pincode with
    | some st, some c, some sa, some p =>
      some { street := st, city := c, state := sa, pincode := p, landmark := landmark }
    | _, _, _, _ => none

/-- JavaScript truthiness of the request's `address`: the value when truthy. -/
def truthyAddress : Option AddressInput → Option AddressInput
  | some (AddressInput.object a b c d e) => some (AddressInput.object a b c d e)
  | some (AddressInput.text t) => if t ≠ "" then some (AddressInput.text t) else none
  | none => none

/-- The value `address || user.profile.address`: the right operand is read only when
`address` is falsy, and reading it on a missing user throws.  The result
`Except.ok none` is a falsy value. -/
def deliveryAddress (address : Option AddressInput) (user : Option User) :
    Except Failure (Option AddressInput) :=
  match truthyAddress address with
  | some a => Except.ok (some a)
  | none =>
    match user with
    | none => Except.error Failure.typeError
    | some u =>
      Except.ok (if u.profileAddress ≠ "" then some (AddressInput.text u.profileAddress) else none)

/-- The document `new Subscription(...)` as `save()` would store it, or `none`
when schema validation rejects it. -/
def newSubscription (env : Env) (newId userId productId : ObjectId) (product : Product) (quantity : Int)
    (deliveryFrequency subscriptionPlan : String) (paymentMethod : Option String)
    (address : AddressInput) : Option Subscription :=
  match parseFrequency deliveryFrequency, parsePlan subscriptionPlan,
      parsePaymentMethod (if truthyString paymentMethod then paymentMethod.getD "" else "online"),
      parseAddress address with
  | some f, some pl, some pm, some a =>
    some
      { _id := newId
        userId := userId
        productId := productId
        product := product.name
        quantity := quantity
        pricePerDay := product.pricePerDay
        totalCost := totalCost product quantity deliveryFrequency subscriptionPlan
        startDate := startDate env
        endDate := startDate env + (durationDays subscriptionPlan : Nat) * dayMs
        nextDeliveryDate := startDate env
        deliveryHistory := []
        status := Status.pending_payment
        pauseReason := PauseReason.none
        deliveryFrequency := f
        subscriptionPlan := pl
        durationDays := durationDays subscriptionPlan
        address := a
        paymentMethod := pm
        paymentId := none
        lastPaymentDate := none
        nextPaymentDate := none
        createdAt := env.now
        updatedAt := env.now }
  | _, _, _, _ => none

def failed (message : String) (e : Failure) : Response :=
  { status := 500, body := [("message", Payload.text message), ("error", Payload.failure e)] }

/-- The debit that the wallet branch of `createSubscription` applies. -/
def payFromWallet (env : Env) (user : User) (cost : Int) (productName : String) : User :=
  { user with
    wallet :=
      { balance := user.wallet.balance - cost
        transactions := user.wallet.transactions ++
          [castTransaction env.now
            { amount := cost
              type := TxnType.debit
              reason := none
              description := some ("Subscription payment for " ++ productName)
              date := none }] } }

/-- The block "Process payment based on method": `user` is the result of
`User.findById(userId)`, `candidate` is the new document as `save()` would store
it, `none` when validation rejects it. -/
def processPayment (env : Env) (s : Store) (user : Option User) (product : Product) (cost : Int)
    (paymentMethod : Option String) (candidate : Option Subscription) : Response × Store :=
  if paymentMethod = some "wallet" then
    match user with
    | none => (failed "Failed to create subscription" Failure.typeError, s)
    | some user =>
      if user.wallet.balance < cost then
        ({ status := 400
           body := [("message", Payload.text "Insufficient wallet balance"),
             ("requiredAmount", Payload.number cost),
             ("currentBalance", Payload.number user.wallet.balance)] }, s)
      else if env.saveFails 0 then (failed "Failed to create subscription" Failure.storeError, s)
      else
        match candidate with
        | none =>
          (failed "Failed to create subscription" Failure.validationError,
            User.save s (payFromWallet env user cost product.name))
        | some sub =>
          if env.saveFails 1 then
            (failed "Failed to create subscription" Failure.storeError,
              User.save s (payFromWallet env user cost product.name))
          else
            ({ status := 201
               body := [("message", Payload.text "Subscription created and paid from wallet"),
                 ("data", Payload.object
                   [("subscription",
                      Payload.subscription { sub with status := Status.active, lastPaymentDate := some env.now }),
                    ("remainingBalance", Payload.number (payFromWallet env user cost product.name).wallet.balance)])] },
              SubscriptionDoc.insert env (User.save s (payFromWallet env user cost product.name))
                (Subscription.hydrate { sub with status := Status.active, lastPaymentDate := some env.now }))
  else
    match candidate with
    | none => (failed "Failed to create subscription" Failure.validationError, s)
    | some sub =>
      if env.saveFails 0 then (failed "Failed to create subscription" Failure.storeError, s)
      else
        ({ status := 201
           body := [("message", Payload.text "Subscription created, waiting for payment"),
             ("data", Payload.object [("subscription", Payload.subscription sub),
               ("paymentRequired", Payload.flag true), ("amount", Payload.number cost)])] },
          (Subscription.hydrate sub).insert env s)

/-- The handler; `userId` is `req.user._id`, `newId` the `_id` generated for the new
document. -/
def createSubscription (env : Env) (s : Store) (userId newId : ObjectId) (body : CreateSubscriptionBody) :
    Response × Store :=
  if body.productId.isNone || !truthyNumber body.quantity || !truthyString body.deliveryFrequency
      || !truthyString body.subscriptionPlan then
    ({ status := 400
       body := [("message",
         Payload.text "Product ID, quantity, delivery frequency, and subscription plan are required")] }, s)
  else
    match Product.findById s (body.productId.getD 0) with
    | none => ({ status := 404, body := [("message", Payload.text "Product not found")] }, s)
    | some product =>
      if !product.availability || decide (product.quantity < body.quantity.getD 0) then
        ({ status := 400, body := [("message", Payload.text "Product is not available in requested quantity")] }, s)
      else
        match deliveryAddress body.address (User.findById s userId) with
        | Except.error e => (failed "Failed to create subscription" e, s)
        | Except.ok none =>
          ({ status := 400, body := [("message", Payload.text "Delivery address is required")] }, s)
        | Except.ok (some address) =>
          processPayment env s (User.findById s userId) product
            (totalCost product (body.quantity.getD 0) (body.deliveryFrequency.getD "")
              (body.subscriptionPlan.getD ""))
            body.paymentMethod
            (newSubscription env newId userId (body.productId.getD 0) product (body.quantity.getD 0)
              (body.deliveryFrequency.getD "") (body.subscriptionPlan.getD "") body.paymentMethod address)

/-! ## `updateSubscriptionStatus` and `completeSubscriptionPayment` (subscription_controller.js) -/

/-- The fields `updateSubscriptionStatus` destructures from `req.body`. -/
structure UpdateStatusBody where
  status : Option String
  pauseReason : Option String
deriving DecidableEq, Repr

/-- The fields `completeSubscriptionPayment` destructures from `req.body`. -/
structure PaymentBody where
  paymentId : Option String
  paymentMethod : Option String
deriving DecidableEq, Repr

/-- The test `validStatuses.includes(status)` with the status it lets through. -/
def parseRequestedStatus : Option String → Option Status
  | none => none
  | some t =>
    if t = "active" then some Status.active
    else if t = "paused" then some Status.paused
    else if t = "cancelled" then some Status.cancelled
    else none

/-- Enum validation of `pauseReason`. -/
def parsePauseReason (t : String) : Option PauseReason :=
  if t = "insufficient_balance" then some PauseReason.insufficient_balance
  else if t = "user_paused" then some PauseReason.user_paused
  else if t = "none" then some PauseReason.none
  else none

/-- The pause reason on the document after the assignments of
`updateSubscriptionStatus`: the requested one when the request pauses and names a
reason, the old one otherwise; `none` when schema validation rejects the value. -/
def assignedPauseReason (status : Status) (requested : Option String) (old : PauseReason) :
    Option PauseReason :=
  if status = Status.paused ∧ truthyString requested = true then parsePauseReason (requested.getD "")
  else some old

/-- The handler; `userId` is `req.user._id`, `id` is `req.params.id`. -/
def updateSubscriptionStatus (env : Env) (s : Store) (userId id : ObjectId) (body : UpdateStatusBody) :
    Response × Store :=
  match parseRequestedStatus body.status with
  | none => ({ status := 400, body := [("message", Payload.text "Invalid status value")] }, s)
  | some status =>
    match Subscription.findById s id with
    | none => ({ status := 404, body := [("message", Payload.text "Subscription not found")] }, s)
    | some sub =>
      if sub.userId ≠ userId then
        ({ status := 403, body := [("message", Payload.text "Unauthorized access to subscription")] }, s)
      else
        match assignedPauseReason status body.pauseReason sub.pauseReason with
        | none => (failed "Failed to update subscription" Failure.validationError, s)
        | some reason =>
          if env.saveFails 0 then (failed "Failed to update subscription" Failure.storeError, s)
          else
            ({ status := 200
               body := [("message", Payload.text "Subscription status updated successfully"),
                 ("data", Payload.object
                   [("subscription",
                      Payload.subscription
                        { sub with status := status, pauseReason := reason, updatedAt := env.now })])] },
              SubscriptionDoc.save env s
                (Subscription.hydrate { sub with status := status, pauseReason := reason }))

/-- The handler; `userId` is `req.user._id`, `id` is `req.params.id`. -/
def completeSubscriptionPayment (env : Env) (s : Store) (userId id : ObjectId) (body : PaymentBody) :
    Response × Store :=
  match Subscription.findById s id with
  | none => ({ status := 404, body := [("message", Payload.text "Subscription not found")] }, s)
  | some sub =>
    if sub.userId ≠ userId then
      ({ status := 403, body := [("message", Payload.text "Unauthorized access to subscription")] }, s)
    else if sub.status ≠ Status.pending_payment then
      ({ status := 400, body := [("message", Payload.text "Subscription is not in pending payment status")] }, s)
    else
      match parsePaymentMethod (if truthyString body.paymentMethod then body.paymentMethod.getD "" else "online") with
      | none => (failed "Failed to complete payment" Failure.validationError, s)
      | some method =>
        if env.saveFails 0 then (failed "Failed to complete payment" Failure.storeError, s)
        else
          ({ status := 200
             body := [("message", Payload.text "Subscription payment completed successfully"),
               ("data", Payload.object
                 [("subscription",
                    Payload.subscription
                      { sub with
                        status := Status.active, lastPaymentDate := some env.now, paymentMethod := method
                        paymentId := body.paymentId, updatedAt := env.now })])] },
            SubscriptionDoc.save env s
              (Subscription.hydrate
                { sub with
                  status := Status.active, lastPaymentDate := some env.now, paymentMethod := method
                  paymentId := body.paymentId }))

/-! ## `getDashboardStats` (admin_controller.js) -/

/-- The instant `new Date(today)` with `today` the UTC date of `now`: UTC midnight. -/
def today (env : Env) : Date :=
  env.now / dayMs * dayMs

/-- The instant `new Date(new Date(today).setDate(new Date(today).getDate() + 1))`: the
same local clock time on the next local day, one day later at a fixed offset. -/
def tomorrow (env : Env) : Date :=
  today env + dayMs

/-- The stages `$unwind` and `$match` of the aggregation: every wallet transaction of
every user dated in the window. -/
def matchedTransactions (env : Env) (s : Store) : List Transaction :=
  (s.users.flatMap (fun u => u.wallet.transactions)).filter
    (fun t => decide (today env ≤ t.date) && decide (t.date < tomorrow env))

/-- The stage `$group` with `_id: null`: no group for an empty input, otherwise one
group holding the two conditional sums. -/
def groupTotals (txns : List Transaction) : List (Int × Int) :=
  match txns with
  | [] => []
  | _ :: _ =>
    [((txns.map (fun t => if t.type = TxnType.credit then t.amount else 0)).sum,
      (txns.map (fun t => if t.type = TxnType.debit then t.amount else 0)).sum)]

/-- The value `walletSummary` as the pair (totalCredited, totalDebited). -/
def walletSummary (env : Env) (s : Store) : Int × Int :=
  match groupTotals (matchedTransactions env s) with
  | [] => (0, 0)
  | g :: _ => g

/-- The query `countDocuments` with the two conditions `deliveryHistory.date` equal to
`new Date(today)` and `deliveryHistory.status` equal to `status`: each condition
holds when some element of the array satisfies it. -/
def countDeliveries (env : Env) (s : Store) (status : DeliveryStatus) : Nat :=
  (s.subscriptions.filter (fun x =>
    x.deliveryHistory.any (fun e => decide (e.date = today env)) &&
      x.deliveryHistory.any (fun e => decide (e.status = status)))).length

/-- The query `countDocuments` on `status` alone. -/
def countStatus (s : Store) (status : Status) : Nat :=
  (s.subscriptions.filter (fun x => decide (x.status = status))).length

/-- The query `countDocuments` on `status: "paused"` and a pause reason. -/
def countPaused (s : Store) (reason : PauseReason) : Nat :=
  (s.subscriptions.filter (fun x => decide (x.status = Status.paused) && decide (x.pauseReason = reason))).length

/-- The handler. -/
def getDashboardStats (env : Env) (s : Store) : Response :=
  { status := 200
    body :=
      [("totalActiveUsers", Payload.number (countStatus s Status.active)),
       ("pausedSubscriptions", Payload.object
         [("voluntary", Payload.number (countPaused s PauseReason.user_paused)),
          ("insufficientBalance", Payload.number (countPaused s PauseReason.insufficient_balance)),
          ("total", Payload.number
            (countPaused s PauseReason.user_paused + countPaused s PauseReason.insufficient_balance : Nat))]),
       ("walletTransactions", Payload.object
         (match groupTotals (matchedTransactions env s) with
          | [] => [("totalCredited", Payload.number 0), ("totalDebited", Payload.number 0)]
          | g :: _ =>
            [("_id", Payload.null), ("totalCredited", Payload.number g.1), ("totalDebited", Payload.number g.2)])),
       ("deliveriesCompleted", Payload.number (countDeliveries env s DeliveryStatus.delivered)),
       ("failedDeliveries", Payload.number (countDeliveries env s DeliveryStatus.missed))] }

/-! ## Sequences of operations -/

/-- A request to one of the handlers that write wallets or pause subscriptions. -/
inductive Op where
  | dispatch (env : Env) (userIds : List ObjectId)
  | create (env : Env) (userId newId : ObjectId) (body : CreateSubscriptionBody)
  | sweep (env : Env)

/-- The store after one request. -/
def Op.apply (s : Store) : Op → Store
  | Op.dispatch env userIds => (dispatchDeliveries env s userIds).2
  | Op.create env userId newId body => (createSubscription env s userId newId body).2
  | Op.sweep env => (pauseInsufficientBalanceSubscriptions env s).2

/-- The store after a sequence of requests, served one after the other. -/
def run (s : Store) (ops : List Op) : Store :=
  ops.foldl Op.apply s

/-- Sum of the amounts of the transactions of one type. -/
def sumOf (t : TxnType) (txns : List Transaction) : Int :=
  ((txns.filter (fun x => decide (x.type = t))).map (fun x => x.amount)).sum

/-! ## Sample documents used by the concrete checks -/

def sampleAddress : Address :=
  { street := "1 Dairy Lane", city := "Pune", state := "MH", pincode := "411001", landmark := none }

def sampleUser (id : ObjectId) (balance : Int) : User :=
  { _id := id, name := "Asha", profileAddress := "1 Dairy Lane", wallet := { balance := balance, transactions := [] } }

def sampleSubscription (id userId : ObjectId) (price : Int) (status : Status) (pauseReason : PauseReason) :
    Subscription :=
  { _id := id
    userId := userId
    productId := 1
    product := "Cow Milk"
    quantity := 1
    pricePerDay := price
    totalCost := price * 15
    startDate := 0
    endDate := 15 * dayMs
    nextDeliveryDate := 0
    deliveryHistory := []
    status := status
    pauseReason := pauseReason
    deliveryFrequency := DeliveryFrequency.daily
    subscriptionPlan := SubscriptionPlan.plan_15_days
    durationDays := 15
    address := sampleAddress
    paymentMethod := PaymentMethod.wallet
    paymentId := none
    lastPaymentDate := none
    nextPaymentDate := none
    createdAt := 0
    updatedAt := 0 }

def sampleProduct : Product :=
  { _id := 1, name := "Cow Milk", pricePerDay := 30, quantity := 100, availability := true }

/-- A clock at instant 1000 in UTC with a store that accepts every write. -/
def sampleEnv : Env :=
  { now := 1000, tzOffset := 0, saveFails := fun _ => false }

/-- One user with the given balance owning one active subscription at the given price. -/
def oneSubscriptionStore (balance price : Int) : Store :=
  { users := [sampleUser 1 balance]
    subscriptions := [sampleSubscription 10 1 price Status.active PauseReason.none]
    products := [sampleProduct] }

/-- The wallet of `u1` is the wallet of `u` with transactions appended whose credits
minus debits account for the change of balance. -/
def Conserved (u u1 : User) : Prop :=
  ∃ app : List Transaction, u1.wallet.transactions = u.wallet.transactions ++ app ∧
    u1.wallet.balance = u.wallet.balance + sumOf TxnType.credit app - sumOf TxnType.debit app

/-- A body that buys two units on alternate days for fifteen days from the wallet. -/
def sampleBody : CreateSubscriptionBody :=
  { productId := some 1
    quantity := some 2
    deliveryFrequency := some "alternate"
    address := some (AddressInput.object (some "1 Dairy Lane") (some "Pune") (some "MH") (some "411001") none)
    paymentMethod := some "wallet"
    subscriptionPlan := some "15_days" }

/-- A request sequence that mixes the three handlers. -/
def sampleOps : List Op :=
  [Op.dispatch sampleEnv [1], Op.create sampleEnv 1 11 sampleBody, Op.sweep sampleEnv, Op.dispatch sampleEnv [1]]

/-- An active subscription that still carries the pause reason of an earlier pause. -/
def staleReasonStore : Store :=
  { users := [sampleUser 1 100]
    subscriptions := [sampleSubscription 10 1 30 Status.active PauseReason.insufficient_balance]
    products := [sampleProduct] }

/-- One user with balance 100 owning two active subscriptions, at 30 and at 50. -/
def twoSubscriptionStore : Store :=
  { users := [sampleUser 1 100]
    subscriptions :=
      [sampleSubscription 10 1 30 Status.active PauseReason.none,
       sampleSubscription 11 1 50 Status.active PauseReason.none]
    products := [sampleProduct] }

/-- The second subscription names an owner that has no user document. -/
def orphanStore : Store :=
  { users := [sampleUser 1 100]
    subscriptions :=
      [sampleSubscription 10 1 30 Status.active PauseReason.none,
       sampleSubscription 11 2 30 Status.active PauseReason.none]
    products := [sampleProduct] }

/-- Two users; the second one owns a paused subscription and is not dispatched. -/
def frameStore : Store :=
  { users := [sampleUser 1 100, sampleUser 2 5]
    subscriptions :=
      [sampleSubscription 10 1 30 Status.active PauseReason.none,
       sampleSubscription 11 2 30 Status.paused PauseReason.user_paused]
    products := [sampleProduct] }

/-- The environment in which the `k`-th `save()` call of a request throws. -/
def failingEnv (k : Nat) : Env :=
  { now := 1000, tzOffset := 0, saveFails := fun n => n == k }

/-- The session of a cycle over `twoSubscriptionStore` once its first subscription
has been delivered and both documents written. -/
def afterFirstDelivery (env : Env) : Session :=
  { store :=
      (markDelivered env (sampleSubscription 10 1 30 Status.active PauseReason.none).hydrate).save env
        (User.save twoSubscriptionStore
          (chargeUser env (sampleUser 1 100) (sampleSubscription 10 1 30 Status.active PauseReason.none)))
    saves := 2 }

/-! ## Requests that write subscriptions -/

/-- A request to one of the five handlers that write subscription documents. -/
inductive Request where
  | create (env : Env) (userId newId : ObjectId) (body : CreateSubscriptionBody)
  | completePayment (env : Env) (userId id : ObjectId) (body : PaymentBody)
  | updateStatus (env : Env) (userId id : ObjectId) (body : UpdateStatusBody)
  | dispatch (env : Env) (userIds : List ObjectId)
  | sweep (env : Env)

/-- The store after one request. -/
def Request.apply (s : Store) : Request → Store
  | Request.create env userId newId body => (createSubscription env s userId newId body).2
  | Request.completePayment env userId id body => (completeSubscriptionPayment env s userId id body).2
  | Request.updateStatus env userId id body => (updateSubscriptionStatus env s userId id body).2
  | Request.dispatch env userIds => (dispatchDeliveries env s userIds).2
  | Request.sweep env => (pauseInsufficientBalanceSubscriptions env s).2

/-- The store after a sequence of requests, served one after the other. -/
def serve (s : Store) (reqs : List Request) : Store :=
  reqs.foldl Request.apply s

/-- The pause-reason invariant on one document. -/
def Subscription.reasonMatchesStatus (x : Subscription) : Prop :=
  x.pauseReason ≠ PauseReason.none ↔ x.status = Status.paused

instance (x : Subscription) : Decidable x.reasonMatchesStatus := by
  unfold Subscription.reasonMatchesStatus; infer_instance

/-- The pause-reason invariant on a store. -/
def Store.reasonsMatchStatus (s : Store) : Prop :=
  ∀ x ∈ s.subscriptions, x.reasonMatchesStatus

instance (s : Store) : Decidable s.reasonsMatchStatus := by
  unfold Store.reasonsMatchStatus; infer_instance

/-- The requests considered for the pause-reason invariant: creation, payment
completion, dispatch, and a status update that pauses and names a reason other
than `none`. -/
def Request.recordsReason : Request → Bool
  | Request.create _ _ _ _ => true
  | Request.completePayment _ _ _ _ => true
  | Request.dispatch _ _ => true
  | Request.updateStatus _ _ _ body =>
    decide (body.status = some "paused") &&
      (decide (body.pauseReason = some "insufficient_balance") || decide (body.pauseReason = some "user_paused"))
  | Request.sweep _ => false

/-- Whether the owner of `sub` is found in `s` with a balance below its price: the
test of the sweep. -/
def needsPause (s : Store) (sub : Subscription) : Bool :=
  match User.findById s sub.userId with
  | none => false
  | some user => decide (user.wallet.balance < sub.pricePerDay)

/-- One user with balance 100, one subscription of that user with the given status
and pause reason. -/
def statusStore (status : Status) (reason : PauseReason) : Store :=
  { users := [sampleUser 1 100]
    subscriptions := [sampleSubscription 10 1 30 status reason]
    products := [sampleProduct] }

/-- A product given away for free. -/
def freeProduct : Product :=
  { _id := 2, name := "Sample Sachet", pricePerDay := 0, quantity := 100, availability := true }

/-- One user with balance 100 owning one active subscription at price 0. -/
def freeStore : Store :=
  { users := [sampleUser 1 100]
    subscriptions := [sampleSubscription 10 1 0 Status.active PauseReason.none]
    products := [sampleProduct, freeProduct] }

/-- One user whose wallet holds a credit and a debit of the current UTC day and a
credit of the day before. -/
def ledgerStore : Store :=
  { users :=
      [{ _id := 1, name := "Asha", profileAddress := "1 Dairy Lane"
         wallet :=
           { balance := 170
             transactions :=
               [{ amount := 50, type := TxnType.credit, date := -5 },
                { amount := 200, type := TxnType.credit, date := 10 },
                { amount := 30, type := TxnType.debit, date := 900 }] } },
       sampleUser 2 0]
    subscriptions := []
    products := [sampleProduct] }

/-! ## `getSubscriptionById` (subscription_controller.js) -/

/-- The handler; `userId` is `req.user._id`, `id` is `req.params.id`.  It reads only. -/
def getSubscriptionById (s : Store) (userId id : ObjectId) : Response :=
  match Subscription.findById s id with
  | none => { status := 404, body := [("message", Payload.text "Subscription not found")] }
  | some sub =>
    if sub.userId ≠ userId then
      { status := 403, body := [("message", Payload.text "Unauthorized access to subscription")] }
    else
      { status := 200
        body := [("message", Payload.text "Subscription retrieved successfully"),
          ("data", Payload.object [("subscription", Payload.subscription sub)])] }

/-! ## The dispatch loop in a given processing order -/

/-- The store a cycle commits when its loop runs over `subs` in the order given,
`none` when the cycle aborts. -/
def dispatchIn (env : Env) (s : Store) (subs : List Subscription) : Option Store :=
  match dispatchLoop env { store := s, saves := 0 } subs with
  | Except.ok fin => some fin.store
  | Except.error _ => none

/-- The store after one loop iteration in which no write fails, with the number of
`save()` calls the iteration makes; `none` when the owner is missing. -/
def settle (env : Env) (s : Store) (sub : Subscription) : Option (Store × Nat) :=
  match User.findById s sub.userId with
  | none => none
  | some user =>
    if sub.pricePerDay ≤ user.wallet.balance then
      some ((markDelivered env sub.hydrate).save env (User.save s (chargeUser env user sub)), 2)
    else some ((markPaused sub.hydrate).save env s, 1)

/-- The iterations of `settle` over a list, with the total number of `save()` calls. -/
def settleAll (env : Env) : Store → List Subscription → Option (Store × Nat)
  | s, [] => some (s, 0)
  | s, sub :: rest =>
    (settle env s sub).bind (fun p => (settleAll env p.1 rest).map (fun q => (q.1, p.2 + q.2)))

/-- None of the `n` `save()` calls numbered from `base` fails. -/
def Env.clean (env : Env) (base n : Nat) : Prop :=
  ∀ k, k < n → env.saveFails (base + k) = false

instance (env : Env) (base n : Nat) : Decidable (env.clean base n) :=
  Nat.decidableBallLT n (fun k _ => env.saveFails (base + k) = false)

/-- One user with balance 50 owning two active subscriptions, at 30 and at 50. -/
def sharedOwnerStore : Store :=
  { users := [sampleUser 1 50]
    subscriptions :=
      [sampleSubscription 10 1 30 Status.active PauseReason.none,
       sampleSubscription 11 1 50 Status.active PauseReason.none]
    products := [sampleProduct] }

/-- Two users with balance 50, each owning one active subscription. -/
def separateOwnersStore : Store :=
  { users := [sampleUser 1 50, sampleUser 2 50]
    subscriptions :=
      [sampleSubscription 10 1 30 Status.active PauseReason.none,
       sampleSubscription 11 2 80 Status.active PauseReason.none]
    products := [sampleProduct] }

/-- One user with balance 1000 and no subscription yet. -/
def newCustomerStore : Store :=
  { users := [sampleUser 1 1000], subscriptions := [], products := [sampleProduct] }

/-- The store `oneSubscriptionStore` with the product of the subscription renamed. -/
def renamedProductStore (balance price : Int) (name : String) : Store :=
  { users := [sampleUser 1 balance]
    subscriptions := [{ sampleSubscription 10 1 price Status.active PauseReason.none with product := name }]
    products := [sampleProduct] }

/-- One subscription paused for insufficient balance whose owner still holds less
than one day's price. -/
def lowBalancePausedStore : Store :=
  { users := [sampleUser 1 10]
    subscriptions := [sampleSubscription 10 1 30 Status.paused PauseReason.insufficient_balance]
    products := [sampleProduct] }

/-- The ledger of a customer whose only subscription is `newId`, against the wallet
`user0` held before the subscription was bought: the transactions appended since
are debits, and they add up to the total cost plus one day's price for every entry
of the delivery history, of which there are at most `n`. -/
def ChargedFor (newId userId : ObjectId) (user0 : User) (s : Store) (n : Nat) : Prop :=
  ∃ user sub debits,
    User.findById s userId = some user ∧ s.subscriptions = [sub] ∧ sub._id = newId ∧
      sub.userId = userId ∧
      user.wallet.transactions = user0.wallet.transactions ++ debits ∧
      (∀ t ∈ debits, t.type = TxnType.debit) ∧
      sumOf TxnType.debit debits = sub.totalCost + sub.deliveryHistory.length * sub.pricePerDay ∧
      user.wallet.balance =
        user0.wallet.balance - (sub.totalCost + sub.deliveryHistory.length * sub.pricePerDay) ∧
      sub.deliveryHistory.length ≤ n

/-- A product priced at the largest safe integer, `2 ^ 53 - 1`. -/
def dearProduct : Product :=
  { _id := 1, name := "Saffron Milk", pricePerDay := 9007199254740991, quantity := 100, availability := true }

/-- One customer and the dear product. -/
def dearStore : Store :=
  { users := [sampleUser 1 0], subscriptions := [], products := [dearProduct] }

/-- A body that buys three units daily for fifteen days, to be paid online. -/
def dearBody : CreateSubscriptionBody :=
  { productId := some 1
    quantity := some 3
    deliveryFrequency := some "daily"
    address := some (AddressInput.object (some "1 Dairy Lane") (some "Pune") (some "MH") (some "411001") none)
    paymentMethod := some "online"
    subscriptionPlan := some "15_days" }

/-! # Theorems -/

/-! ## Lookup after an update -/

theorem find?_map_of_key_eq {α : Type} (key : α → Nat) (F : α → α) (hF : ∀ x, key (F x) = key x)
    (l : List α) (id : Nat) :
    (l.map F).find? (fun x => key x == id) = (l.find? (fun x => key x == id)).map F := by
  induction l with
  | nil => rfl
  | cons a l ih =>
    simp only [List.map_cons, List.find?_cons, hF]
    cases h : (key a == id) with
    | true => simp
    | false => simpa using ih

theorem User.findById_mapUsers (s : Store) (F : User → User) (hF : ∀ x, (F x)._id = x._id) (id : ObjectId) :
    User.findById { s with users := s.users.map F } id = (User.findById s id).map F :=
  find?_map_of_key_eq (fun u : User => u._id) F hF s.users id

theorem Subscription.findById_mapSubscriptions (s : Store) (F : Subscription → Subscription)
    (hF : ∀ x, (F x)._id = x._id) (id : ObjectId) :
    Subscription.findById { s with subscriptions := s.subscriptions.map F } id =
      (Subscription.findById s id).map F :=
  find?_map_of_key_eq (fun u : Subscription => u._id) F hF s.subscriptions id

theorem User.findById_owner_id {s : Store} {id : ObjectId} {u : User} (h : User.findById s id = some u) :
    u._id = id := by
  have := List.find?_some h
  simpa using this

theorem Subscription.findById_some_id {s : Store} {id : ObjectId} {x : Subscription}
    (h : Subscription.findById s id = some x) : x._id = id := by
  have := List.find?_some h
  simpa using this

/-- Looking a user up after `user.save()`. -/
theorem User.findById_save (s : Store) (u : User) (id : ObjectId) :
    User.findById (User.save s u) id =
      if id = u._id then (User.findById s id).map (fun _ => u) else User.findById s id := by
  have h := User.findById_mapUsers s (fun x => if x._id = u._id then u else x)
    (by intro x; by_cases hx : x._id = u._id <;> simp [hx]) id
  unfold User.save
  rw [h]
  cases hf : User.findById s id with
  | none => simp
  | some x =>
    have hx := User.findById_owner_id hf
    by_cases hid : id = u._id
    · simp [hid, hx ▸ hid]
    · simp [hid, hx ▸ hid]

/-! ## One iteration of the dispatch loop -/

/-- The subscription document that the sufficient-funds branch stores. -/
theorem markDelivered_save (env : Env) (s : Store) (sub : Subscription) :
    (markDelivered env sub.hydrate).save env s =
      { s with subscriptions := s.subscriptions.map (fun x => if x._id = sub._id then deliveredDoc env sub else x) } :=
  rfl

theorem markPaused_save (env : Env) (s : Store) (sub : Subscription) :
    (markPaused sub.hydrate).save env s =
      { s with subscriptions := s.subscriptions.map (fun x => if x._id = sub._id then pausedDoc env sub else x) } :=
  rfl

/-- A committed iteration found the owner and took one of the two branches. -/
theorem dispatchOne_ok {env : Env} {st st1 : Session} {sub : Subscription}
    (h : dispatchOne env st sub.hydrate = Except.ok st1) :
    ∃ user, User.findById st.store sub.userId = some user ∧
      ((sub.pricePerDay ≤ user.wallet.balance ∧
          st1.store = (markDelivered env sub.hydrate).save env (User.save st.store (chargeUser env user sub))) ∨
        (user.wallet.balance < sub.pricePerDay ∧ st1.store = (markPaused sub.hydrate).save env st.store)) := by
  unfold dispatchOne at h
  simp only [Subscription.hydrate] at h
  cases hu : User.findById st.store sub.userId with
  | none => simp [hu] at h
  | some user =>
    refine ⟨user, rfl, ?_⟩
    simp only [hu] at h
    by_cases hb : sub.pricePerDay ≤ user.wallet.balance
    · left
      simp only [hb, if_true] at h
      by_cases h0 : env.saveFails st.saves = true
      · simp [h0] at h
      · by_cases h1 : env.saveFails (st.saves + 1) = true
        · simp [h0, h1] at h
        · simp only [h0, h1, Bool.false_eq_true, if_false, Except.ok.injEq] at h
          exact ⟨hb, by rw [← h]; rfl⟩
    · right
      simp only [hb, if_false] at h
      by_cases h0 : env.saveFails st.saves = true
      · simp [h0] at h
      · simp only [h0, Bool.false_eq_true, if_false, Except.ok.injEq] at h
        exact ⟨not_le.mp hb, by rw [← h]; rfl⟩

theorem dispatchLoop_cons_ok {env : Env} {st fin : Session} {sub : Subscription} {rest : List Subscription}
    (h : dispatchLoop env st (sub :: rest) = Except.ok fin) :
    ∃ st1, dispatchOne env st sub.hydrate = Except.ok st1 ∧ dispatchLoop env st1 rest = Except.ok fin := by
  unfold dispatchLoop at h
  cases h1 : dispatchOne env st sub.hydrate with
  | error e => simp [h1] at h
  | ok st1 => exact ⟨st1, rfl, by simpa [h1] using h⟩

theorem dispatchLoop_append_ok {env : Env} {pre post : List Subscription} {st fin : Session}
    (h : dispatchLoop env st (pre ++ post) = Except.ok fin) :
    ∃ mid, dispatchLoop env st pre = Except.ok mid ∧ dispatchLoop env mid post = Except.ok fin := by
  induction pre generalizing st with
  | nil => exact ⟨st, rfl, h⟩
  | cons a pre ih =>
    obtain ⟨st1, h1, h2⟩ := dispatchLoop_cons_ok h
    obtain ⟨mid, h3, h4⟩ := ih h2
    refine ⟨mid, ?_, h4⟩
    unfold dispatchLoop
    simp [h1, h3]

/-- What one committed iteration does to the wallet of any user. -/
theorem dispatchOne_user {env : Env} {st st1 : Session} {sub : Subscription} {id : ObjectId} {u : User}
    (h : dispatchOne env st sub.hydrate = Except.ok st1) (hu : User.findById st.store id = some u) :
    User.findById st1.store id = some u ∨
      (sub.userId = id ∧ sub.pricePerDay ≤ u.wallet.balance ∧
        User.findById st1.store id = some (chargeUser env u sub)) := by
  obtain ⟨user, hfind, hbranch⟩ := dispatchOne_ok h
  rcases hbranch with ⟨hle, hst⟩ | ⟨_, hst⟩
  · have hsave : User.findById st1.store id = User.findById (User.save st.store (chargeUser env user sub)) id := by
      rw [hst]; rfl
    rw [hsave, User.findById_save]
    have hid : (chargeUser env user sub)._id = sub.userId :=
      User.findById_owner_id (u := user) hfind
    by_cases hc : id = sub.userId
    · right
      subst hc
      rw [hu] at hfind
      cases hfind
      exact ⟨rfl, hle, by simp [hid, hu]⟩
    · left
      simp [hid, hc, hu]
  · left
    have hsave : User.findById st1.store id = User.findById st.store id := by
      rw [hst]; rfl
    rw [hsave, hu]

/-- The transactions a committed loop appends to a wallet are debits, their sum is
what the balance lost, and there is at most one per processed subscription of the
owner. -/
theorem dispatchLoop_ledger {env : Env} {subs : List Subscription} {st fin : Session} {id : ObjectId} {u : User}
    (h : dispatchLoop env st subs = Except.ok fin) (hu : User.findById st.store id = some u) :
    ∃ app : List Transaction,
      User.findById fin.store id =
          some { u with wallet := { balance := u.wallet.balance - sumOf TxnType.debit app
                                    transactions := u.wallet.transactions ++ app } } ∧
        (∀ t ∈ app, t.type = TxnType.debit) ∧
        app.length ≤ (subs.filter (fun sub => decide (sub.userId = id))).length := by
  induction subs generalizing st u with
  | nil =>
    simp only [dispatchLoop, Except.ok.injEq] at h
    subst h
    exact ⟨[], by simpa [sumOf] using hu, by simp, by simp⟩
  | cons sub rest ih =>
    obtain ⟨st1, h1, h2⟩ := dispatchLoop_cons_ok h
    rcases dispatchOne_user h1 hu with hsame | ⟨hid, _, hch⟩
    · obtain ⟨app, hf, hd, hl⟩ := ih h2 hsame
      refine ⟨app, hf, hd, ?_⟩
      by_cases hc : sub.userId = id
      · simp only [List.filter_cons, hc, decide_True, if_true, List.length_cons]
        exact Nat.le_succ_of_le hl
      · simpa [List.filter_cons, hc] using hl
    · obtain ⟨app, hf, hd, hl⟩ := ih h2 hch
      refine ⟨castTransaction env.now
          { amount := sub.pricePerDay, type := TxnType.debit, reason := some ("Milk delivery for " ++ sub.product),
            description := none, date := some env.now } :: app, ?_, ?_, ?_⟩
      · rw [hf]
        simp only [chargeUser, castTransaction, sumOf, List.filter_cons, decide_True, if_true, List.map_cons,
          List.sum_cons, List.append_assoc, List.singleton_append, Option.some.injEq]
        congr 2
        omega
      · intro t ht
        rcases List.mem_cons.mp ht with rfl | ht
        · rfl
        · exact hd t ht
      · simp only [List.filter_cons, hid, decide_True, if_true, List.length_cons]
        exact Nat.succ_le_succ hl

/-! ## The wallet effect of `createSubscription` and of the sweep -/

theorem processPayment_users (env : Env) (s : Store) (user : Option User) (product : Product) (cost : Int)
    (paymentMethod : Option String) (candidate : Option Subscription) :
    (processPayment env s user product cost paymentMethod candidate).2.users = s.users ∨
      ∃ u, user = some u ∧ cost ≤ u.wallet.balance ∧
        (processPayment env s user product cost paymentMethod candidate).2.users =
          (User.save s (payFromWallet env u cost product.name)).users := by
  unfold processPayment
  by_cases hw : paymentMethod = some "wallet"
  · simp only [hw, if_true]
    cases user with
    | none => left; rfl
    | some u =>
      simp only []
      by_cases hb : u.wallet.balance < cost
      · left; simp [hb]
      · simp only [hb, if_false]
        by_cases h0 : env.saveFails 0 = true
        · left; simp [h0]
        · right
          refine ⟨u, rfl, not_lt.mp hb, ?_⟩
          simp only [h0, Bool.false_eq_true, if_false]
          cases candidate with
          | none => rfl
          | some sub =>
            by_cases h1 : env.saveFails 1 = true
            · simp [h1]
            · simp only [h1, Bool.false_eq_true, if_false]
              rfl
  · left
    simp only [hw, if_false]
    cases candidate with
    | none => rfl
    | some sub =>
      by_cases h0 : env.saveFails 0 = true
      · simp [h0]
      · simp only [h0, Bool.false_eq_true, if_false]
        rfl

/-- The handler leaves the users collection alone or saves the requesting user after
one debit that the balance covers. -/
theorem createSubscription_users (env : Env) (s : Store) (userId newId : ObjectId)
    (body : CreateSubscriptionBody) :
    (createSubscription env s userId newId body).2.users = s.users ∨
      ∃ user cost name, User.findById s userId = some user ∧ cost ≤ user.wallet.balance ∧
        (createSubscription env s userId newId body).2.users =
          (User.save s (payFromWallet env user cost name)).users := by
  unfold createSubscription
  split
  · left; rfl
  · cases hp : Product.findById s (body.productId.getD 0) with
    | none => left; rfl
    | some product =>
      simp only []
      split
      · left; rfl
      · cases ha : deliveryAddress body.address (User.findById s userId) with
        | error e => left; rfl
        | ok address =>
          cases address with
          | none => left; rfl
          | some address =>
            simp only []
            rcases processPayment_users env s (User.findById s userId) product
                (totalCost product (body.quantity.getD 0) (body.deliveryFrequency.getD "")
                  (body.subscriptionPlan.getD ""))
                body.paymentMethod
                (newSubscription env newId userId (body.productId.getD 0) product (body.quantity.getD 0)
                  (body.deliveryFrequency.getD "") (body.subscriptionPlan.getD "") body.paymentMethod address)
              with h | ⟨u, hu, hle, h⟩
            · left; exact h
            · right; exact ⟨u, _, _, hu, hle, h⟩

theorem sweepOne_users {env : Env} {st st1 : Session} {d : SubscriptionDoc}
    (h : sweepOne env st d = Except.ok st1) : st1.store.users = st.store.users := by
  unfold sweepOne at h
  split at h
  · cases h; rfl
  · split at h
    · split at h
      · cases h
      · cases h; rfl
    · cases h; rfl

theorem sweepLoop_users (env : Env) (subs : List Subscription) (st : Session) :
    (sweepLoop env st subs).1.store.users = st.store.users := by
  induction subs generalizing st with
  | nil => rfl
  | cons sub rest ih =>
    unfold sweepLoop
    cases h : sweepOne env st sub.hydrate with
    | error e => rfl
    | ok st1 => simp only [ih, sweepOne_users h]

/-- The sweep never writes a user document. -/
theorem pauseInsufficientBalanceSubscriptions_users (env : Env) (s : Store) :
    (pauseInsufficientBalanceSubscriptions env s).2.users = s.users := by
  unfold pauseInsufficientBalanceSubscriptions
  have h := sweepLoop_users env (s.subscriptions.filter (fun sub => decide (sub.status = Status.active)))
    { store := s, saves := 0 }
  split
  · rename_i st heq
    rw [heq] at h
    exact h
  · rename_i st e heq
    rw [heq] at h
    exact h

/-! ## Conservation -/

theorem sumOf_append (t : TxnType) (a b : List Transaction) : sumOf t (a ++ b) = sumOf t a + sumOf t b := by
  simp [sumOf, List.filter_append, List.map_append, List.sum_append]

theorem sumOf_credit_of_debits {app : List Transaction} (h : ∀ t ∈ app, t.type = TxnType.debit) :
    sumOf TxnType.credit app = 0 := by
  induction app with
  | nil => rfl
  | cons a app ih =>
    have ha : a.type = TxnType.debit := h a (List.mem_cons_self a app)
    have := ih (fun t ht => h t (List.mem_cons_of_mem a ht))
    simpa [sumOf, List.filter_cons, ha] using this

theorem Conserved.refl (u : User) : Conserved u u :=
  ⟨[], by simp, by simp [sumOf]⟩

theorem Conserved.trans {u v w : User} (h1 : Conserved u v) (h2 : Conserved v w) : Conserved u w := by
  obtain ⟨a, ha, hb⟩ := h1
  obtain ⟨b, hc, hd⟩ := h2
  refine ⟨a ++ b, by rw [hc, ha, List.append_assoc], ?_⟩
  rw [hd, hb, sumOf_append, sumOf_append]
  ring

theorem Conserved.payFromWallet (env : Env) (u : User) (cost : Int) (name : String) :
    Conserved u (payFromWallet env u cost name) :=
  ⟨[castTransaction env.now
      { amount := cost, type := TxnType.debit, reason := none,
        description := some ("Subscription payment for " ++ name), date := none }],
    rfl, by simp [MilkDelivery.payFromWallet, castTransaction, sumOf, List.filter_cons]⟩

theorem dispatchDeliveries_conserved (env : Env) (s : Store) (userIds : List ObjectId) {id : ObjectId} {u : User}
    (h : User.findById s id = some u) :
    ∃ u1, User.findById (dispatchDeliveries env s userIds).2 id = some u1 ∧ Conserved u u1 := by
  unfold dispatchDeliveries
  cases hl : dispatchLoop env { store := s, saves := 0 } (selectSubscriptions s userIds) with
  | error e => exact ⟨u, h, Conserved.refl u⟩
  | ok fin =>
    obtain ⟨app, hf, hd, _⟩ := dispatchLoop_ledger hl h
    refine ⟨_, hf, app, rfl, ?_⟩
    simp only [sumOf_credit_of_debits hd]
    ring

theorem findById_congr_users {s s1 : Store} (h : s1.users = s.users) (id : ObjectId) :
    User.findById s1 id = User.findById s id := by
  unfold User.findById
  rw [h]

theorem createSubscription_conserved (env : Env) (s : Store) (userId newId : ObjectId)
    (body : CreateSubscriptionBody) {id : ObjectId} {u : User} (h : User.findById s id = some u) :
    ∃ u1, User.findById (createSubscription env s userId newId body).2 id = some u1 ∧ Conserved u u1 := by
  rcases createSubscription_users env s userId newId body with hs | ⟨user, cost, name, hu, _, hs⟩
  · exact ⟨u, by rw [findById_congr_users hs, h], Conserved.refl u⟩
  · rw [findById_congr_users hs, User.findById_save]
    have hid : (payFromWallet env user cost name)._id = userId := User.findById_owner_id (u := user) hu
    by_cases hc : id = userId
    · subst hc
      rw [h] at hu
      cases hu
      exact ⟨_, by simp [hid, h], Conserved.payFromWallet env u cost name⟩
    · exact ⟨u, by simp [hid, hc, h], Conserved.refl u⟩

theorem Op.apply_conserved (op : Op) (s : Store) {id : ObjectId} {u : User} (h : User.findById s id = some u) :
    ∃ u1, User.findById (Op.apply s op) id = some u1 ∧ Conserved u u1 := by
  cases op with
  | dispatch env userIds => exact dispatchDeliveries_conserved env s userIds h
  | create env userId newId body => exact createSubscription_conserved env s userId newId body h
  | sweep env =>
    exact ⟨u, by
      show User.findById (pauseInsufficientBalanceSubscriptions env s).2 id = some u
      rw [findById_congr_users (pauseInsufficientBalanceSubscriptions_users env s), h], Conserved.refl u⟩

theorem run_conserved (ops : List Op) (s : Store) {id : ObjectId} {u : User} (h : User.findById s id = some u) :
    ∃ u1, User.findById (run s ops) id = some u1 ∧ Conserved u u1 := by
  induction ops generalizing s u with
  | nil => exact ⟨u, h, Conserved.refl u⟩
  | cons op ops ih =>
    obtain ⟨v, hv, hc⟩ := Op.apply_conserved op s h
    obtain ⟨w, hw, hd⟩ := ih (Op.apply s op) hv
    exact ⟨w, hw, hc.trans hd⟩

/-- C3. Conservation: after any finite sequence of `dispatchDeliveries`,
`createSubscription` and sweep requests, every wallet's transaction log is the
initial log with transactions appended, and its balance is the initial balance
plus the appended credits minus the appended debits. -/
theorem wallet_conservation (s : Store) (ops : List Op) (id : ObjectId) (u : User)
    (h : User.findById s id = some u) :
    ∃ (u1 : User) (app : List Transaction),
      User.findById (run s ops) id = some u1 ∧
        u1.wallet.transactions = u.wallet.transactions ++ app ∧
        u1.wallet.balance = u.wallet.balance + sumOf TxnType.credit app - sumOf TxnType.debit app := by
  obtain ⟨u1, h1, app, ha, hb⟩ := run_conserved ops s h
  exact ⟨u1, app, h1, ha, hb⟩

theorem wallet_conservation_witness :
    User.findById (oneSubscriptionStore 1000 30) 1 = some (sampleUser 1 1000) ∧
      ∃ (u1 : User) (app : List Transaction),
        User.findById (run (oneSubscriptionStore 1000 30) sampleOps) 1 = some u1 ∧
          u1.wallet.transactions = (sampleUser 1 1000).wallet.transactions ++ app ∧
          u1.wallet.balance =
            (sampleUser 1 1000).wallet.balance + sumOf TxnType.credit app - sumOf TxnType.debit app :=
  ⟨by decide, wallet_conservation (oneSubscriptionStore 1000 30) sampleOps 1 (sampleUser 1 1000) (by decide)⟩


/-! ## No negative balance -/

theorem User.save_users_mem {s : Store} {c v : User} (h : v ∈ (User.save s c).users) :
    v ∈ s.users ∨ v = c := by
  simp only [User.save, List.mem_map] at h
  obtain ⟨x, hx, hv⟩ := h
  by_cases hc : x._id = c._id
  · right; simpa [hc] using hv.symm
  · left; simp only [hc, if_false] at hv; exact hv ▸ hx

theorem dispatchOne_users_mem {env : Env} {st st1 : Session} {sub : Subscription} {v : User}
    (h : dispatchOne env st sub.hydrate = Except.ok st1) (hv : v ∈ st1.store.users) :
    v ∈ st.store.users ∨ 0 ≤ v.wallet.balance := by
  obtain ⟨user, _, hbranch⟩ := dispatchOne_ok h
  rcases hbranch with ⟨hle, hst⟩ | ⟨_, hst⟩
  · have hv1 : v ∈ (User.save st.store (chargeUser env user sub)).users := by
      rw [hst] at hv; exact hv
    rcases User.save_users_mem hv1 with hm | rfl
    · exact Or.inl hm
    · right
      show 0 ≤ user.wallet.balance - sub.pricePerDay
      omega
  · left
    rw [hst] at hv
    exact hv

theorem dispatchLoop_users_mem {env : Env} {subs : List Subscription} {st fin : Session} {v : User}
    (h : dispatchLoop env st subs = Except.ok fin) (hv : v ∈ fin.store.users) :
    v ∈ st.store.users ∨ 0 ≤ v.wallet.balance := by
  induction subs generalizing st with
  | nil =>
    simp only [dispatchLoop, Except.ok.injEq] at h
    subst h
    exact Or.inl hv
  | cons sub rest ih =>
    obtain ⟨st1, h1, h2⟩ := dispatchLoop_cons_ok h
    rcases ih h2 with hm | hn
    · exact dispatchOne_users_mem h1 hm
    · exact Or.inr hn

/-- C4. No negative balance: when every balance is non-negative, it still is after
`dispatchDeliveries` and after `createSubscription`; and a loop iteration or a
`createSubscription` request that changes a user document debits an amount that
the balance it read covers. -/
theorem no_negative_balance (env : Env) (s : Store) (userIds : List ObjectId) (userId newId : ObjectId)
    (body : CreateSubscriptionBody) (st st1 : Session) (sub : Subscription)
    (h : ∀ u ∈ s.users, 0 ≤ u.wallet.balance) :
    (∀ u ∈ (dispatchDeliveries env s userIds).2.users, 0 ≤ u.wallet.balance) ∧
      (∀ u ∈ (createSubscription env s userId newId body).2.users, 0 ≤ u.wallet.balance) ∧
      (∀ (id : ObjectId) (u u1 : User), dispatchOne env st sub.hydrate = Except.ok st1 →
        User.findById st.store id = some u → User.findById st1.store id = some u1 → u1 ≠ u →
          sub.pricePerDay ≤ u.wallet.balance ∧
            u1.wallet.balance = u.wallet.balance - sub.pricePerDay ∧
            u1.wallet.transactions =
              u.wallet.transactions ++ [{ amount := sub.pricePerDay, type := TxnType.debit, date := env.now }]) ∧
      (∀ (id : ObjectId) (u u1 : User), User.findById s id = some u →
        User.findById (createSubscription env s userId newId body).2 id = some u1 → u1 ≠ u →
          ∃ a : Int, a ≤ u.wallet.balance ∧ u1.wallet.balance = u.wallet.balance - a ∧
            u1.wallet.transactions =
              u.wallet.transactions ++ [{ amount := a, type := TxnType.debit, date := env.now }]) := by
  refine ⟨?_, ?_, ?_, ?_⟩
  · intro v hv
    unfold dispatchDeliveries at hv
    cases hl : dispatchLoop env { store := s, saves := 0 } (selectSubscriptions s userIds) with
    | error e =>
      rw [hl] at hv
      exact h v hv
    | ok fin =>
      rw [hl] at hv
      rcases dispatchLoop_users_mem hl hv with hm | hn
      · exact h v hm
      · exact hn
  · intro v hv
    rcases createSubscription_users env s userId newId body with hs | ⟨user, cost, name, _, hle, hs⟩
    · rw [hs] at hv
      exact h v hv
    · rw [hs] at hv
      rcases User.save_users_mem hv with hm | rfl
      · exact h v hm
      · show 0 ≤ user.wallet.balance - cost
        omega
  · intro id u u1 hone hu hu1 hne
    rcases dispatchOne_user hone hu with hsame | ⟨_, hle, hch⟩
    · rw [hsame] at hu1
      cases hu1
      exact absurd rfl hne
    · rw [hch] at hu1
      cases hu1
      exact ⟨hle, rfl, rfl⟩
  · intro id u u1 hu hu1 hne
    rcases createSubscription_users env s userId newId body with hs | ⟨user, cost, name, hfind, hle, hs⟩
    · rw [findById_congr_users hs, hu] at hu1
      cases hu1
      exact absurd rfl hne
    · rw [findById_congr_users hs, User.findById_save] at hu1
      have hid : (payFromWallet env user cost name)._id = userId := User.findById_owner_id (u := user) hfind
      by_cases hc : id = userId
      · subst hc
        rw [hu] at hfind
        cases hfind
        simp only [hid, if_true, hu, Option.map_some', Option.some.injEq] at hu1
        subst hu1
        exact ⟨cost, hle, rfl, rfl⟩
      · simp only [hid, hc, if_false, hu, Option.some.injEq] at hu1
        exact absurd hu1.symm hne

theorem no_negative_balance_witness :
    (∀ u ∈ (oneSubscriptionStore 100 30).users, 0 ≤ u.wallet.balance) ∧
      (∀ u ∈ (dispatchDeliveries sampleEnv (oneSubscriptionStore 100 30) [1]).2.users, 0 ≤ u.wallet.balance) :=
  ⟨by decide,
    (no_negative_balance sampleEnv (oneSubscriptionStore 100 30) [1] 1 11 sampleBody
      { store := oneSubscriptionStore 100 30, saves := 0 } { store := oneSubscriptionStore 100 30, saves := 0 }
      (sampleSubscription 10 1 30 Status.active PauseReason.none) (by decide)).1⟩

/-! ## The subscriptions collection across the dispatch loop -/

theorem find?_of_mem_nodup {α : Type} (key : α → Nat) {l : List α} (hl : (l.map key).Nodup) {x : α}
    (hx : x ∈ l) : l.find? (fun y => key y == key x) = some x := by
  induction l with
  | nil => cases hx
  | cons a l ih =>
    rw [List.map_cons, List.nodup_cons] at hl
    rw [List.find?_cons]
    rcases List.mem_cons.mp hx with rfl | hm
    · simp only [beq_self_eq_true]
    · have hne : key a ≠ key x := by
        intro he
        exact hl.1 (he ▸ List.mem_map_of_mem key hm)
      have hb : (key a == key x) = false := by simpa using hne
      rw [hb]
      exact ih hl.2 hm

theorem Subscription.findById_of_mem {s : Store} (hwf : s.wf) {x : Subscription} (hx : x ∈ s.subscriptions) :
    Subscription.findById s x._id = some x :=
  find?_of_mem_nodup (fun y : Subscription => y._id) hwf.1 hx

/-- One committed iteration rewrites the documents carrying the `_id` of the
processed subscription and nothing else in the subscriptions collection. -/
theorem dispatchOne_subscriptions {env : Env} {st st1 : Session} {sub : Subscription}
    (h : dispatchOne env st sub.hydrate = Except.ok st1) :
    ∃ user doc, User.findById st.store sub.userId = some user ∧
      doc = (if sub.pricePerDay ≤ user.wallet.balance then deliveredDoc env sub else pausedDoc env sub) ∧
      st1.store.subscriptions = st.store.subscriptions.map (fun x => if x._id = sub._id then doc else x) ∧
      st1.store.products = st.store.products := by
  obtain ⟨user, hfind, hbranch⟩ := dispatchOne_ok h
  refine ⟨user, _, hfind, rfl, ?_⟩
  rcases hbranch with ⟨hle, hst⟩ | ⟨hlt, hst⟩
  · rw [hst, if_pos hle]
    exact ⟨rfl, rfl⟩
  · rw [hst, if_neg (not_le.mpr hlt)]
    exact ⟨rfl, rfl⟩

theorem deliveredDoc_id (env : Env) (sub : Subscription) : (deliveredDoc env sub)._id = sub._id := rfl

theorem pausedDoc_id (env : Env) (sub : Subscription) : (pausedDoc env sub)._id = sub._id := rfl

/-- A committed loop maps the subscriptions collection document by document, keeps
every `_id`, and leaves alone the documents whose `_id` it did not process. -/
theorem dispatchLoop_subscriptions {env : Env} {subs : List Subscription} {st fin : Session}
    (h : dispatchLoop env st subs = Except.ok fin) :
    ∃ F : Subscription → Subscription,
      fin.store.subscriptions = st.store.subscriptions.map F ∧ (∀ x, (F x)._id = x._id) ∧
        (∀ x, x._id ∉ subs.map (fun y => y._id) → F x = x) ∧ fin.store.products = st.store.products := by
  induction subs generalizing st with
  | nil =>
    simp only [dispatchLoop, Except.ok.injEq] at h
    subst h
    exact ⟨id, by simp, fun _ => rfl, fun _ _ => rfl, rfl⟩
  | cons sub rest ih =>
    obtain ⟨st1, h1, h2⟩ := dispatchLoop_cons_ok h
    obtain ⟨user, doc, _, hdoc, hs1, hp1⟩ := dispatchOne_subscriptions h1
    obtain ⟨F, hF, hid, hframe, hp⟩ := ih h2
    have hdocid : doc._id = sub._id := by
      rw [hdoc]; split <;> rfl
    refine ⟨fun x => F (if x._id = sub._id then doc else x), ?_, ?_, ?_, hp.trans hp1⟩
    · rw [hF, hs1, List.map_map]; rfl
    · intro x
      show (F _)._id = x._id
      rw [hid]
      by_cases hx : x._id = sub._id
      · simp [hx, hdocid]
      · simp [hx]
    · intro x hx
      simp only [List.map_cons, List.mem_cons, not_or] at hx
      show F _ = x
      rw [if_neg hx.1]
      exact hframe x hx.2

theorem dispatchLoop_findById {env : Env} {subs : List Subscription} {st fin : Session}
    (h : dispatchLoop env st subs = Except.ok fin) {id : ObjectId} (hid : id ∉ subs.map (fun y => y._id)) :
    Subscription.findById fin.store id = Subscription.findById st.store id := by
  obtain ⟨F, hF, hk, hframe, _⟩ := dispatchLoop_subscriptions h
  have h1 : Subscription.findById fin.store id = (Subscription.findById st.store id).map F := by
    have := Subscription.findById_mapSubscriptions st.store F hk id
    unfold Subscription.findById at this ⊢
    rw [hF]
    exact this
  rw [h1]
  cases hf : Subscription.findById st.store id with
  | none => rfl
  | some x =>
    have hx := Subscription.findById_some_id hf
    rw [Option.map_some', hframe x (hx ▸ hid)]

theorem selectSubscriptions_nodup {s : Store} (hwf : s.wf) (userIds : List ObjectId) :
    ((selectSubscriptions s userIds).map (fun y => y._id)).Nodup :=
  List.Nodup.sublist (List.Sublist.map _ (List.filter_sublist _)) hwf.1

theorem mem_selectSubscriptions {s : Store} {userIds : List ObjectId} {sub : Subscription} :
    sub ∈ selectSubscriptions s userIds ↔
      sub ∈ s.subscriptions ∧ sub.status = Status.active ∧ sub.userId ∈ userIds := by
  simp [selectSubscriptions, and_comm]

/-- The fate of one selected subscription in a committed cycle: the branch is chosen
by the owner's balance after the subscriptions processed before it, and the
document stored by that branch is the one found after the cycle. -/
theorem dispatchLoop_outcome {env : Env} {s : Store} {userIds : List ObjectId} {pre post : List Subscription}
    {sub : Subscription} {fin : Session} (hwf : s.wf)
    (hsel : selectSubscriptions s userIds = pre ++ sub :: post)
    (hfin : dispatchLoop env { store := s, saves := 0 } (selectSubscriptions s userIds) = Except.ok fin) :
    ∃ st st1 user,
      dispatchLoop env { store := s, saves := 0 } pre = Except.ok st ∧
        dispatchOne env st sub.hydrate = Except.ok st1 ∧
        dispatchLoop env st1 post = Except.ok fin ∧
        User.findById st.store sub.userId = some user ∧
        Subscription.findById fin.store sub._id =
          some (if sub.pricePerDay ≤ user.wallet.balance then deliveredDoc env sub else pausedDoc env sub) := by
  have hnd := selectSubscriptions_nodup hwf userIds
  have hmem : sub ∈ s.subscriptions :=
    (mem_selectSubscriptions.mp (by rw [hsel]; simp)).1
  rw [hsel] at hfin hnd
  obtain ⟨st, hpre, hrest⟩ := dispatchLoop_append_ok hfin
  obtain ⟨st1, hone, hpost⟩ := dispatchLoop_cons_ok hrest
  obtain ⟨user, doc, hfind, hdoc, hs1, _⟩ := dispatchOne_subscriptions hone
  rw [List.map_append, List.map_cons, List.nodup_append] at hnd
  obtain ⟨_, hnd2, hdisj⟩ := hnd
  have hnotpre : sub._id ∉ pre.map (fun y => y._id) := fun hm =>
    hdisj hm (List.mem_cons_self _ _)
  have hnotpost : sub._id ∉ post.map (fun y => y._id) := (List.nodup_cons.mp hnd2).1
  have hdocid : doc._id = sub._id := by
    rw [hdoc]; split <;> rfl
  have h0 : Subscription.findById st.store sub._id = some sub := by
    rw [dispatchLoop_findById hpre hnotpre]
    exact Subscription.findById_of_mem hwf hmem
  have h1 : Subscription.findById st1.store sub._id = some doc := by
    have := Subscription.findById_mapSubscriptions st.store (fun x => if x._id = sub._id then doc else x)
      (by intro x; by_cases hx : x._id = sub._id <;> simp [hx, hdocid]) sub._id
    unfold Subscription.findById at this h0 ⊢
    rw [hs1]
    simp only [] at this
    rw [this, h0]
    simp
  refine ⟨st, st1, user, hpre, hone, hpost, hfind, ?_⟩
  rw [dispatchLoop_findById hpost hnotpost, h1, hdoc]

/-! ## Exactly one debit per delivered subscription -/

/-- The user document found after one committed iteration. -/
theorem dispatchOne_user_eq {env : Env} {st st1 : Session} {sub : Subscription} {id : ObjectId} {u : User}
    (h : dispatchOne env st sub.hydrate = Except.ok st1) (hu : User.findById st.store id = some u) :
    User.findById st1.store id =
      some (if sub.userId = id ∧ sub.pricePerDay ≤ u.wallet.balance then chargeUser env u sub else u) := by
  obtain ⟨user, hfind, hbranch⟩ := dispatchOne_ok h
  rcases hbranch with ⟨hle, hst⟩ | ⟨hlt, hst⟩
  · have hsave : User.findById st1.store id = User.findById (User.save st.store (chargeUser env user sub)) id := by
      rw [hst]; rfl
    rw [hsave, User.findById_save]
    have hid : (chargeUser env user sub)._id = sub.userId :=
      User.findById_owner_id (u := user) hfind
    by_cases hc : id = sub.userId
    · subst hc
      rw [hu] at hfind
      cases hfind
      simp [hid, hu, hle]
    · have hc2 : ¬ sub.userId = id := fun e => hc e.symm
      simp [hid, hc, hc2, hu]
  · have hsave : User.findById st1.store id = User.findById st.store id := by
      rw [hst]; rfl
    rw [hsave, hu]
    by_cases hc : sub.userId = id
    · subst hc
      rw [hu] at hfind
      cases hfind
      simp [not_le.mpr hlt]
    · simp [hc]

theorem dispatchLoop_single {env : Env} {st st1 : Session} {sub : Subscription}
    (h : dispatchOne env st sub.hydrate = Except.ok st1) : dispatchLoop env st [sub] = Except.ok st1 := by
  simp [dispatchLoop, h]

/-- In a committed loop over documents with pairwise different `_id`s, each read as
stored, the transactions appended to a wallet are the debits of the owner's
subscriptions that were delivered, one each, in processing order. -/
theorem dispatchLoop_charges {env : Env} {subs : List Subscription} {st fin : Session}
    (h : dispatchLoop env st subs = Except.ok fin) (hnd : (subs.map (fun y => y._id)).Nodup)
    (hstored : ∀ sub ∈ subs, Subscription.findById st.store sub._id = some sub)
    {id : ObjectId} {u : User} (hu : User.findById st.store id = some u) :
    ∃ u1, User.findById fin.store id = some u1 ∧
      u1.wallet.transactions = u.wallet.transactions ++
        ((subs.filter (fun sub => decide (sub.userId = id) && deliveredIn env fin.store sub)).map (debitOf env)) := by
  induction subs generalizing st u with
  | nil =>
    simp only [dispatchLoop, Except.ok.injEq] at h
    subst h
    exact ⟨u, hu, by simp⟩
  | cons sub rest ih =>
    obtain ⟨st1, h1, h2⟩ := dispatchLoop_cons_ok h
    rw [List.map_cons, List.nodup_cons] at hnd
    obtain ⟨hnot, hnd2⟩ := hnd
    have hstored1 : ∀ x ∈ rest, Subscription.findById st1.store x._id = some x := by
      intro x hx
      have hne : x._id ∉ [sub].map (fun y => y._id) := by
        intro hm
        simp only [List.map_cons, List.map_nil, List.mem_singleton] at hm
        exact hnot (hm ▸ List.mem_map_of_mem (fun y => y._id) hx)
      rw [dispatchLoop_findById (dispatchLoop_single h1) hne]
      exact hstored x (List.mem_cons_of_mem _ hx)
    obtain ⟨user, doc, hfind, hdoc, hs1, _⟩ := dispatchOne_subscriptions h1
    have hdocid : doc._id = sub._id := by
      rw [hdoc]; split <;> rfl
    have hfinal : Subscription.findById fin.store sub._id = some doc := by
      rw [dispatchLoop_findById h2 hnot]
      have := Subscription.findById_mapSubscriptions st.store (fun x => if x._id = sub._id then doc else x)
        (by intro x; by_cases hx : x._id = sub._id <;> simp [hx, hdocid]) sub._id
      unfold Subscription.findById at this ⊢
      rw [hs1]
      simp only [] at this
      have h0 := hstored sub (List.mem_cons_self _ _)
      unfold Subscription.findById at h0
      rw [this, h0]
      simp
    have hu1 := dispatchOne_user_eq h1 hu
    obtain ⟨u1, hf, htx⟩ := ih h2 hnd2 hstored1 hu1
    refine ⟨u1, hf, ?_⟩
    rw [htx, List.filter_cons]
    by_cases hc : sub.userId = id
    · subst hc
      rw [hu] at hfind
      cases hfind
      by_cases hle : sub.pricePerDay ≤ u.wallet.balance
      · have hdel : deliveredIn env fin.store sub = true := by
          simp [deliveredIn, hfinal, hdoc, hle, deliveredDoc]
        simp [hle, hdel, chargeUser, castTransaction, debitOf]
      · have hdel : deliveredIn env fin.store sub = false := by
          simp [deliveredIn, hfinal, hdoc, hle, pausedDoc]
        simp [hle, hdel]
    · simp [hc]

/-! ## The handler and its transaction -/

theorem dispatchDeliveries_of_ok {env : Env} {s : Store} {userIds : List ObjectId} {fin : Session}
    (h : dispatchLoop env { store := s, saves := 0 } (selectSubscriptions s userIds) = Except.ok fin) :
    dispatchDeliveries env s userIds =
      ({ status := 200, body := [("message", Payload.text "Deliveries updated successfully")] }, fin.store) := by
  unfold dispatchDeliveries
  rw [h]

theorem dispatchDeliveries_of_error {env : Env} {s : Store} {userIds : List ObjectId} {e : Failure}
    (h : dispatchLoop env { store := s, saves := 0 } (selectSubscriptions s userIds) = Except.error e) :
    dispatchDeliveries env s userIds = (failed "Error updating deliveries" e, s) := by
  unfold dispatchDeliveries
  rw [h]
  rfl

theorem dispatchDeliveries_committed {env : Env} {s : Store} {userIds : List ObjectId}
    (h : (dispatchDeliveries env s userIds).1.status = 200) :
    ∃ fin, dispatchLoop env { store := s, saves := 0 } (selectSubscriptions s userIds) = Except.ok fin ∧
      (dispatchDeliveries env s userIds).2 = fin.store := by
  cases hl : dispatchLoop env { store := s, saves := 0 } (selectSubscriptions s userIds) with
  | error e =>
    rw [dispatchDeliveries_of_error hl] at h
    simp [failed] at h
  | ok fin => exact ⟨fin, rfl, by rw [dispatchDeliveries_of_ok hl]⟩

theorem dispatchLoop_append_error {env : Env} {pre post : List Subscription} {st mid : Session} {e : Failure}
    (hpre : dispatchLoop env st pre = Except.ok mid) (hpost : dispatchLoop env mid post = Except.error e) :
    dispatchLoop env st (pre ++ post) = Except.error e := by
  induction pre generalizing st with
  | nil =>
    simp only [dispatchLoop, Except.ok.injEq] at hpre
    subst hpre
    exact hpost
  | cons a pre ih =>
    obtain ⟨st1, h1, h2⟩ := dispatchLoop_cons_ok hpre
    simp only [List.cons_append, dispatchLoop, h1]
    exact ih h2

/-- A committed loop maps the users collection document by document, keeps every
`_id`, and leaves alone the users that own none of the processed subscriptions. -/
theorem dispatchLoop_users {env : Env} {subs : List Subscription} {st fin : Session}
    (h : dispatchLoop env st subs = Except.ok fin) :
    ∃ G : User → User,
      fin.store.users = st.store.users.map G ∧ (∀ x, (G x)._id = x._id) ∧
        (∀ x, x._id ∉ subs.map (fun y => y.userId) → G x = x) := by
  induction subs generalizing st with
  | nil =>
    simp only [dispatchLoop, Except.ok.injEq] at h
    subst h
    exact ⟨id, by simp, fun _ => rfl, fun _ _ => rfl⟩
  | cons sub rest ih =>
    obtain ⟨st1, h1, h2⟩ := dispatchLoop_cons_ok h
    obtain ⟨G, hG, hid, hframe⟩ := ih h2
    obtain ⟨user, hfind, hbranch⟩ := dispatchOne_ok h1
    have huid : user._id = sub.userId := User.findById_owner_id hfind
    rcases hbranch with ⟨_, hst⟩ | ⟨_, hst⟩
    · refine ⟨fun x => G (if x._id = sub.userId then chargeUser env user sub else x), ?_, ?_, ?_⟩
      · rw [hG, hst]
        show List.map G (List.map (fun x => if x._id = (chargeUser env user sub)._id then _ else x) _) = _
        rw [List.map_map]
        show _ = List.map (fun x => G (if x._id = sub.userId then chargeUser env user sub else x)) _
        have : (chargeUser env user sub)._id = sub.userId := huid
        rw [this]
        rfl
      · intro x
        show (G _)._id = x._id
        rw [hid]
        by_cases hx : x._id = sub.userId
        · rw [if_pos hx, hx]; exact huid
        · rw [if_neg hx]
      · intro x hx
        simp only [List.map_cons, List.mem_cons, not_or] at hx
        show G _ = x
        rw [if_neg hx.1]
        exact hframe x hx.2
    · refine ⟨G, ?_, hid, ?_⟩
      · rw [hG, hst]; rfl
      · intro x hx
        simp only [List.map_cons, List.mem_cons, not_or] at hx
        exact hframe x hx.2

theorem dispatchLoop_user_none {env : Env} {subs : List Subscription} {st fin : Session}
    (h : dispatchLoop env st subs = Except.ok fin) {id : ObjectId} (hn : User.findById st.store id = none) :
    User.findById fin.store id = none := by
  obtain ⟨G, hG, hk, _⟩ := dispatchLoop_users h
  have := User.findById_mapUsers st.store G hk id
  unfold User.findById at this hn ⊢
  rw [hG]
  simp only [] at this
  rw [this, hn]
  rfl

/-! ## The two branches of a dispatch cycle -/

/-- C1. The scenario "balance 100, price 30" on the code: the cycle commits, the
balance is 70 with one debit of 30, the subscription stays active with one
delivered entry; the `lastDelivered` assigned on the in-memory document is not a
schema path, so the stored document read back carries no `lastDelivered`. -/
theorem dispatch_sufficient_funds_scenario :
    (dispatchDeliveries sampleEnv (oneSubscriptionStore 100 30) [1]).1.status = 200 ∧
      (User.findById (dispatchDeliveries sampleEnv (oneSubscriptionStore 100 30) [1]).2 1).map
          (fun u => u.wallet) =
        some { balance := 70, transactions := [{ amount := 30, type := TxnType.debit, date := 1000 }] } ∧
      (Subscription.findById (dispatchDeliveries sampleEnv (oneSubscriptionStore 100 30) [1]).2 10).map
          (fun x => (x.status, x.deliveryHistory)) =
        some (Status.active, [{ date := 1000, status := DeliveryStatus.delivered }]) ∧
      (markDelivered sampleEnv
          (sampleSubscription 10 1 30 Status.active PauseReason.none).hydrate).lastDelivered = some 1000 ∧
      (Subscription.findById (dispatchDeliveries sampleEnv (oneSubscriptionStore 100 30) [1]).2 10).map
          (fun x => x.hydrate.lastDelivered) = some none := by
  decide

/-- The sufficient-funds branch in general: the step debits the owner once and the
committed store holds the subscription with one delivered entry appended. -/
theorem sufficient_funds_branch (env : Env) (s : Store) (userIds : List ObjectId)
    (pre post : List Subscription) (sub : Subscription) (st : Session) (user : User) (hwf : s.wf)
    (hsel : selectSubscriptions s userIds = pre ++ sub :: post)
    (hcommit : (dispatchDeliveries env s userIds).1.status = 200)
    (hpre : dispatchLoop env { store := s, saves := 0 } pre = Except.ok st)
    (hu : User.findById st.store sub.userId = some user)
    (hle : sub.pricePerDay ≤ user.wallet.balance) :
    (∃ st1, dispatchOne env st sub.hydrate = Except.ok st1 ∧
        User.findById st1.store sub.userId = some (chargeUser env user sub)) ∧
      Subscription.findById (dispatchDeliveries env s userIds).2 sub._id = some (deliveredDoc env sub) := by
  obtain ⟨fin, hfin, hout⟩ := dispatchDeliveries_committed hcommit
  obtain ⟨st0, st1, user0, hpre0, hone, _, hfind, hstored⟩ := dispatchLoop_outcome hwf hsel hfin
  rw [hpre] at hpre0
  cases hpre0
  rw [hu] at hfind
  cases hfind
  refine ⟨⟨st1, hone, ?_⟩, ?_⟩
  · rw [dispatchOne_user_eq hone hu]
    simp [hle]
  · rw [hout, hstored, if_pos hle]

/-- C2. Insufficient-funds branch: when the owner's balance read for a selected
subscription is below its price, the iteration leaves the users collection as it
was, and the committed store holds the subscription paused with reason
`insufficient_balance` and its delivery history unchanged. -/
theorem dispatch_insufficient_funds (env : Env) (s : Store) (userIds : List ObjectId)
    (pre post : List Subscription) (sub : Subscription) (st : Session) (user : User) (hwf : s.wf)
    (hsel : selectSubscriptions s userIds = pre ++ sub :: post)
    (hcommit : (dispatchDeliveries env s userIds).1.status = 200)
    (hpre : dispatchLoop env { store := s, saves := 0 } pre = Except.ok st)
    (hu : User.findById st.store sub.userId = some user)
    (hlt : user.wallet.balance < sub.pricePerDay) :
    (∃ st1, dispatchOne env st sub.hydrate = Except.ok st1 ∧ st1.store.users = st.store.users) ∧
      ∃ stored, Subscription.findById (dispatchDeliveries env s userIds).2 sub._id = some stored ∧
        stored.status = Status.paused ∧ stored.pauseReason = PauseReason.insufficient_balance ∧
        stored.deliveryHistory = sub.deliveryHistory := by
  obtain ⟨fin, hfin, hout⟩ := dispatchDeliveries_committed hcommit
  obtain ⟨st0, st1, user0, hpre0, hone, _, hfind, hstored⟩ := dispatchLoop_outcome hwf hsel hfin
  rw [hpre] at hpre0
  cases hpre0
  rw [hu] at hfind
  cases hfind
  refine ⟨⟨st1, hone, ?_⟩, pausedDoc env sub, ?_, rfl, rfl, rfl⟩
  · obtain ⟨user1, hfind1, hbranch⟩ := dispatchOne_ok hone
    rw [hu] at hfind1
    cases hfind1
    rcases hbranch with ⟨hle, _⟩ | ⟨_, hst⟩
    · exact absurd hle (not_le.mpr hlt)
    · rw [hst]; rfl
  · rw [hout, hstored, if_neg (not_le.mpr hlt)]

theorem dispatch_insufficient_funds_witness :
    (User.findById (oneSubscriptionStore 10 30) 1).map (fun u => u.wallet.balance) = some 10 ∧
      ∃ stored, Subscription.findById (dispatchDeliveries sampleEnv (oneSubscriptionStore 10 30) [1]).2 10 =
          some stored ∧
        stored.status = Status.paused ∧ stored.pauseReason = PauseReason.insufficient_balance ∧
        stored.deliveryHistory = [] :=
  ⟨by decide,
    (dispatch_insufficient_funds sampleEnv (oneSubscriptionStore 10 30) [1] [] []
      (sampleSubscription 10 1 30 Status.active PauseReason.none)
      { store := oneSubscriptionStore 10 30, saves := 0 } (sampleUser 1 10)
      (by decide) (by decide) (by decide) rfl (by decide) (by decide)).2⟩

/-- C5 as stated fails: an active subscription that still carries the reason
`insufficient_balance` is delivered from a balance of 100 at price 30 and ends the
committed cycle with that pause reason. -/
theorem pause_reason_iff_counterexample :
    (dispatchDeliveries sampleEnv staleReasonStore [1]).1.status = 200 ∧
      selectSubscriptions staleReasonStore [1] =
        [sampleSubscription 10 1 30 Status.active PauseReason.insufficient_balance] ∧
      (User.findById staleReasonStore 1).map (fun u => u.wallet.balance) = some 100 ∧
      (Subscription.findById (dispatchDeliveries sampleEnv staleReasonStore [1]).2 10).map
          (fun x => (x.status, x.pauseReason, x.deliveryHistory)) =
        some (Status.active, PauseReason.insufficient_balance,
          [{ date := 1000, status := DeliveryStatus.delivered }]) ∧
      ¬ ((100 : Int) < 30) := by
  decide

/-- C5, amended. In a committed cycle a selected subscription ends paused, and then
with reason `insufficient_balance`, exactly when the owner's balance read at its
turn (after the debits of the subscriptions processed before it) is below its
price; it gets a delivered entry exactly when that balance covers the price. -/
theorem pause_correctness (env : Env) (s : Store) (userIds : List ObjectId)
    (pre post : List Subscription) (sub : Subscription) (st : Session) (user : User) (hwf : s.wf)
    (hsel : selectSubscriptions s userIds = pre ++ sub :: post)
    (hcommit : (dispatchDeliveries env s userIds).1.status = 200)
    (hpre : dispatchLoop env { store := s, saves := 0 } pre = Except.ok st)
    (hu : User.findById st.store sub.userId = some user) :
    ∃ stored, Subscription.findById (dispatchDeliveries env s userIds).2 sub._id = some stored ∧
      (stored.status = Status.paused ↔ user.wallet.balance < sub.pricePerDay) ∧
      (stored.status = Status.paused ∧ stored.pauseReason = PauseReason.insufficient_balance ↔
        user.wallet.balance < sub.pricePerDay) ∧
      (stored.deliveryHistory =
          sub.deliveryHistory ++ [{ date := env.now, status := DeliveryStatus.delivered }] ↔
        sub.pricePerDay ≤ user.wallet.balance) := by
  obtain ⟨fin, hfin, hout⟩ := dispatchDeliveries_committed hcommit
  obtain ⟨st0, st1, user0, hpre0, _, _, hfind, hstored⟩ := dispatchLoop_outcome hwf hsel hfin
  rw [hpre] at hpre0
  cases hpre0
  rw [hu] at hfind
  cases hfind
  have hactive : sub.status = Status.active :=
    (mem_selectSubscriptions.mp (by rw [hsel]; simp)).2.1
  by_cases hle : sub.pricePerDay ≤ user.wallet.balance
  · refine ⟨deliveredDoc env sub, by rw [hout, hstored, if_pos hle], ?_, ?_, ?_⟩
    · simp [deliveredDoc, hactive, not_lt.mpr hle]
    · simp [deliveredDoc, hactive, not_lt.mpr hle]
    · simp [deliveredDoc, hle]
  · refine ⟨pausedDoc env sub, by rw [hout, hstored, if_neg hle], ?_, ?_, ?_⟩
    · simp [pausedDoc, not_le.mp hle]
    · simp [pausedDoc, not_le.mp hle]
    · simp [pausedDoc, hle]

theorem pause_correctness_witness :
    ∃ stored, Subscription.findById (dispatchDeliveries sampleEnv staleReasonStore [1]).2 10 = some stored ∧
      (stored.status = Status.paused ↔ (100 : Int) < 30) ∧
      (stored.status = Status.paused ∧ stored.pauseReason = PauseReason.insufficient_balance ↔
        (100 : Int) < 30) ∧
      (stored.deliveryHistory = [] ++ [{ date := 1000, status := DeliveryStatus.delivered }] ↔
        (30 : Int) ≤ 100) :=
  pause_correctness sampleEnv staleReasonStore [1] [] []
    (sampleSubscription 10 1 30 Status.active PauseReason.insufficient_balance)
    { store := staleReasonStore, saves := 0 } (sampleUser 1 100)
    (by decide) (by decide) (by decide) rfl (by decide)

/-! ## Whole-cycle properties -/

theorem not_deliveredIn_of_stored (env : Env) {s : Store} {sub : Subscription}
    (h : Subscription.findById s sub._id = some sub) : deliveredIn env s sub = false := by
  simp [deliveredIn, h]

/-- C6. At most one charge per cycle per subscription: after a run, every stored
subscription has its old delivery history or that history plus one delivered
entry, and the transactions appended to a wallet are the debits of the owner's
selected subscriptions that got that entry, one for each. -/
theorem at_most_one_charge (env : Env) (s : Store) (userIds : List ObjectId) (hwf : s.wf) :
    (∀ x ∈ s.subscriptions, ∃ stored,
        Subscription.findById (dispatchDeliveries env s userIds).2 x._id = some stored ∧
          (stored.deliveryHistory = x.deliveryHistory ∨
            stored.deliveryHistory =
              x.deliveryHistory ++ [{ date := env.now, status := DeliveryStatus.delivered }])) ∧
      (∀ (id : ObjectId) (u : User), User.findById s id = some u →
        ∃ u1, User.findById (dispatchDeliveries env s userIds).2 id = some u1 ∧
          u1.wallet.transactions = u.wallet.transactions ++
            (((selectSubscriptions s userIds).filter
              (fun sub => decide (sub.userId = id) &&
                deliveredIn env (dispatchDeliveries env s userIds).2 sub)).map (debitOf env))) := by
  cases hl : dispatchLoop env { store := s, saves := 0 } (selectSubscriptions s userIds) with
  | error e =>
    rw [dispatchDeliveries_of_error hl]
    refine ⟨fun x hx => ⟨x, Subscription.findById_of_mem hwf hx, Or.inl rfl⟩, fun id u hu => ⟨u, hu, ?_⟩⟩
    have hnone : (selectSubscriptions s userIds).filter
        (fun sub => decide (sub.userId = id) && deliveredIn env s sub) = [] := by
      rw [List.filter_eq_nil_iff]
      intro sub hsub
      have hmem := (mem_selectSubscriptions.mp hsub).1
      simp [not_deliveredIn_of_stored env (Subscription.findById_of_mem hwf hmem)]
    simp only [hnone, List.map_nil, List.append_nil]
  | ok fin =>
    rw [dispatchDeliveries_of_ok hl]
    refine ⟨fun x hx => ?_, fun id u hu => ?_⟩
    · by_cases hsel : x ∈ selectSubscriptions s userIds
      · obtain ⟨pre, post, hsplit⟩ := List.append_of_mem hsel
        obtain ⟨_, _, user, _, _, _, _, hstored⟩ := dispatchLoop_outcome hwf hsplit hl
        refine ⟨_, hstored, ?_⟩
        by_cases hle : x.pricePerDay ≤ user.wallet.balance
        · right; rw [if_pos hle]; rfl
        · left; rw [if_neg hle]; rfl
      · have hid : x._id ∉ (selectSubscriptions s userIds).map (fun y => y._id) := by
          intro hm
          obtain ⟨y, hy, hyx⟩ := List.mem_map.mp hm
          have hymem := (mem_selectSubscriptions.mp hy).1
          have : y = x := List.inj_on_of_nodup_map hwf.1 hymem hx hyx
          exact hsel (this ▸ hy)
        exact ⟨x, by rw [dispatchLoop_findById hl hid]; exact Subscription.findById_of_mem hwf hx, Or.inl rfl⟩
    · exact dispatchLoop_charges hl (selectSubscriptions_nodup hwf userIds)
        (fun sub hsub => Subscription.findById_of_mem hwf (mem_selectSubscriptions.mp hsub).1) hu

theorem at_most_one_charge_witness :
    twoSubscriptionStore.wf ∧
      ∃ u1, User.findById (dispatchDeliveries sampleEnv twoSubscriptionStore [1]).2 1 = some u1 ∧
        u1.wallet.transactions = (sampleUser 1 100).wallet.transactions ++
          (((selectSubscriptions twoSubscriptionStore [1]).filter
            (fun sub => decide (sub.userId = 1) &&
              deliveredIn sampleEnv (dispatchDeliveries sampleEnv twoSubscriptionStore [1]).2 sub)).map
            (debitOf sampleEnv)) :=
  ⟨by decide, (at_most_one_charge sampleEnv twoSubscriptionStore [1] (by decide)).2 1 (sampleUser 1 100)
    (by decide)⟩

/-- C7. Batch-level rollback: when a `save()` issued for a selected subscription
fails, after the subscriptions before it were processed and written, the cycle
answers 500 and the store is the pre-cycle store. -/
theorem rollback_on_failed_write (env : Env) (s : Store) (userIds : List ObjectId)
    (pre post : List Subscription) (sub : Subscription) (st : Session) (user : User)
    (hsel : selectSubscriptions s userIds = pre ++ sub :: post)
    (hpre : dispatchLoop env { store := s, saves := 0 } pre = Except.ok st)
    (hu : User.findById st.store sub.userId = some user)
    (hfail : env.saveFails st.saves = true ∨
      (sub.pricePerDay ≤ user.wallet.balance ∧ env.saveFails (st.saves + 1) = true)) :
    (dispatchDeliveries env s userIds).1.status = 500 ∧
      (dispatchDeliveries env s userIds).1.keys = ["message", "error"] ∧
      (dispatchDeliveries env s userIds).2 = s := by
  have hone : dispatchOne env st sub.hydrate = Except.error Failure.storeError := by
    unfold dispatchOne
    simp only [Subscription.hydrate, hu]
    rcases hfail with h0 | ⟨hle, h1⟩
    · by_cases hle : sub.pricePerDay ≤ user.wallet.balance
      · simp [hle, h0]
      · simp [hle, h0]
    · by_cases h0 : env.saveFails st.saves = true
      · simp [hle, h0]
      · simp [hle, h0, h1]
  have hrest : dispatchLoop env st (sub :: post) = Except.error Failure.storeError := by
    simp [dispatchLoop, hone]
  have hloop := dispatchLoop_append_error hpre hrest
  rw [← hsel] at hloop
  rw [dispatchDeliveries_of_error hloop]
  exact ⟨rfl, rfl, rfl⟩

theorem rollback_on_failed_write_witness :
    (dispatchDeliveries (failingEnv 2) twoSubscriptionStore [1]).1.status = 500 ∧
      (dispatchDeliveries (failingEnv 2) twoSubscriptionStore [1]).1.keys = ["message", "error"] ∧
      (dispatchDeliveries (failingEnv 2) twoSubscriptionStore [1]).2 = twoSubscriptionStore :=
  rollback_on_failed_write (failingEnv 2) twoSubscriptionStore [1]
    [sampleSubscription 10 1 30 Status.active PauseReason.none] []
    (sampleSubscription 11 1 50 Status.active PauseReason.none)
    (afterFirstDelivery (failingEnv 2))
    (chargeUser (failingEnv 2) (sampleUser 1 100) (sampleSubscription 10 1 30 Status.active PauseReason.none))
    (by decide) rfl (by decide) (Or.inl rfl)

/-- C8. A missing owner is fatal: when a selected subscription names a user that has
no document, the cycle answers 500 and the store is the pre-cycle store. -/
theorem missing_owner_aborts (env : Env) (s : Store) (userIds : List ObjectId) (sub : Subscription)
    (hsub : sub ∈ selectSubscriptions s userIds) (hnone : User.findById s sub.userId = none) :
    (dispatchDeliveries env s userIds).1.status = 500 ∧
      (dispatchDeliveries env s userIds).1.keys = ["message", "error"] ∧
      (dispatchDeliveries env s userIds).2 = s := by
  cases hl : dispatchLoop env { store := s, saves := 0 } (selectSubscriptions s userIds) with
  | error e =>
    rw [dispatchDeliveries_of_error hl]
    exact ⟨rfl, rfl, rfl⟩
  | ok fin =>
    exfalso
    obtain ⟨pre, post, hsplit⟩ := List.append_of_mem hsub
    rw [hsplit] at hl
    obtain ⟨st, hpre, hrest⟩ := dispatchLoop_append_ok hl
    obtain ⟨st1, hone, _⟩ := dispatchLoop_cons_ok hrest
    obtain ⟨user, hfind, _⟩ := dispatchOne_ok hone
    rw [dispatchLoop_user_none hpre hnone] at hfind
    cases hfind

theorem missing_owner_aborts_witness :
    User.findById orphanStore 2 = none ∧
      (dispatchDeliveries sampleEnv orphanStore [1, 2]).1.status = 500 ∧
      (dispatchDeliveries sampleEnv orphanStore [1, 2]).1.keys = ["message", "error"] ∧
      (dispatchDeliveries sampleEnv orphanStore [1, 2]).2 = orphanStore :=
  ⟨by decide,
    missing_owner_aborts sampleEnv orphanStore [1, 2] (sampleSubscription 11 2 30 Status.active PauseReason.none)
      (by decide) (by decide)⟩

/-- C9 as stated fails: the response of a committed cycle has the single member
`message`; it holds no `delivered`, `paused` or `skipped` list. -/
theorem dispatch_result_counterexample :
    (dispatchDeliveries sampleEnv (oneSubscriptionStore 100 30) [1]).1.keys = ["message"] ∧
      ¬ ("delivered" ∈ (dispatchDeliveries sampleEnv (oneSubscriptionStore 100 30) [1]).1.keys) ∧
      ¬ ("paused" ∈ (dispatchDeliveries sampleEnv (oneSubscriptionStore 100 30) [1]).1.keys) ∧
      ¬ ("skipped" ∈ (dispatchDeliveries sampleEnv (oneSubscriptionStore 100 30) [1]).1.keys) := by
  decide

/-- C9, amended. The response carries no outcome list, only `message` (and `error`
on abort).  In a committed cycle every selected subscription has exactly one of
two outcomes in the store: delivered (history extended, still active) or paused
for insufficient balance (history as before). -/
theorem dispatch_result (env : Env) (s : Store) (userIds : List ObjectId) (hwf : s.wf) :
    ((dispatchDeliveries env s userIds).1.keys = ["message"] ∨
        (dispatchDeliveries env s userIds).1.keys = ["message", "error"]) ∧
      ((dispatchDeliveries env s userIds).1.status = 200 →
        (dispatchDeliveries env s userIds).1.keys = ["message"] ∧
          ∀ sub ∈ selectSubscriptions s userIds,
            (Subscription.findById (dispatchDeliveries env s userIds).2 sub._id = some (deliveredDoc env sub) ∨
                Subscription.findById (dispatchDeliveries env s userIds).2 sub._id = some (pausedDoc env sub)) ∧
              deliveredDoc env sub ≠ pausedDoc env sub) := by
  cases hl : dispatchLoop env { store := s, saves := 0 } (selectSubscriptions s userIds) with
  | error e =>
    rw [dispatchDeliveries_of_error hl]
    exact ⟨Or.inr rfl, fun h => by simp [failed] at h⟩
  | ok fin =>
    rw [dispatchDeliveries_of_ok hl]
    refine ⟨Or.inl rfl, fun _ => ⟨rfl, fun sub hsub => ⟨?_, ?_⟩⟩⟩
    · obtain ⟨pre, post, hsplit⟩ := List.append_of_mem hsub
      obtain ⟨_, _, user, _, _, _, _, hstored⟩ := dispatchLoop_outcome hwf hsplit hl
      by_cases hle : sub.pricePerDay ≤ user.wallet.balance
      · left; rw [hstored, if_pos hle]
      · right; rw [hstored, if_neg hle]
    · intro heq
      have := congrArg (fun x => x.deliveryHistory) heq
      simp [deliveredDoc, pausedDoc] at this

theorem dispatch_result_witness :
    twoSubscriptionStore.wf ∧
      ((dispatchDeliveries sampleEnv twoSubscriptionStore [1]).1.keys = ["message"] ∨
        (dispatchDeliveries sampleEnv twoSubscriptionStore [1]).1.keys = ["message", "error"]) :=
  ⟨by decide, (dispatch_result sampleEnv twoSubscriptionStore [1] (by decide)).1⟩

/-- C10. Dispatch frame: the cycle runs over the active subscriptions whose owner
is in `userIds` and, when it commits, rewrites each of them; a subscription that
is not active or whose owner is not in `userIds` keeps its place and content, so
does every user that owns no selected subscription, and so do the products. -/
theorem dispatch_frame (env : Env) (s : Store) (userIds : List ObjectId) (hwf : s.wf) :
    (∀ sub, sub ∈ selectSubscriptions s userIds ↔
        sub ∈ s.subscriptions ∧ sub.status = Status.active ∧ sub.userId ∈ userIds) ∧
      ((dispatchDeliveries env s userIds).1.status = 200 →
        ∀ sub ∈ selectSubscriptions s userIds,
          Subscription.findById (dispatchDeliveries env s userIds).2 sub._id ≠ some sub) ∧
      (∀ (i : Nat) (x : Subscription), s.subscriptions[i]? = some x →
        ¬ (x.status = Status.active ∧ x.userId ∈ userIds) →
          (dispatchDeliveries env s userIds).2.subscriptions[i]? = some x) ∧
      (∀ (i : Nat) (u : User), s.users[i]? = some u →
        (∀ sub ∈ selectSubscriptions s userIds, sub.userId ≠ u._id) →
          (dispatchDeliveries env s userIds).2.users[i]? = some u) ∧
      (dispatchDeliveries env s userIds).2.products = s.products := by
  refine ⟨fun sub => mem_selectSubscriptions, ?_⟩
  cases hl : dispatchLoop env { store := s, saves := 0 } (selectSubscriptions s userIds) with
  | error e =>
    rw [dispatchDeliveries_of_error hl]
    exact ⟨fun h => by simp [failed] at h, fun i x hx _ => hx, fun i u hu _ => hu, rfl⟩
  | ok fin =>
    rw [dispatchDeliveries_of_ok hl]
    obtain ⟨F, hF, _, hframe, hprod⟩ := dispatchLoop_subscriptions hl
    obtain ⟨G, hG, _, hframeU⟩ := dispatchLoop_users hl
    refine ⟨fun _ sub hsub => ?_, fun i x hx hnot => ?_, fun i u hu hnot => ?_, hprod⟩
    · obtain ⟨pre, post, hsplit⟩ := List.append_of_mem hsub
      obtain ⟨_, _, user, _, _, _, _, hstored⟩ := dispatchLoop_outcome hwf hsplit hl
      have hactive : sub.status = Status.active := (mem_selectSubscriptions.mp hsub).2.1
      show Subscription.findById fin.store sub._id ≠ some sub
      rw [hstored]
      intro heq
      by_cases hle : sub.pricePerDay ≤ user.wallet.balance
      · rw [if_pos hle] at heq
        have := congrArg (fun o => o.map (fun x => x.deliveryHistory)) heq
        simp [deliveredDoc] at this
      · rw [if_neg hle] at heq
        have := congrArg (fun o => o.map (fun x => x.status)) heq
        simp [pausedDoc, hactive] at this
    · show fin.store.subscriptions[i]? = some x
      have hxmem : x ∈ s.subscriptions := List.getElem?_mem hx
      have hid : x._id ∉ (selectSubscriptions s userIds).map (fun y => y._id) := by
        intro hm
        obtain ⟨y, hy, hyx⟩ := List.mem_map.mp hm
        have hy2 := mem_selectSubscriptions.mp hy
        have : y = x := List.inj_on_of_nodup_map hwf.1 hy2.1 hxmem hyx
        subst this
        exact hnot ⟨hy2.2.1, hy2.2.2⟩
      rw [hF, List.getElem?_map]
      show Option.map F (s.subscriptions[i]?) = some x
      rw [hx, Option.map_some', hframe x hid]
    · show fin.store.users[i]? = some u
      have hid : u._id ∉ (selectSubscriptions s userIds).map (fun y => y.userId) := by
        intro hm
        obtain ⟨y, hy, hyu⟩ := List.mem_map.mp hm
        exact hnot y hy hyu
      rw [hG, List.getElem?_map]
      show Option.map G (s.users[i]?) = some u
      rw [hu, Option.map_some', hframeU u hid]

theorem dispatch_frame_witness :
    frameStore.wf ∧
      (dispatchDeliveries sampleEnv frameStore [1]).2.subscriptions[1]? =
        some (sampleSubscription 11 2 30 Status.paused PauseReason.user_paused) ∧
      (dispatchDeliveries sampleEnv frameStore [1]).2.users[1]? = some (sampleUser 2 5) :=
  ⟨by decide,
    (dispatch_frame sampleEnv frameStore [1] (by decide)).2.2.1 1
      (sampleSubscription 11 2 30 Status.paused PauseReason.user_paused) (by decide) (by decide),
    (dispatch_frame sampleEnv frameStore [1] (by decide)).2.2.2.1 1 (sampleUser 2 5) (by decide) (by decide)⟩

/-! ## The sweep -/

/-- C11. The sweep on the code: an active subscription at price 30 whose owner has
balance 10 ends with status paused but with its pause reason still `none`, the
wallet untouched; the insufficient-funds branch of `dispatchDeliveries` on the same
store records `insufficient_balance`. -/
theorem sweep_pause_reason_scenario :
    (pauseInsufficientBalanceSubscriptions sampleEnv (oneSubscriptionStore 10 30)).1.status = 200 ∧
      (pauseInsufficientBalanceSubscriptions sampleEnv (oneSubscriptionStore 10 30)).2.subscriptions.map
          (fun x => (x._id, x.status, x.pauseReason)) =
        [(10, Status.paused, PauseReason.none)] ∧
      (pauseInsufficientBalanceSubscriptions sampleEnv (oneSubscriptionStore 10 30)).2.users =
        (oneSubscriptionStore 10 30).users ∧
      (dispatchDeliveries sampleEnv (oneSubscriptionStore 10 30) [1]).2.subscriptions.map
          (fun x => (x._id, x.status, x.pauseReason)) =
        [(10, Status.paused, PauseReason.insufficient_balance)] := by
  decide

theorem needsPause_congr {s s1 : Store} (h : s1.users = s.users) (sub : Subscription) :
    needsPause s1 sub = needsPause s sub := by
  unfold needsPause
  rw [findById_congr_users h]

/-- A sweep iteration that does not throw: nothing happens when the test fails, the
paused document is saved when it holds. -/
theorem sweepOne_ok {env : Env} {st st1 : Session} {sub : Subscription}
    (h : sweepOne env st sub.hydrate = Except.ok st1) :
    (needsPause st.store sub = false ∧ st1 = st) ∨
      (needsPause st.store sub = true ∧
        st1.store = SubscriptionDoc.save env st.store
          (Subscription.hydrate { sub with status := Status.paused })) := by
  unfold sweepOne at h
  unfold needsPause
  simp only [Subscription.hydrate] at h ⊢
  cases hu : User.findById st.store sub.userId with
  | none =>
    simp only [hu, Except.ok.injEq] at h
    exact Or.inl ⟨rfl, h.symm⟩
  | some user =>
    simp only [hu] at h ⊢
    by_cases hb : user.wallet.balance < sub.pricePerDay
    · right
      simp only [hb, if_true] at h
      by_cases h0 : env.saveFails st.saves = true
      · simp [h0] at h
      · simp only [h0, Bool.false_eq_true, if_false, Except.ok.injEq] at h
        exact ⟨by simp [hb], by rw [← h]⟩
    · left
      simp only [hb, if_false, Except.ok.injEq] at h
      exact ⟨by simp [hb], h.symm⟩

theorem sweepLoop_cons_ok {env : Env} {st fin : Session} {sub : Subscription} {rest : List Subscription}
    (h : sweepLoop env st (sub :: rest) = (fin, none)) :
    ∃ st1, sweepOne env st sub.hydrate = Except.ok st1 ∧ sweepLoop env st1 rest = (fin, none) := by
  unfold sweepLoop at h
  cases h1 : sweepOne env st sub.hydrate with
  | error e => simp [h1] at h
  | ok st1 => exact ⟨st1, rfl, by simpa [h1] using h⟩

/-- After a sweep loop without a failed write, a document that is still active was
there before the loop, and no processed subscription with its `_id` met the test. -/
theorem sweepLoop_active {env : Env} {subs : List Subscription} {st fin : Session}
    (h : sweepLoop env st subs = (fin, none)) {x : Subscription} (hx : x ∈ fin.store.subscriptions)
    (hactive : x.status = Status.active) :
    x ∈ st.store.subscriptions ∧ ∀ sub ∈ subs, sub._id = x._id → needsPause st.store sub = false := by
  induction subs generalizing st with
  | nil =>
    simp only [sweepLoop, Prod.mk.injEq, and_true] at h
    subst h
    exact ⟨hx, fun _ hsub => absurd hsub (List.not_mem_nil _)⟩
  | cons sub0 rest ih =>
    obtain ⟨st1, h1, h2⟩ := sweepLoop_cons_ok h
    obtain ⟨hmem, hrest⟩ := ih h2
    rcases sweepOne_ok h1 with ⟨hno, hst⟩ | ⟨_, hst⟩
    · subst hst
      refine ⟨hmem, fun sub hsub hid => ?_⟩
      rcases List.mem_cons.mp hsub with rfl | hm
      · exact hno
      · exact hrest sub hm hid
    · have husers : st1.store.users = st.store.users := by rw [hst]; rfl
      rw [hst] at hmem
      simp only [SubscriptionDoc.save, Subscription.hydrate, List.mem_map] at hmem
      obtain ⟨y, hy, hyx⟩ := hmem
      by_cases hid0 : y._id = sub0._id
      · rw [if_pos hid0] at hyx
        rw [← hyx] at hactive
        cases hactive
      · rw [if_neg hid0] at hyx
        subst hyx
        refine ⟨hy, fun sub hsub hid => ?_⟩
        rcases List.mem_cons.mp hsub with rfl | hm
        · exact absurd hid.symm hid0
        · rw [← needsPause_congr husers]
          exact hrest sub hm hid

/-- A sweep loop over subscriptions that all fail the test writes nothing. -/
theorem sweepLoop_noop (env : Env) {subs : List Subscription} {st : Session}
    (h : ∀ sub ∈ subs, needsPause st.store sub = false) : sweepLoop env st subs = (st, none) := by
  induction subs with
  | nil => rfl
  | cons sub rest ih =>
    have h0 := h sub (List.mem_cons_self _ _)
    have hone : sweepOne env st sub.hydrate = Except.ok st := by
      unfold sweepOne
      unfold needsPause at h0
      simp only [Subscription.hydrate]
      cases hu : User.findById st.store sub.userId with
      | none => rfl
      | some user =>
        rw [hu] at h0
        have hb : ¬ user.wallet.balance < sub.pricePerDay := by simpa using h0
        simp [hb]
    unfold sweepLoop
    rw [hone]
    exact ih (fun sub hsub => h sub (List.mem_cons_of_mem _ hsub))

theorem sweep_succeeded {env : Env} {s : Store}
    (h : (pauseInsufficientBalanceSubscriptions env s).1.status = 200) :
    ∃ fin, sweepLoop env { store := s, saves := 0 }
        (s.subscriptions.filter (fun sub => decide (sub.status = Status.active))) = (fin, none) ∧
      (pauseInsufficientBalanceSubscriptions env s).2 = fin.store := by
  cases hl : sweepLoop env { store := s, saves := 0 }
      (s.subscriptions.filter (fun sub => decide (sub.status = Status.active))) with
  | mk fin e =>
    unfold pauseInsufficientBalanceSubscriptions at h ⊢
    rw [hl] at h ⊢
    cases e with
    | none => exact ⟨fin, rfl, rfl⟩
    | some e => simp at h

/-- C12. Idempotent sweep: after a sweep that answered 200, a second sweep answers
200 and leaves the store as the first one left it, so the paused subscriptions are
the same and none is newly paused. -/
theorem sweep_idempotent (env1 env2 : Env) (s : Store)
    (h : (pauseInsufficientBalanceSubscriptions env1 s).1.status = 200) :
    (pauseInsufficientBalanceSubscriptions env2 (pauseInsufficientBalanceSubscriptions env1 s).2).2 =
        (pauseInsufficientBalanceSubscriptions env1 s).2 ∧
      (pauseInsufficientBalanceSubscriptions env2 (pauseInsufficientBalanceSubscriptions env1 s).2).1.status =
        200 ∧
      countStatus (pauseInsufficientBalanceSubscriptions env2 (pauseInsufficientBalanceSubscriptions env1 s).2).2
          Status.paused =
        countStatus (pauseInsufficientBalanceSubscriptions env1 s).2 Status.paused := by
  obtain ⟨fin, hloop, hout⟩ := sweep_succeeded h
  have husers : fin.store.users = s.users := by
    have := sweepLoop_users env1 (s.subscriptions.filter (fun sub => decide (sub.status = Status.active)))
      { store := s, saves := 0 }
    rw [hloop] at this
    exact this
  have hnone : ∀ sub ∈ fin.store.subscriptions.filter (fun sub => decide (sub.status = Status.active)),
      needsPause fin.store sub = false := by
    intro sub hsub
    have hmem := (List.mem_filter.mp hsub).1
    have hact : sub.status = Status.active := by simpa using (List.mem_filter.mp hsub).2
    obtain ⟨horig, hno⟩ := sweepLoop_active hloop hmem hact
    rw [needsPause_congr husers]
    exact hno sub (List.mem_filter.mpr ⟨horig, by simpa using hact⟩) rfl
  have hsecond : sweepLoop env2 { store := fin.store, saves := 0 }
      (fin.store.subscriptions.filter (fun sub => decide (sub.status = Status.active))) =
      ({ store := fin.store, saves := 0 }, none) := sweepLoop_noop env2 hnone
  have hrun : pauseInsufficientBalanceSubscriptions env2 fin.store =
      ({ status := 200
         body := [("message", Payload.text "Checked and paused subscriptions with insufficient balance.")] },
        fin.store) := by
    unfold pauseInsufficientBalanceSubscriptions
    rw [hsecond]
  rw [hout, hrun]
  exact ⟨rfl, rfl, rfl⟩

theorem sweep_idempotent_witness :
    (pauseInsufficientBalanceSubscriptions sampleEnv
        (pauseInsufficientBalanceSubscriptions sampleEnv (oneSubscriptionStore 10 30)).2).2 =
      (pauseInsufficientBalanceSubscriptions sampleEnv (oneSubscriptionStore 10 30)).2 :=
  (sweep_idempotent sampleEnv sampleEnv (oneSubscriptionStore 10 30) (by decide)).1

/-! ## `updateSubscriptionStatus` -/

theorem Subscription.mem_of_findById {s : Store} {id : ObjectId} {x : Subscription}
    (h : Subscription.findById s id = some x) : x ∈ s.subscriptions :=
  List.mem_of_find?_eq_some h

/-- The document found under `id` after `save()` of a document with that `_id`. -/
theorem Subscription.findById_save_self {env : Env} {s : Store} {id : ObjectId} {old : Subscription}
    (d : SubscriptionDoc) (hfind : Subscription.findById s id = some old) (hid : d.fields._id = id) :
    Subscription.findById (SubscriptionDoc.save env s d) id = some { d.fields with updatedAt := env.now } := by
  have h := Subscription.findById_mapSubscriptions s
    (fun x => if x._id = d.fields._id then { d.fields with updatedAt := env.now } else x)
    (by intro x; by_cases hx : x._id = d.fields._id <;> simp [hx]) id
  have hold : old._id = id := Subscription.findById_some_id hfind
  unfold SubscriptionDoc.save
  simp only [] at h ⊢
  rw [h, hfind]
  simp [hold, hid]

theorem SubscriptionDoc.save_mem {env : Env} {s : Store} {d : SubscriptionDoc} {x : Subscription}
    (h : x ∈ (SubscriptionDoc.save env s d).subscriptions) :
    x ∈ s.subscriptions ∨ x = { d.fields with updatedAt := env.now } := by
  simp only [SubscriptionDoc.save, List.mem_map] at h
  obtain ⟨y, hy, hyx⟩ := h
  by_cases hc : y._id = d.fields._id
  · right; rw [if_pos hc] at hyx; exact hyx.symm
  · left; rw [if_neg hc] at hyx; exact hyx ▸ hy

/-- The handler answers 200 exactly on the path that saves the document with the
requested status and the assigned pause reason; on every other path the store is
left as it was and the status is not 200. -/
theorem updateSubscriptionStatus_cases (env : Env) (s : Store) (userId id : ObjectId)
    (body : UpdateStatusBody) :
    ((updateSubscriptionStatus env s userId id body).1.status ≠ 200 ∧
        (updateSubscriptionStatus env s userId id body).2 = s) ∨
      ∃ status sub reason,
        parseRequestedStatus body.status = some status ∧ Subscription.findById s id = some sub ∧
          sub.userId = userId ∧ assignedPauseReason status body.pauseReason sub.pauseReason = some reason ∧
          (updateSubscriptionStatus env s userId id body).1.status = 200 ∧
          (updateSubscriptionStatus env s userId id body).2 =
            SubscriptionDoc.save env s (Subscription.hydrate { sub with status := status, pauseReason := reason }) := by
  unfold updateSubscriptionStatus
  cases hp : parseRequestedStatus body.status with
  | none => left; refine ⟨?_, ?_⟩ <;> simp [failed]
  | some status =>
    cases hf : Subscription.findById s id with
    | none => left; refine ⟨?_, ?_⟩ <;> simp [failed]
    | some sub =>
      simp only []
      by_cases ho : sub.userId = userId
      · subst ho
        simp only [ne_eq, not_true_eq_false, if_false]
        cases ha : assignedPauseReason status body.pauseReason sub.pauseReason with
        | none => left; refine ⟨?_, ?_⟩ <;> simp [failed]
        | some reason =>
          simp only []
          by_cases h0 : env.saveFails 0 = true
          · left; simp only [h0, if_true]; refine ⟨?_, ?_⟩ <;> simp [failed]
          · right
            simp only [h0, Bool.false_eq_true, if_false]
            exact ⟨status, sub, reason, by trivial, by trivial, rfl, by trivial, by trivial, by trivial⟩
      · left
        simp only [ne_eq, ho, not_false_eq_true, if_true]
        refine ⟨?_, ?_⟩ <;> simp [failed]

/-- C14 as stated fails: the owner's request to set a cancelled subscription to
`active` is answered 200 and the stored status becomes `active`. -/
theorem status_state_machine_counterexample :
    (Subscription.findById (statusStore Status.cancelled PauseReason.none) 10).map (fun x => x.status) =
        some Status.cancelled ∧
      (updateSubscriptionStatus sampleEnv (statusStore Status.cancelled PauseReason.none) 1 10
          { status := some "active", pauseReason := none }).1.status = 200 ∧
      (Subscription.findById
          (updateSubscriptionStatus sampleEnv (statusStore Status.cancelled PauseReason.none) 1 10
            { status := some "active", pauseReason := none }).2 10).map (fun x => x.status) =
        some Status.active := by
  decide

/-- C14, amended. There is no transition check: whatever the current status, the
owner's request for `active`, `paused` or `cancelled` (without a pause reason, the
write succeeding) is answered 200 and stored; a request for any other status value
is answered 400 and leaves the store as it was. -/
theorem status_update_unconditional (env : Env) (s : Store) (userId id : ObjectId) (body : UpdateStatusBody)
    (sub : Subscription) (hfind : Subscription.findById s id = some sub) (howner : sub.userId = userId)
    (hsave : env.saveFails 0 = false) (hreason : body.pauseReason = none) :
    (∀ status, parseRequestedStatus body.status = some status →
        (updateSubscriptionStatus env s userId id body).1.status = 200 ∧
          Subscription.findById (updateSubscriptionStatus env s userId id body).2 id =
            some { sub with status := status, updatedAt := env.now }) ∧
      (parseRequestedStatus body.status = none →
        (updateSubscriptionStatus env s userId id body).1.status = 400 ∧
          (updateSubscriptionStatus env s userId id body).2 = s) := by
  constructor
  · intro status hp
    have hassign : assignedPauseReason status body.pauseReason sub.pauseReason = some sub.pauseReason := by
      simp [assignedPauseReason, hreason, truthyString]
    have hrun : updateSubscriptionStatus env s userId id body =
        ({ status := 200
           body := [("message", Payload.text "Subscription status updated successfully"),
             ("data", Payload.object
               [("subscription",
                  Payload.subscription
                    { sub with status := status, pauseReason := sub.pauseReason, updatedAt := env.now })])] },
          SubscriptionDoc.save env s
            (Subscription.hydrate { sub with status := status, pauseReason := sub.pauseReason })) := by
      unfold updateSubscriptionStatus
      simp [hp, hfind, howner, hassign, hsave]
    rw [hrun]
    refine ⟨rfl, ?_⟩
    exact Subscription.findById_save_self _ hfind (Subscription.findById_some_id (x := sub) hfind)
  · intro hp
    unfold updateSubscriptionStatus
    rw [hp]
    exact ⟨rfl, rfl⟩

theorem status_update_unconditional_witness :
    (updateSubscriptionStatus sampleEnv (statusStore Status.expired PauseReason.none) 1 10
        { status := some "paused", pauseReason := none }).1.status = 200 ∧
      Subscription.findById
          (updateSubscriptionStatus sampleEnv (statusStore Status.expired PauseReason.none) 1 10
            { status := some "paused", pauseReason := none }).2 10 =
        some { sampleSubscription 10 1 30 Status.expired PauseReason.none with
               status := Status.paused, updatedAt := sampleEnv.now } :=
  (status_update_unconditional sampleEnv (statusStore Status.expired PauseReason.none) 1 10
    { status := some "paused", pauseReason := none } (sampleSubscription 10 1 30 Status.expired PauseReason.none)
    (by decide) (by decide) (by decide) (by decide)).1 Status.paused (by decide)

/-- C15 as stated fails: resuming a subscription paused with `user_paused` is
answered 200 and stores status `active` with the pause reason still `user_paused`. -/
theorem resume_clears_reason_counterexample :
    (updateSubscriptionStatus sampleEnv (statusStore Status.paused PauseReason.user_paused) 1 10
        { status := some "active", pauseReason := none }).1.status = 200 ∧
      (Subscription.findById
          (updateSubscriptionStatus sampleEnv (statusStore Status.paused PauseReason.user_paused) 1 10
            { status := some "active", pauseReason := none }).2 10).map (fun x => (x.status, x.pauseReason)) =
        some (Status.active, PauseReason.user_paused) := by
  decide

/-- C15, amended. A successful `updateSubscriptionStatus` with status `active` leaves
the subscription with status `active` and with the pause reason it had. -/
theorem resume_keeps_reason (env : Env) (s : Store) (userId id : ObjectId) (body : UpdateStatusBody)
    (sub : Subscription) (hfind : Subscription.findById s id = some sub)
    (hreq : body.status = some "active")
    (hok : (updateSubscriptionStatus env s userId id body).1.status = 200) :
    ∃ stored, Subscription.findById (updateSubscriptionStatus env s userId id body).2 id = some stored ∧
      stored.status = Status.active ∧ stored.pauseReason = sub.pauseReason := by
  rcases updateSubscriptionStatus_cases env s userId id body with ⟨hne, _⟩ | ⟨status, sub1, reason, hp, hf, _, ha, _, hout⟩
  · exact absurd hok hne
  · rw [hfind] at hf
    cases hf
    have hstatus : status = Status.active := by
      rw [hreq] at hp
      simpa [parseRequestedStatus] using hp.symm
    subst hstatus
    have hreason : reason = sub.pauseReason := by
      simpa [assignedPauseReason] using ha.symm
    subst hreason
    rw [hout]
    exact ⟨_, Subscription.findById_save_self _ hfind (Subscription.findById_some_id (x := sub) hfind), rfl, rfl⟩

theorem resume_keeps_reason_witness :
    ∃ stored,
      Subscription.findById
          (updateSubscriptionStatus sampleEnv (statusStore Status.paused PauseReason.insufficient_balance) 1 10
            { status := some "active", pauseReason := none }).2 10 = some stored ∧
        stored.status = Status.active ∧ stored.pauseReason = PauseReason.insufficient_balance :=
  resume_keeps_reason sampleEnv (statusStore Status.paused PauseReason.insufficient_balance) 1 10
    { status := some "active", pauseReason := none }
    (sampleSubscription 10 1 30 Status.paused PauseReason.insufficient_balance) (by decide) (by decide) (by decide)

/-! ## What `createSubscription` stores -/

/-- The fields of the document that passes validation. -/
theorem newSubscription_some {env : Env} {newId userId productId : ObjectId} {product : Product}
    {quantity : Int} {deliveryFrequency subscriptionPlan : String} {paymentMethod : Option String}
    {address : AddressInput} {sub : Subscription}
    (h : newSubscription env newId userId productId product quantity deliveryFrequency subscriptionPlan
      paymentMethod address = some sub) :
    sub._id = newId ∧ sub.userId = userId ∧ sub.status = Status.pending_payment ∧
      sub.pauseReason = PauseReason.none ∧ sub.deliveryHistory = [] ∧
      sub.pricePerDay = product.pricePerDay ∧
      sub.totalCost = totalCost product quantity deliveryFrequency subscriptionPlan := by
  unfold newSubscription at h
  split at h
  · simp only [Option.some.injEq] at h
    subst h
    exact ⟨rfl, rfl, rfl, rfl, rfl, rfl, rfl⟩
  · cases h

/-- The payment block: a 201 from the wallet branch saves the debited user and
inserts the document as active, a 201 from the other branch inserts the document as
validated, and every other answer leaves the subscriptions collection alone. -/
theorem processPayment_cases (env : Env) (s : Store) (user : Option User) (product : Product) (cost : Int)
    (paymentMethod : Option String) (candidate : Option Subscription) :
    ((processPayment env s user product cost paymentMethod candidate).1.status = 201 ∧
        paymentMethod = some "wallet" ∧
        ∃ u sub, user = some u ∧ candidate = some sub ∧ cost ≤ u.wallet.balance ∧
          (processPayment env s user product cost paymentMethod candidate).2 =
            SubscriptionDoc.insert env (User.save s (payFromWallet env u cost product.name))
              (Subscription.hydrate { sub with status := Status.active, lastPaymentDate := some env.now })) ∨
      ((processPayment env s user product cost paymentMethod candidate).1.status = 201 ∧
        paymentMethod ≠ some "wallet" ∧
        ∃ sub, candidate = some sub ∧
          (processPayment env s user product cost paymentMethod candidate).2 =
            SubscriptionDoc.insert env s (Subscription.hydrate sub)) ∨
      ((processPayment env s user product cost paymentMethod candidate).1.status ≠ 201 ∧
        (processPayment env s user product cost paymentMethod candidate).2.subscriptions = s.subscriptions) := by
  unfold processPayment
  by_cases hw : paymentMethod = some "wallet"
  · simp only [hw, if_true]
    cases user with
    | none => right; right; refine ⟨?_, ?_⟩ <;> simp [failed]
    | some u =>
      simp only []
      by_cases hb : u.wallet.balance < cost
      · right; right; simp only [hb, if_true]; refine ⟨?_, ?_⟩ <;> simp
      · simp only [hb, if_false]
        by_cases h0 : env.saveFails 0 = true
        · right; right; simp only [h0, if_true]; refine ⟨?_, ?_⟩ <;> simp [failed]
        · simp only [h0, Bool.false_eq_true, if_false]
          cases candidate with
          | none => right; right; refine ⟨?_, ?_⟩ <;> simp [failed, User.save]
          | some sub =>
            simp only []
            by_cases h1 : env.saveFails 1 = true
            · right; right; simp only [h1, if_true]; refine ⟨?_, ?_⟩ <;> simp [failed, User.save]
            · left
              simp only [h1, Bool.false_eq_true, if_false]
              exact ⟨by trivial, by trivial, u, sub, by trivial, by trivial, not_lt.mp hb, by trivial⟩
  · simp only [hw, if_false]
    cases candidate with
    | none => right; right; refine ⟨?_, ?_⟩ <;> simp [failed]
    | some sub =>
      simp only []
      by_cases h0 : env.saveFails 0 = true
      · right; right; simp only [h0, if_true]; refine ⟨?_, ?_⟩ <;> simp [failed]
      · right; left
        simp only [h0, Bool.false_eq_true, if_false]
        exact ⟨by trivial, by simpa using hw, sub, by trivial, by trivial⟩

/-- The handler reaches the payment block with the product of the request, or
answers 400, 404 or 500 and leaves the store as it was. -/
theorem createSubscription_cases (env : Env) (s : Store) (userId newId : ObjectId)
    (body : CreateSubscriptionBody) :
    ((createSubscription env s userId newId body).1.status ≠ 201 ∧
        (createSubscription env s userId newId body).2 = s) ∨
      ∃ product address,
        Product.findById s (body.productId.getD 0) = some product ∧
          createSubscription env s userId newId body =
            processPayment env s (User.findById s userId) product
              (totalCost product (body.quantity.getD 0) (body.deliveryFrequency.getD "")
                (body.subscriptionPlan.getD ""))
              body.paymentMethod
              (newSubscription env newId userId (body.productId.getD 0) product (body.quantity.getD 0)
                (body.deliveryFrequency.getD "") (body.subscriptionPlan.getD "") body.paymentMethod address) := by
  unfold createSubscription
  split
  · left; refine ⟨?_, ?_⟩ <;> simp
  · cases hp : Product.findById s (body.productId.getD 0) with
    | none => left; refine ⟨?_, ?_⟩ <;> simp
    | some product =>
      simp only []
      split
      · left; refine ⟨?_, ?_⟩ <;> simp
      · cases ha : deliveryAddress body.address (User.findById s userId) with
        | error e => left; refine ⟨?_, ?_⟩ <;> simp [failed]
        | ok address =>
          cases address with
          | none => left; refine ⟨?_, ?_⟩ <;> simp
          | some address => right; exact ⟨product, address, rfl, rfl⟩

/-- C16. Creation status and charge: a 201 with payment method `wallet` stores the
new subscription as active and saves the user with the balance lowered by
`totalCost` and one debit of `totalCost` appended; with `wallet` and a balance below
`totalCost` the answer is 400 and the store is as it was; a 201 with any other
payment method stores the new subscription as `pending_payment` and leaves the
users collection as it was. -/
theorem creation_status_and_charge (env : Env) (s : Store) (userId newId : ObjectId)
    (body : CreateSubscriptionBody) :
    ((createSubscription env s userId newId body).1.status = 201 → body.paymentMethod = some "wallet" →
        ∃ user product sub,
          User.findById s userId = some user ∧
            Product.findById s (body.productId.getD 0) = some product ∧
            sub.totalCost ≤ user.wallet.balance ∧
            User.findById (createSubscription env s userId newId body).2 userId =
              some { user with
                     wallet :=
                       { balance := user.wallet.balance - sub.totalCost
                         transactions := user.wallet.transactions ++
                           [{ amount := sub.totalCost, type := TxnType.debit, date := env.now }] } } ∧
            (createSubscription env s userId newId body).2.subscriptions = s.subscriptions ++ [sub] ∧
            sub._id = newId ∧ sub.userId = userId ∧ sub.status = Status.active ∧
            sub.totalCost =
              totalCost product (body.quantity.getD 0) (body.deliveryFrequency.getD "")
                (body.subscriptionPlan.getD "")) ∧
      (body.paymentMethod = some "wallet" →
        ∀ user product, User.findById s userId = some user →
          Product.findById s (body.productId.getD 0) = some product →
          user.wallet.balance <
              totalCost product (body.quantity.getD 0) (body.deliveryFrequency.getD "")
                (body.subscriptionPlan.getD "") →
            (createSubscription env s userId newId body).1.status = 400 ∧
              (createSubscription env s userId newId body).2 = s) ∧
      ((createSubscription env s userId newId body).1.status = 201 → body.paymentMethod ≠ some "wallet" →
        ∃ sub,
          (createSubscription env s userId newId body).2.users = s.users ∧
            (createSubscription env s userId newId body).2.subscriptions = s.subscriptions ++ [sub] ∧
            sub._id = newId ∧ sub.userId = userId ∧ sub.status = Status.pending_payment) := by
  refine ⟨?_, ?_, ?_⟩
  · intro hok hw
    rcases createSubscription_cases env s userId newId body with ⟨hne, _⟩ | ⟨product, address, hp, heq⟩
    · exact absurd hok hne
    · rw [heq] at hok ⊢
      rcases processPayment_cases env s (User.findById s userId) product
          (totalCost product (body.quantity.getD 0) (body.deliveryFrequency.getD "")
            (body.subscriptionPlan.getD ""))
          body.paymentMethod
          (newSubscription env newId userId (body.productId.getD 0) product (body.quantity.getD 0)
            (body.deliveryFrequency.getD "") (body.subscriptionPlan.getD "") body.paymentMethod address)
        with ⟨_, _, u, sub, hu, hcand, hle, hout⟩ | ⟨_, hnw, _⟩ | ⟨hne, _⟩
      · obtain ⟨hid, huid, _, _, _, _, hcost⟩ := newSubscription_some hcand
        refine ⟨u, product,
          { sub with status := Status.active, lastPaymentDate := some env.now, updatedAt := env.now },
          hu, hp, ?_, ?_, ?_, hid, huid, rfl, hcost⟩
        · show sub.totalCost ≤ u.wallet.balance
          rw [hcost]; exact hle
        · rw [hout]
          have hsave : User.findById (SubscriptionDoc.insert env
              (User.save s (payFromWallet env u
                (totalCost product (body.quantity.getD 0) (body.deliveryFrequency.getD "")
                  (body.subscriptionPlan.getD "")) product.name))
              (Subscription.hydrate { sub with status := Status.active, lastPaymentDate := some env.now }))
              userId =
              User.findById (User.save s (payFromWallet env u
                (totalCost product (body.quantity.getD 0) (body.deliveryFrequency.getD "")
                  (body.subscriptionPlan.getD "")) product.name)) userId := rfl
          rw [hsave, User.findById_save]
          have hid2 : (payFromWallet env u
              (totalCost product (body.quantity.getD 0) (body.deliveryFrequency.getD "")
                (body.subscriptionPlan.getD "")) product.name)._id = userId :=
            User.findById_owner_id (u := u) hu
          simp only [hid2, if_true, hu, Option.map_some', Option.some.injEq]
          show payFromWallet env u _ product.name = _
          simp only [payFromWallet, castTransaction, Option.getD_none]
          rw [← hcost]
        · rw [hout]; rfl
      · exact absurd hw hnw
      · exact absurd hok hne
  · intro hw user product hu hp hlt
    unfold createSubscription
    split
    · exact ⟨rfl, rfl⟩
    · rw [hp]
      simp only []
      split
      · exact ⟨rfl, rfl⟩
      · have haddr : ∃ a, deliveryAddress body.address (User.findById s userId) = Except.ok a := by
          unfold deliveryAddress
          rw [hu]
          cases truthyAddress body.address with
          | none => exact ⟨_, rfl⟩
          | some a => exact ⟨_, rfl⟩
        obtain ⟨a, ha⟩ := haddr
        rw [ha]
        cases a with
        | none => exact ⟨rfl, rfl⟩
        | some address =>
          simp only []
          unfold processPayment
          rw [hu]
          simp only [hw, if_true, hlt]
          exact ⟨by trivial, by trivial⟩
  · intro hok hnw
    rcases createSubscription_cases env s userId newId body with ⟨hne, _⟩ | ⟨product, address, _, heq⟩
    · exact absurd hok hne
    · rw [heq] at hok ⊢
      rcases processPayment_cases env s (User.findById s userId) product
          (totalCost product (body.quantity.getD 0) (body.deliveryFrequency.getD "")
            (body.subscriptionPlan.getD ""))
          body.paymentMethod
          (newSubscription env newId userId (body.productId.getD 0) product (body.quantity.getD 0)
            (body.deliveryFrequency.getD "") (body.subscriptionPlan.getD "") body.paymentMethod address)
        with ⟨_, hw, _⟩ | ⟨_, _, sub, hcand, hout⟩ | ⟨hne, _⟩
      · exact absurd hw hnw
      · obtain ⟨hid, huid, hst, _⟩ := newSubscription_some hcand
        refine ⟨{ sub with updatedAt := env.now }, ?_, ?_, hid, huid, hst⟩
        · rw [hout]; rfl
        · rw [hout]; rfl
      · exact absurd hok hne

theorem creation_status_and_charge_witness :
    (createSubscription sampleEnv (oneSubscriptionStore 100 30) 1 11 sampleBody).1.status = 400 ∧
      (createSubscription sampleEnv (oneSubscriptionStore 100 30) 1 11 sampleBody).2 =
        oneSubscriptionStore 100 30 :=
  (creation_status_and_charge sampleEnv (oneSubscriptionStore 100 30) 1 11 sampleBody).2.1 (by decide)
    (sampleUser 1 100) sampleProduct (by decide) (by decide) (by decide)

/-! ## The pause-reason invariant -/

/-- C13 as stated fails: from a store that satisfies the invariant, the owner's
request to pause without naming a reason stores status `paused` with pause reason
`none`. -/
theorem pause_reason_invariant_counterexample :
    (statusStore Status.active PauseReason.none).reasonsMatchStatus ∧
      (serve (statusStore Status.active PauseReason.none)
          [Request.updateStatus sampleEnv 1 10 { status := some "paused", pauseReason := none }]).subscriptions.map
          (fun x => (x.status, x.pauseReason)) =
        [(Status.paused, PauseReason.none)] ∧
      ¬ (serve (statusStore Status.active PauseReason.none)
          [Request.updateStatus sampleEnv 1 10 { status := some "paused", pauseReason := none }]).reasonsMatchStatus := by
  decide

/-- The documents of the store after a committed dispatch loop: old documents, and
the delivered or paused versions of processed subscriptions. -/
theorem dispatchLoop_subscriptions_mem {env : Env} {subs : List Subscription} {st fin : Session}
    (h : dispatchLoop env st subs = Except.ok fin) {x : Subscription} (hx : x ∈ fin.store.subscriptions) :
    x ∈ st.store.subscriptions ∨ ∃ sub ∈ subs, x = deliveredDoc env sub ∨ x = pausedDoc env sub := by
  induction subs generalizing st with
  | nil =>
    simp only [dispatchLoop, Except.ok.injEq] at h
    subst h
    exact Or.inl hx
  | cons sub0 rest ih =>
    obtain ⟨st1, h1, h2⟩ := dispatchLoop_cons_ok h
    rcases ih h2 with hm | ⟨sub, hsub, hdoc⟩
    · obtain ⟨user, doc, _, hdoc, hs1, _⟩ := dispatchOne_subscriptions h1
      rw [hs1, List.mem_map] at hm
      obtain ⟨y, hy, hyx⟩ := hm
      by_cases hc : y._id = sub0._id
      · right
        rw [if_pos hc] at hyx
        refine ⟨sub0, List.mem_cons_self _ _, ?_⟩
        rw [← hyx, hdoc]
        by_cases hle : sub0.pricePerDay ≤ user.wallet.balance
        · left; rw [if_pos hle]
        · right; rw [if_neg hle]
      · left
        rw [if_neg hc] at hyx
        exact hyx ▸ hy
    · exact Or.inr ⟨sub, List.mem_cons_of_mem _ hsub, hdoc⟩

theorem dispatchDeliveries_reasons (env : Env) (s : Store) (userIds : List ObjectId)
    (h : s.reasonsMatchStatus) : (dispatchDeliveries env s userIds).2.reasonsMatchStatus := by
  cases hl : dispatchLoop env { store := s, saves := 0 } (selectSubscriptions s userIds) with
  | error e =>
    rw [dispatchDeliveries_of_error hl]
    exact h
  | ok fin =>
    rw [dispatchDeliveries_of_ok hl]
    intro x hx
    rcases dispatchLoop_subscriptions_mem hl hx with hm | ⟨sub, hsub, hdoc⟩
    · exact h x hm
    · have hsubinv := h sub (mem_selectSubscriptions.mp hsub).1
      rcases hdoc with rfl | rfl
      · exact hsubinv
      · show PauseReason.insufficient_balance ≠ PauseReason.none ↔ Status.paused = Status.paused
        simp

theorem createSubscription_reasons (env : Env) (s : Store) (userId newId : ObjectId)
    (body : CreateSubscriptionBody) (h : s.reasonsMatchStatus) :
    (createSubscription env s userId newId body).2.reasonsMatchStatus := by
  rcases createSubscription_cases env s userId newId body with ⟨_, hs⟩ | ⟨product, address, _, heq⟩
  · rw [hs]; exact h
  · rw [heq]
    rcases processPayment_cases env s (User.findById s userId) product
        (totalCost product (body.quantity.getD 0) (body.deliveryFrequency.getD "")
          (body.subscriptionPlan.getD ""))
        body.paymentMethod
        (newSubscription env newId userId (body.productId.getD 0) product (body.quantity.getD 0)
          (body.deliveryFrequency.getD "") (body.subscriptionPlan.getD "") body.paymentMethod address)
      with ⟨_, _, u, sub, _, hcand, _, hout⟩ | ⟨_, _, sub, hcand, hout⟩ | ⟨_, hsubs⟩
    · obtain ⟨_, _, _, hreason, _⟩ := newSubscription_some hcand
      rw [hout]
      intro x hx
      simp only [SubscriptionDoc.insert, Subscription.hydrate, User.save, List.mem_append,
        List.mem_singleton] at hx
      rcases hx with hm | rfl
      · exact h x hm
      · show sub.pauseReason ≠ PauseReason.none ↔ Status.active = Status.paused
        simp [hreason]
    · obtain ⟨_, _, hst, hreason, _⟩ := newSubscription_some hcand
      rw [hout]
      intro x hx
      simp only [SubscriptionDoc.insert, Subscription.hydrate, List.mem_append, List.mem_singleton] at hx
      rcases hx with hm | rfl
      · exact h x hm
      · show sub.pauseReason ≠ PauseReason.none ↔ sub.status = Status.paused
        simp [hreason, hst]
    · intro x hx
      rw [hsubs] at hx
      exact h x hx

/-- The handler answers 200 exactly on the path that saves a pending subscription
as active; on every other path the store is left as it was. -/
theorem completeSubscriptionPayment_cases (env : Env) (s : Store) (userId id : ObjectId) (body : PaymentBody) :
    ((completeSubscriptionPayment env s userId id body).1.status ≠ 200 ∧
        (completeSubscriptionPayment env s userId id body).2 = s) ∨
      ∃ sub method,
        Subscription.findById s id = some sub ∧ sub.userId = userId ∧
          sub.status = Status.pending_payment ∧
          (completeSubscriptionPayment env s userId id body).1.status = 200 ∧
          (completeSubscriptionPayment env s userId id body).2 =
            SubscriptionDoc.save env s
              (Subscription.hydrate
                { sub with
                  status := Status.active, lastPaymentDate := some env.now, paymentMethod := method
                  paymentId := body.paymentId }) := by
  unfold completeSubscriptionPayment
  cases hf : Subscription.findById s id with
  | none => left; refine ⟨?_, ?_⟩ <;> simp
  | some sub =>
    simp only []
    by_cases ho : sub.userId = userId
    · subst ho
      simp only [ne_eq, not_true_eq_false, if_false]
      by_cases hs : sub.status = Status.pending_payment
      · simp only [hs, not_true_eq_false, if_false]
        cases hm : parsePaymentMethod
            (if truthyString body.paymentMethod = true then body.paymentMethod.getD "" else "online") with
        | none => left; refine ⟨?_, ?_⟩ <;> simp [failed]
        | some method =>
          simp only []
          by_cases h0 : env.saveFails 0 = true
          · left; simp only [h0, if_true]; refine ⟨?_, ?_⟩ <;> simp [failed]
          · right
            simp only [h0, Bool.false_eq_true, if_false]
            exact ⟨sub, method, by trivial, rfl, hs, by trivial, by trivial⟩
      · left; simp only [hs, not_false_eq_true, if_true]; refine ⟨?_, ?_⟩ <;> simp
    · left; simp only [ne_eq, ho, not_false_eq_true, if_true]; refine ⟨?_, ?_⟩ <;> simp

theorem completeSubscriptionPayment_reasons (env : Env) (s : Store) (userId id : ObjectId)
    (body : PaymentBody) (h : s.reasonsMatchStatus) :
    (completeSubscriptionPayment env s userId id body).2.reasonsMatchStatus := by
  rcases completeSubscriptionPayment_cases env s userId id body with ⟨_, hs⟩ | ⟨sub, method, hf, _, hst, _, hout⟩
  · rw [hs]; exact h
  · rw [hout]
    intro x hx
    rcases SubscriptionDoc.save_mem hx with hm | rfl
    · exact h x hm
    · have hsub := h sub (Subscription.mem_of_findById hf)
      have hreason : sub.pauseReason = PauseReason.none := by
        by_contra hne
        have := hsub.mp hne
        rw [hst] at this
        cases this
      show sub.pauseReason ≠ PauseReason.none ↔ Status.active = Status.paused
      simp [hreason]

theorem updateSubscriptionStatus_reasons (env : Env) (s : Store) (userId id : ObjectId)
    (body : UpdateStatusBody) (hstatus : body.status = some "paused")
    (hreason : body.pauseReason = some "insufficient_balance" ∨ body.pauseReason = some "user_paused")
    (h : s.reasonsMatchStatus) :
    (updateSubscriptionStatus env s userId id body).2.reasonsMatchStatus := by
  rcases updateSubscriptionStatus_cases env s userId id body with
    ⟨_, hs⟩ | ⟨status, sub, reason, hp, _, _, ha, _, hout⟩
  · rw [hs]; exact h
  · rw [hout]
    intro x hx
    rcases SubscriptionDoc.save_mem hx with hm | rfl
    · exact h x hm
    · have hst : status = Status.paused := by
        rw [hstatus] at hp
        simpa [parseRequestedStatus] using hp.symm
      subst hst
      have hne : reason ≠ PauseReason.none := by
        rcases hreason with hr | hr <;>
          · rw [hr] at ha
            simp [assignedPauseReason, truthyString, parsePauseReason] at ha
            rw [← ha]
            decide
      show reason ≠ PauseReason.none ↔ Status.paused = Status.paused
      simp [hne]

theorem Request.apply_reasons (r : Request) (s : Store) (hr : r.recordsReason = true)
    (h : s.reasonsMatchStatus) : (Request.apply s r).reasonsMatchStatus := by
  cases r with
  | create env userId newId body => exact createSubscription_reasons env s userId newId body h
  | completePayment env userId id body => exact completeSubscriptionPayment_reasons env s userId id body h
  | updateStatus env userId id body =>
    simp only [Request.recordsReason, Bool.and_eq_true, Bool.or_eq_true, decide_eq_true_eq] at hr
    exact updateSubscriptionStatus_reasons env s userId id body hr.1 hr.2 h
  | dispatch env userIds => exact dispatchDeliveries_reasons env s userIds h
  | sweep env => simp [Request.recordsReason] at hr

/-- C13, amended. The pause-reason invariant holds in every state reached from a
state satisfying it by `createSubscription`, `completeSubscriptionPayment`,
`dispatchDeliveries`, and `updateSubscriptionStatus` requests that pause and name a
reason other than `none`. -/
theorem pause_reason_invariant (s : Store) (reqs : List Request) (h : s.reasonsMatchStatus)
    (hreqs : ∀ r ∈ reqs, r.recordsReason = true) : (serve s reqs).reasonsMatchStatus := by
  induction reqs generalizing s with
  | nil => exact h
  | cons r reqs ih =>
    exact ih (Request.apply s r) (Request.apply_reasons r s (hreqs r (List.mem_cons_self _ _)) h)
      (fun q hq => hreqs q (List.mem_cons_of_mem _ hq))

theorem pause_reason_invariant_witness :
    (serve (oneSubscriptionStore 40 30)
      [Request.dispatch sampleEnv [1],
       Request.create sampleEnv 1 11 { sampleBody with paymentMethod := some "online" },
       Request.completePayment sampleEnv 1 11 { paymentId := some "pay_1", paymentMethod := none },
       Request.dispatch sampleEnv [1],
       Request.updateStatus sampleEnv 1 11
         { status := some "paused", pauseReason := some "user_paused" }]).reasonsMatchStatus :=
  pause_reason_invariant (oneSubscriptionStore 40 30) _ (by decide) (by decide)

/-! ## Amounts of the charges -/

/-- C17 as stated fails: a dispatch cycle over a subscription at price 0 commits and
appends a debit of amount 0 to the owner's wallet. -/
theorem positive_amounts_counterexample :
    (dispatchDeliveries sampleEnv freeStore [1]).1.status = 200 ∧
      (User.findById (dispatchDeliveries sampleEnv freeStore [1]).2 1).map (fun u => u.wallet.transactions) =
        some [{ amount := 0, type := TxnType.debit, date := 1000 }] ∧
      ¬ ((0 : Int) < 0) := by
  decide

/-- The transactions a committed loop appends to a wallet are the debits of
processed subscriptions. -/
theorem dispatchLoop_debits {env : Env} {subs : List Subscription} {st fin : Session} {id : ObjectId}
    {u : User} (h : dispatchLoop env st subs = Except.ok fin) (hu : User.findById st.store id = some u) :
    ∃ u1 app, User.findById fin.store id = some u1 ∧
      u1.wallet.transactions = u.wallet.transactions ++ app ∧
      ∀ t ∈ app, ∃ sub ∈ subs, t = debitOf env sub := by
  induction subs generalizing st u with
  | nil =>
    simp only [dispatchLoop, Except.ok.injEq] at h
    subst h
    exact ⟨u, [], hu, by simp, fun t ht => absurd ht (List.not_mem_nil _)⟩
  | cons sub rest ih =>
    obtain ⟨st1, h1, h2⟩ := dispatchLoop_cons_ok h
    obtain ⟨u1, app, hf, htx, hall⟩ := ih h2 (dispatchOne_user_eq h1 hu)
    by_cases hc : sub.userId = id ∧ sub.pricePerDay ≤ u.wallet.balance
    · rw [if_pos hc] at htx
      refine ⟨u1, debitOf env sub :: app, hf, ?_, ?_⟩
      · rw [htx]
        simp [chargeUser, castTransaction, debitOf]
      · intro t ht
        rcases List.mem_cons.mp ht with rfl | hm
        · exact ⟨sub, List.mem_cons_self _ _, rfl⟩
        · obtain ⟨x, hx, hxt⟩ := hall t hm
          exact ⟨x, List.mem_cons_of_mem _ hx, hxt⟩
    · rw [if_neg hc] at htx
      refine ⟨u1, app, hf, htx, ?_⟩
      intro t ht
      obtain ⟨x, hx, hxt⟩ := hall t ht
      exact ⟨x, List.mem_cons_of_mem _ hx, hxt⟩

theorem totalDeliveries_pos (subscriptionPlan deliveryFrequency : String) :
    0 < totalDeliveries (durationDays subscriptionPlan) (frequencyMultiplier deliveryFrequency) := by
  have hd : 15 ≤ durationDays subscriptionPlan := by
    unfold durationDays
    split_ifs <;> omega
  have hq : 1 ≤ frequencyMultiplier deliveryFrequency := by
    unfold frequencyMultiplier
    split_ifs <;> omega
  unfold totalDeliveries
  have : 15 ≤ durationDays subscriptionPlan * frequencyMultiplier deliveryFrequency :=
    le_trans hd (Nat.le_mul_of_pos_right _ hq)
  omega

/-- The bits cut off leave a quotient that is not zero. -/
theorem excessBits_le (fuel : Nat) : ∀ a : Nat, 0 < a → 2 ^ excessBits fuel a ≤ a := by
  induction fuel with
  | zero => intro a ha; simpa [excessBits] using ha
  | succ fuel ih =>
    intro a ha
    unfold excessBits
    by_cases hlt : a < 9007199254740992
    · rw [if_pos hlt]
      simpa using ha
    · rw [if_neg hlt]
      have h2 : 0 < a / 2 := Nat.div_pos (by omega) (by decide)
      have := ih (a / 2) h2
      rw [Nat.pow_succ]
      omega

/-- Rounding leaves the integers up to `2 ^ 53` in magnitude as they are. -/
theorem roundNumber_of_le {n : Int} (h : n.natAbs ≤ 9007199254740992) : roundNumber n = n := by
  unfold roundNumber
  rw [if_pos h]

/-- Rounding keeps a positive integer positive. -/
theorem roundNumber_pos {n : Int} (h : 0 < n) : 0 < roundNumber n := by
  unfold roundNumber
  by_cases hs : n.natAbs ≤ 9007199254740992
  · rw [if_pos hs]
    exact h
  · rw [if_neg hs]
    simp only []
    rw [if_neg (not_lt.mpr (le_of_lt h))]
    have ha : 0 < n.natAbs := Int.natAbs_pos.mpr (ne_of_gt h)
    have hq : 0 < n.natAbs / 2 ^ excessBits n.natAbs n.natAbs :=
      Nat.div_pos (excessBits_le _ _ ha) (Nat.pos_pow_of_pos _ (by decide))
    have hpow : 0 < 2 ^ excessBits n.natAbs n.natAbs := Nat.pos_pow_of_pos _ (by decide)
    have hm : 0 < (if 2 ^ (excessBits n.natAbs n.natAbs - 1) < n.natAbs % 2 ^ excessBits n.natAbs n.natAbs ∨
        (n.natAbs % 2 ^ excessBits n.natAbs n.natAbs = 2 ^ (excessBits n.natAbs n.natAbs - 1) ∧
          n.natAbs / 2 ^ excessBits n.natAbs n.natAbs % 2 = 1) then
        n.natAbs / 2 ^ excessBits n.natAbs n.natAbs + 1
      else n.natAbs / 2 ^ excessBits n.natAbs n.natAbs) := by
      split_ifs
      · omega
      · exact hq
    exact_mod_cast Nat.mul_pos hm hpow

theorem mulNumber_pos {a b : Int} (ha : 0 < a) (hb : 0 < b) : 0 < mulNumber a b :=
  roundNumber_pos (Int.mul_pos ha hb)

/-- C17, amended. Every transaction appended to a wallet by `dispatchDeliveries` is
the debit of the price of a selected subscription, every transaction appended by
`createSubscription` is the debit of the computed total cost, and that total cost
is positive when the product price and the quantity are.  No request is rejected
for the sign of its amount. -/
theorem charge_amounts (env : Env) (s : Store) (userIds : List ObjectId) (userId newId : ObjectId)
    (body : CreateSubscriptionBody) :
    (∀ (id : ObjectId) (u : User), User.findById s id = some u →
        ∃ u1 app, User.findById (dispatchDeliveries env s userIds).2 id = some u1 ∧
          u1.wallet.transactions = u.wallet.transactions ++ app ∧
          ∀ t ∈ app, ∃ sub ∈ selectSubscriptions s userIds,
            t = { amount := sub.pricePerDay, type := TxnType.debit, date := env.now }) ∧
      (∀ (id : ObjectId) (u u1 : User), User.findById s id = some u →
        User.findById (createSubscription env s userId newId body).2 id = some u1 → u1 ≠ u →
          ∃ product, Product.findById s (body.productId.getD 0) = some product ∧
            u1.wallet.transactions = u.wallet.transactions ++
              [{ amount := totalCost product (body.quantity.getD 0) (body.deliveryFrequency.getD "")
                   (body.subscriptionPlan.getD "")
                 type := TxnType.debit, date := env.now }]) ∧
      (∀ (product : Product) (quantity : Int) (deliveryFrequency subscriptionPlan : String),
        0 < product.pricePerDay → 0 < quantity →
          0 < totalCost product quantity deliveryFrequency subscriptionPlan) := by
  refine ⟨?_, ?_, ?_⟩
  · intro id u hu
    cases hl : dispatchLoop env { store := s, saves := 0 } (selectSubscriptions s userIds) with
    | error e =>
      rw [dispatchDeliveries_of_error hl]
      exact ⟨u, [], hu, by simp, fun t ht => absurd ht (List.not_mem_nil _)⟩
    | ok fin =>
      rw [dispatchDeliveries_of_ok hl]
      exact dispatchLoop_debits hl hu
  · intro id u u1 hu hu1 hne
    rcases createSubscription_cases env s userId newId body with ⟨_, hs⟩ | ⟨product, address, hp, heq⟩
    · rw [hs, hu] at hu1
      cases hu1
      exact absurd rfl hne
    · refine ⟨product, hp, ?_⟩
      rw [heq] at hu1
      rcases processPayment_users env s (User.findById s userId) product
          (totalCost product (body.quantity.getD 0) (body.deliveryFrequency.getD "")
            (body.subscriptionPlan.getD ""))
          body.paymentMethod
          (newSubscription env newId userId (body.productId.getD 0) product (body.quantity.getD 0)
            (body.deliveryFrequency.getD "") (body.subscriptionPlan.getD "") body.paymentMethod address)
        with hsame | ⟨user, huser, _, hsave⟩
      · rw [findById_congr_users hsame, hu] at hu1
        cases hu1
        exact absurd rfl hne
      · rw [findById_congr_users hsave, User.findById_save] at hu1
        have hid : (payFromWallet env user
            (totalCost product (body.quantity.getD 0) (body.deliveryFrequency.getD "")
              (body.subscriptionPlan.getD "")) product.name)._id = userId :=
          User.findById_owner_id (u := user) huser
        by_cases hc : id = userId
        · subst hc
          rw [hu] at huser
          cases huser
          simp only [hid, if_true, hu, Option.map_some', Option.some.injEq] at hu1
          subst hu1
          rfl
        · simp only [hid, hc, if_false, hu, Option.some.injEq] at hu1
          exact absurd hu1.symm hne
  · intro product quantity deliveryFrequency subscriptionPlan hp hq
    unfold totalCost
    have hd := totalDeliveries_pos subscriptionPlan deliveryFrequency
    have : (0 : Int) < (totalDeliveries (durationDays subscriptionPlan) (frequencyMultiplier deliveryFrequency) : Nat) := by
      exact_mod_cast hd
    exact mulNumber_pos (mulNumber_pos hp hq) this

/-! ## The dashboard -/

theorem sum_cond_eq_sum_filter (ty : TxnType) (l : List Transaction) :
    (l.map (fun t => if t.type = ty then t.amount else 0)).sum =
      ((l.filter (fun t => decide (t.type = ty))).map (fun t => t.amount)).sum := by
  induction l with
  | nil => rfl
  | cons a l ih =>
    by_cases h : a.type = ty
    · simp [List.filter_cons, h, ih]
    · simp [List.filter_cons, h, ih]

/-- The sum of one type of transaction over the matched transactions, user by user. -/
theorem matched_sum (env : Env) (s : Store) (ty : TxnType) :
    (((matchedTransactions env s).filter (fun t => decide (t.type = ty))).map (fun t => t.amount)).sum =
      (s.users.map (fun u =>
        ((u.wallet.transactions.filter (fun t =>
          decide (t.type = ty) && (decide (today env ≤ t.date) && decide (t.date < today env + dayMs)))).map
            (fun t => t.amount)).sum)).sum := by
  unfold matchedTransactions tomorrow
  generalize s.users = users
  induction users with
  | nil => rfl
  | cons u users ih =>
    simp only [List.flatMap_cons, List.filter_append, List.map_append, List.sum_append, List.map_cons,
      List.sum_cons]
    rw [ih, List.filter_filter]

theorem groupTotals_eq (txns : List Transaction) :
    (match groupTotals txns with
      | [] => ((0 : Int), (0 : Int))
      | g :: _ => g) =
      (((txns.filter (fun t => decide (t.type = TxnType.credit))).map (fun t => t.amount)).sum,
        ((txns.filter (fun t => decide (t.type = TxnType.debit))).map (fun t => t.amount)).sum) := by
  cases txns with
  | nil => rfl
  | cons a l =>
    simp only [groupTotals]
    rw [sum_cond_eq_sum_filter, sum_cond_eq_sum_filter]

/-- C18. Dashboard wallet totals: the handler answers 200; the window starts at the
UTC midnight at or before the request instant and lasts one day; `totalCredited`
is the sum, over all users, of the credit amounts dated in the window and
`totalDebited` the same sum over debits; both are 0 when no transaction is dated in
the window. -/
theorem dashboard_wallet_totals (env : Env) (s : Store) :
    (getDashboardStats env s).status = 200 ∧
      (today env ≤ env.now ∧ env.now < today env + dayMs ∧ today env % dayMs = 0) ∧
      (∃ extra, (getDashboardStats env s).body.lookup "walletTransactions" =
        some (Payload.object (extra ++
          [("totalCredited", Payload.number
              (s.users.map (fun u =>
                ((u.wallet.transactions.filter (fun t =>
                  decide (t.type = TxnType.credit) &&
                    (decide (today env ≤ t.date) && decide (t.date < today env + dayMs)))).map
                  (fun t => t.amount)).sum)).sum),
           ("totalDebited", Payload.number
              (s.users.map (fun u =>
                ((u.wallet.transactions.filter (fun t =>
                  decide (t.type = TxnType.debit) &&
                    (decide (today env ≤ t.date) && decide (t.date < today env + dayMs)))).map
                  (fun t => t.amount)).sum)).sum)]))) ∧
      ((∀ u ∈ s.users, ∀ t ∈ u.wallet.transactions, ¬ (today env ≤ t.date ∧ t.date < today env + dayMs)) →
        (getDashboardStats env s).body.lookup "walletTransactions" =
          some (Payload.object [("totalCredited", Payload.number 0), ("totalDebited", Payload.number 0)])) := by
  have hlookup : (getDashboardStats env s).body.lookup "walletTransactions" =
      some (Payload.object
        (match groupTotals (matchedTransactions env s) with
          | [] => [("totalCredited", Payload.number 0), ("totalDebited", Payload.number 0)]
          | g :: _ =>
            [("_id", Payload.null), ("totalCredited", Payload.number g.1),
              ("totalDebited", Payload.number g.2)])) := by
    unfold getDashboardStats
    simp only [List.lookup]
    rfl
  refine ⟨rfl, ?_, ?_, ?_⟩
  · unfold today
    have hpos : (0 : Int) < dayMs := by decide
    refine ⟨?_, ?_, ?_⟩
    · exact Int.ediv_mul_le _ (ne_of_gt hpos)
    · have := Int.lt_ediv_add_one_mul_self env.now hpos
      linarith
    · exact Int.mul_emod_left _ _
  · have hsum := groupTotals_eq (matchedTransactions env s)
    rw [matched_sum env s TxnType.credit, matched_sum env s TxnType.debit] at hsum
    rw [hlookup]
    cases hg : groupTotals (matchedTransactions env s) with
    | nil =>
      rw [hg] at hsum
      have h0 : ((0 : Int), (0 : Int)) = _ := hsum
      refine ⟨[], ?_⟩
      simp only [List.nil_append]
      rw [← (Prod.mk.inj h0).1, ← (Prod.mk.inj h0).2]
    | cons g rest =>
      rw [hg] at hsum
      have hg1 : g = _ := hsum
      refine ⟨[("_id", Payload.null)], ?_⟩
      simp only [List.singleton_append]
      rw [hg1]
  · intro hnone
    have hempty : matchedTransactions env s = [] := by
      unfold matchedTransactions tomorrow
      rw [List.filter_eq_nil_iff]
      intro t ht
      obtain ⟨u, hu, htu⟩ := List.mem_flatMap.mp ht
      have := hnone u hu t htu
      simpa using this
    rw [hlookup, hempty]
    rfl

/-- C19. The delivery counts on the code: a subscription delivered by a dispatch
cycle at instant 1000 of the UTC day that starts at 0 has a delivered entry dated
1000, yet the dashboard of the same instant counts 0 completed deliveries, because
it asks for entries dated exactly at UTC midnight; the wallet totals of the same
call, which use the day window, do count the debit of that delivery. -/
theorem dashboard_delivery_count_scenario :
    (dispatchDeliveries sampleEnv (oneSubscriptionStore 100 30) [1]).2.subscriptions.map
        (fun x => x.deliveryHistory) =
        [[{ date := 1000, status := DeliveryStatus.delivered }]] ∧
      today sampleEnv = 0 ∧ tomorrow sampleEnv = 86400000 ∧
      countDeliveries sampleEnv (dispatchDeliveries sampleEnv (oneSubscriptionStore 100 30) [1]).2
        DeliveryStatus.delivered = 0 ∧
      walletSummary sampleEnv (dispatchDeliveries sampleEnv (oneSubscriptionStore 100 30) [1]).2 = (0, 30) := by
  decide

/-! ## Cycles over a store with a single subscription -/

theorem dispatchOne_delivered (env : Env) (st : Session) {sub : Subscription} {user : User}
    (hu : User.findById st.store sub.userId = some user) (hle : sub.pricePerDay ≤ user.wallet.balance)
    (h0 : env.saveFails st.saves = false) (h1 : env.saveFails (st.saves + 1) = false) :
    dispatchOne env st sub.hydrate =
      Except.ok
        { store := (markDelivered env sub.hydrate).save env (User.save st.store (chargeUser env user sub))
          saves := st.saves + 2 } := by
  unfold dispatchOne
  simp only [Subscription.hydrate, hu, hle, h0, h1, if_true, Bool.false_eq_true, if_false]

theorem dispatchOne_paused (env : Env) (st : Session) {sub : Subscription} {user : User}
    (hu : User.findById st.store sub.userId = some user) (hlt : user.wallet.balance < sub.pricePerDay)
    (h0 : env.saveFails st.saves = false) :
    dispatchOne env st sub.hydrate =
      Except.ok { store := (markPaused sub.hydrate).save env st.store, saves := st.saves + 1 } := by
  unfold dispatchOne
  simp only [Subscription.hydrate, hu, not_le.mpr hlt, h0, Bool.false_eq_true, if_false]

theorem selectSubscriptions_single {s : Store} {sub : Subscription} (userIds : List ObjectId)
    (hs : s.subscriptions = [sub]) :
    selectSubscriptions s userIds =
      if sub.userId ∈ userIds ∧ sub.status = Status.active then [sub] else [] := by
  unfold selectSubscriptions
  rw [hs]
  by_cases h : sub.userId ∈ userIds ∧ sub.status = Status.active
  · simp [h, h.1, h.2]
  · rw [if_neg h]
    rw [List.filter_eq_nil_iff]
    intro x hx
    rw [List.mem_singleton] at hx
    subst hx
    simpa using h

/-- A cycle over a store whose only subscription is selected and covered by the
balance, the two writes succeeding. -/
theorem dispatch_single_delivered (env : Env) {s : Store} (userIds : List ObjectId) {sub : Subscription}
    {user : User} (hs : s.subscriptions = [sub]) (hactive : sub.status = Status.active)
    (hmem : sub.userId ∈ userIds) (hu : User.findById s sub.userId = some user)
    (hle : sub.pricePerDay ≤ user.wallet.balance) (h0 : env.saveFails 0 = false)
    (h1 : env.saveFails 1 = false) :
    (dispatchDeliveries env s userIds).1.status = 200 ∧
      (dispatchDeliveries env s userIds).2 =
        { users := (User.save s (chargeUser env user sub)).users
          subscriptions := [deliveredDoc env sub]
          products := s.products } := by
  have hsel : selectSubscriptions s userIds = [sub] := by
    rw [selectSubscriptions_single userIds hs, if_pos ⟨hmem, hactive⟩]
  have hone := dispatchOne_delivered env { store := s, saves := 0 } hu hle h0 h1
  have hloop : dispatchLoop env { store := s, saves := 0 } (selectSubscriptions s userIds) =
      Except.ok
        { store := (markDelivered env sub.hydrate).save env (User.save s (chargeUser env user sub))
          saves := 2 } := by
    rw [hsel]
    simp only [dispatchLoop, hone]
  rw [dispatchDeliveries_of_ok hloop]
  refine ⟨rfl, ?_⟩
  show (markDelivered env sub.hydrate).save env (User.save s (chargeUser env user sub)) = _
  rw [markDelivered_save]
  show ({ users := _, subscriptions := List.map _ s.subscriptions, products := _ } : Store) = _
  rw [hs]
  simp [User.save]

/-- A cycle over a store whose only subscription is selected and not covered by the
balance, the write succeeding. -/
theorem dispatch_single_paused (env : Env) {s : Store} (userIds : List ObjectId) {sub : Subscription}
    {user : User} (hs : s.subscriptions = [sub]) (hactive : sub.status = Status.active)
    (hmem : sub.userId ∈ userIds) (hu : User.findById s sub.userId = some user)
    (hlt : user.wallet.balance < sub.pricePerDay) (h0 : env.saveFails 0 = false) :
    (dispatchDeliveries env s userIds).1.status = 200 ∧
      (dispatchDeliveries env s userIds).2 =
        { users := s.users, subscriptions := [pausedDoc env sub], products := s.products } := by
  have hsel : selectSubscriptions s userIds = [sub] := by
    rw [selectSubscriptions_single userIds hs, if_pos ⟨hmem, hactive⟩]
  have hone := dispatchOne_paused env { store := s, saves := 0 } hu hlt h0
  have hloop : dispatchLoop env { store := s, saves := 0 } (selectSubscriptions s userIds) =
      Except.ok { store := (markPaused sub.hydrate).save env s, saves := 1 } := by
    rw [hsel]
    simp only [dispatchLoop, hone]
  rw [dispatchDeliveries_of_ok hloop]
  refine ⟨rfl, ?_⟩
  show (markPaused sub.hydrate).save env s = _
  rw [markPaused_save]
  show ({ users := _, subscriptions := List.map _ s.subscriptions, products := _ } : Store) = _
  rw [hs]
  simp

/-- C21. Serialized repeat cycle: for a store whose only subscription is active at a
positive price equal to its owner's balance, a first committed cycle leaves
balance 0, one debit and one delivered entry appended, status active; a second
committed cycle pauses the subscription with `insufficient_balance` and leaves the
wallet and the delivery history as the first cycle left them. -/
theorem serialized_repeat_cycle (env1 env2 : Env) (s : Store) (userIds : List ObjectId)
    (sub : Subscription) (user : User) (hs : s.subscriptions = [sub])
    (hactive : sub.status = Status.active) (hmem : sub.userId ∈ userIds)
    (hu : User.findById s sub.userId = some user) (hbal : user.wallet.balance = sub.pricePerDay)
    (hpos : 0 < sub.pricePerDay) (h10 : env1.saveFails 0 = false) (h11 : env1.saveFails 1 = false)
    (h20 : env2.saveFails 0 = false) :
    (User.findById (dispatchDeliveries env1 s userIds).2 sub.userId =
        some { user with
               wallet :=
                 { balance := 0
                   transactions := user.wallet.transactions ++
                     [{ amount := sub.pricePerDay, type := TxnType.debit, date := env1.now }] } } ∧
      (dispatchDeliveries env1 s userIds).2.subscriptions =
        [{ sub with
           deliveryHistory := sub.deliveryHistory ++ [{ date := env1.now, status := DeliveryStatus.delivered }]
           updatedAt := env1.now }]) ∧
      (User.findById (dispatchDeliveries env2 (dispatchDeliveries env1 s userIds).2 userIds).2 sub.userId =
        some { user with
               wallet :=
                 { balance := 0
                   transactions := user.wallet.transactions ++
                     [{ amount := sub.pricePerDay, type := TxnType.debit, date := env1.now }] } } ∧
      (dispatchDeliveries env2 (dispatchDeliveries env1 s userIds).2 userIds).2.subscriptions =
        [{ sub with
           status := Status.paused
           pauseReason := PauseReason.insufficient_balance
           deliveryHistory := sub.deliveryHistory ++ [{ date := env1.now, status := DeliveryStatus.delivered }]
           updatedAt := env2.now }]) := by
  obtain ⟨_, hfirst⟩ := dispatch_single_delivered env1 userIds hs hactive hmem hu (le_of_eq hbal.symm) h10 h11
  have huid : user._id = sub.userId := User.findById_owner_id hu
  have hcharged : chargeUser env1 user sub =
      { user with
        wallet :=
          { balance := 0
            transactions := user.wallet.transactions ++
              [{ amount := sub.pricePerDay, type := TxnType.debit, date := env1.now }] } } := by
    simp [chargeUser, castTransaction, hbal]
  have hu1 : User.findById (dispatchDeliveries env1 s userIds).2 sub.userId =
      some (chargeUser env1 user sub) := by
    rw [hfirst]
    have := User.findById_save s (chargeUser env1 user sub) sub.userId
    have hid : (chargeUser env1 user sub)._id = sub.userId := huid
    rw [hid, if_pos rfl, hu] at this
    exact this
  have hs1 : (dispatchDeliveries env1 s userIds).2.subscriptions = [deliveredDoc env1 sub] := by
    rw [hfirst]
  have hlt : (chargeUser env1 user sub).wallet.balance < (deliveredDoc env1 sub).pricePerDay := by
    rw [hcharged]
    exact hpos
  obtain ⟨_, hsecond⟩ := dispatch_single_paused env2 userIds hs1 hactive hmem hu1 hlt h20
  refine ⟨⟨?_, ?_⟩, ?_, ?_⟩
  · rw [hu1, hcharged]
  · rw [hs1]; rfl
  · have hkeep : User.findById (dispatchDeliveries env2 (dispatchDeliveries env1 s userIds).2 userIds).2
        sub.userId = User.findById (dispatchDeliveries env1 s userIds).2 sub.userId := by
      rw [hsecond]; rfl
    rw [hkeep, hu1, hcharged]
  · rw [hsecond]; rfl

theorem serialized_repeat_cycle_witness :
    User.findById (dispatchDeliveries sampleEnv (dispatchDeliveries sampleEnv (oneSubscriptionStore 30 30) [1]).2
        [1]).2 1 =
        some { sampleUser 1 30 with
               wallet :=
                 { balance := 0, transactions := [{ amount := 30, type := TxnType.debit, date := 1000 }] } } ∧
      (dispatchDeliveries sampleEnv (dispatchDeliveries sampleEnv (oneSubscriptionStore 30 30) [1]).2
        [1]).2.subscriptions =
        [{ sampleSubscription 10 1 30 Status.active PauseReason.none with
           status := Status.paused
           pauseReason := PauseReason.insufficient_balance
           deliveryHistory := [{ date := 1000, status := DeliveryStatus.delivered }]
           updatedAt := 1000 }] :=
  (serialized_repeat_cycle sampleEnv sampleEnv (oneSubscriptionStore 30 30) [1]
    (sampleSubscription 10 1 30 Status.active PauseReason.none) (sampleUser 1 30)
    rfl rfl (by decide) (by decide) rfl (by decide) rfl rfl rfl).2

/-! ## The stored ledger record -/

/-- C22. Debit tagging on the code: the object pushed for a delivered subscription
carries the reason "Milk delivery for Cow Milk", but the stored record has only
amount, type and date, and a subscription to another product at the same price
stores the same record: the product cannot be recovered from the ledger. -/
theorem dispatch_debit_tag_scenario :
    (castTransaction 1000
        { amount := 30, type := TxnType.debit, reason := some "Milk delivery for Cow Milk"
          description := none, date := some 1000 } =
        { amount := 30, type := TxnType.debit, date := 1000 }) ∧
      (User.findById (dispatchDeliveries sampleEnv (renamedProductStore 100 30 "Cow Milk") [1]).2 1).map
          (fun u => u.wallet.transactions) =
        some [{ amount := 30, type := TxnType.debit, date := 1000 }] ∧
      (User.findById (dispatchDeliveries sampleEnv (renamedProductStore 100 30 "Paneer") [1]).2 1).map
          (fun u => u.wallet.transactions) =
        (User.findById (dispatchDeliveries sampleEnv (renamedProductStore 100 30 "Cow Milk") [1]).2 1).map
          (fun u => u.wallet.transactions) := by
  decide

/-! ## Payment completion and owner checks -/

/-- C25. Payment completion guard: for the owner, a subscription whose status is not
`pending_payment` is answered 400 and the store is left as it was; a pending one,
the payment method valid and the write succeeding, is answered 200 and stored
active with `lastPaymentDate`, `paymentMethod` and `paymentId` set; and the store
changes only when the status was `pending_payment`. -/
theorem payment_completion_guard (env : Env) (s : Store) (userId id : ObjectId) (body : PaymentBody)
    (sub : Subscription) (hfind : Subscription.findById s id = some sub) (howner : sub.userId = userId) :
    (sub.status ≠ Status.pending_payment →
        (completeSubscriptionPayment env s userId id body).1.status = 400 ∧
          (completeSubscriptionPayment env s userId id body).2 = s) ∧
      (sub.status = Status.pending_payment →
        ∀ method,
          parsePaymentMethod
              (if truthyString body.paymentMethod then body.paymentMethod.getD "" else "online") =
            some method →
          env.saveFails 0 = false →
            (completeSubscriptionPayment env s userId id body).1.status = 200 ∧
              Subscription.findById (completeSubscriptionPayment env s userId id body).2 id =
                some { sub with
                       status := Status.active
                       lastPaymentDate := some env.now
                       paymentMethod := method
                       paymentId := body.paymentId
                       updatedAt := env.now }) ∧
      ((completeSubscriptionPayment env s userId id body).2 ≠ s → sub.status = Status.pending_payment) := by
  have hreject : sub.status ≠ Status.pending_payment →
      (completeSubscriptionPayment env s userId id body).1.status = 400 ∧
        (completeSubscriptionPayment env s userId id body).2 = s := by
    intro hne
    unfold completeSubscriptionPayment
    simp [hfind, howner, hne]
  refine ⟨hreject, ?_, ?_⟩
  · intro hpending method hmethod hsave
    have hrun : completeSubscriptionPayment env s userId id body =
        ({ status := 200
           body := [("message", Payload.text "Subscription payment completed successfully"),
             ("data", Payload.object
               [("subscription",
                  Payload.subscription
                    { sub with
                      status := Status.active, lastPaymentDate := some env.now, paymentMethod := method
                      paymentId := body.paymentId, updatedAt := env.now })])] },
          SubscriptionDoc.save env s
            (Subscription.hydrate
              { sub with
                status := Status.active, lastPaymentDate := some env.now, paymentMethod := method
                paymentId := body.paymentId })) := by
      unfold completeSubscriptionPayment
      simp [hfind, howner, hpending, hmethod, hsave]
    rw [hrun]
    exact ⟨rfl, Subscription.findById_save_self _ hfind (Subscription.findById_some_id (x := sub) hfind)⟩
  · intro hchanged
    by_contra hne
    exact hchanged (hreject hne).2

theorem payment_completion_guard_witness :
    (completeSubscriptionPayment sampleEnv (statusStore Status.pending_payment PauseReason.none) 1 10
        { paymentId := some "pay_1", paymentMethod := none }).1.status = 200 ∧
      Subscription.findById
          (completeSubscriptionPayment sampleEnv (statusStore Status.pending_payment PauseReason.none) 1 10
            { paymentId := some "pay_1", paymentMethod := none }).2 10 =
        some { sampleSubscription 10 1 30 Status.pending_payment PauseReason.none with
               status := Status.active
               lastPaymentDate := some 1000
               paymentMethod := PaymentMethod.online
               paymentId := some "pay_1"
               updatedAt := 1000 } :=
  (payment_completion_guard sampleEnv (statusStore Status.pending_payment PauseReason.none) 1 10
    { paymentId := some "pay_1", paymentMethod := none }
    (sampleSubscription 10 1 30 Status.pending_payment PauseReason.none) (by decide) (by decide)).2.1
    (by decide) PaymentMethod.online (by decide) (by decide)

/-- C26 as stated fails: a user who does not own the subscription and asks
`updateSubscriptionStatus` for the status `expired` is answered 400, not 403. -/
theorem owner_only_counterexample :
    (Subscription.findById (statusStore Status.active PauseReason.none) 10).map (fun x => x.userId) = some 1 ∧
      (updateSubscriptionStatus sampleEnv (statusStore Status.active PauseReason.none) 2 10
          { status := some "expired", pauseReason := none }).1.status = 400 := by
  decide

/-- C26, amended. For a user who does not own the subscription: `getSubscriptionById`
and `completeSubscriptionPayment` answer 403; `updateSubscriptionStatus` answers
403 when the requested status is `active`, `paused` or `cancelled` and 400 for any
other value; every answer holds the message only, and the store is as it was. -/
theorem owner_only_access (env : Env) (s : Store) (userId id : ObjectId) (sub : Subscription)
    (update : UpdateStatusBody) (payment : PaymentBody)
    (hfind : Subscription.findById s id = some sub) (hother : sub.userId ≠ userId) :
    ((getSubscriptionById s userId id).status = 403 ∧ (getSubscriptionById s userId id).keys = ["message"]) ∧
      ((completeSubscriptionPayment env s userId id payment).1.status = 403 ∧
        (completeSubscriptionPayment env s userId id payment).1.keys = ["message"] ∧
        (completeSubscriptionPayment env s userId id payment).2 = s) ∧
      ((parseRequestedStatus update.status ≠ none →
          (updateSubscriptionStatus env s userId id update).1.status = 403) ∧
        (parseRequestedStatus update.status = none →
          (updateSubscriptionStatus env s userId id update).1.status = 400) ∧
        (updateSubscriptionStatus env s userId id update).1.keys = ["message"] ∧
        (updateSubscriptionStatus env s userId id update).2 = s) := by
  refine ⟨?_, ?_, ?_⟩
  · unfold getSubscriptionById
    simp [hfind, hother, Response.keys]
  · unfold completeSubscriptionPayment
    simp [hfind, hother, Response.keys]
  · unfold updateSubscriptionStatus
    cases hp : parseRequestedStatus update.status with
    | none => simp [Response.keys]
    | some status => simp [hfind, hother, Response.keys]

theorem owner_only_access_witness :
    (getSubscriptionById (statusStore Status.active PauseReason.none) 2 10).status = 403 ∧
      (getSubscriptionById (statusStore Status.active PauseReason.none) 2 10).keys = ["message"] :=
  (owner_only_access sampleEnv (statusStore Status.active PauseReason.none) 2 10
    (sampleSubscription 10 1 30 Status.active PauseReason.none)
    { status := some "cancelled", pauseReason := none } { paymentId := none, paymentMethod := none }
    (by decide) (by decide)).1

/-! ## The paused total of the dashboard -/

/-- C28 as stated fails: after the owner pauses a subscription without naming a
reason, one subscription is paused and the two counts that make up the paused
total are both 0. -/
theorem paused_total_counterexample :
    countStatus
        (updateSubscriptionStatus sampleEnv (statusStore Status.active PauseReason.none) 1 10
          { status := some "paused", pauseReason := none }).2 Status.paused = 1 ∧
      countPaused
          (updateSubscriptionStatus sampleEnv (statusStore Status.active PauseReason.none) 1 10
            { status := some "paused", pauseReason := none }).2 PauseReason.user_paused +
        countPaused
          (updateSubscriptionStatus sampleEnv (statusStore Status.active PauseReason.none) 1 10
            { status := some "paused", pauseReason := none }).2 PauseReason.insufficient_balance = 0 ∧
      (getDashboardStats sampleEnv
          (updateSubscriptionStatus sampleEnv (statusStore Status.active PauseReason.none) 1 10
            { status := some "paused", pauseReason := none }).2).body.lookup "pausedSubscriptions" =
        some (Payload.object
          [("voluntary", Payload.number 0), ("insufficientBalance", Payload.number 0),
           ("total", Payload.number 0)]) := by
  refine ⟨by decide, by decide, ?_⟩
  rfl

theorem count_paused_split (l : List Subscription) :
    (l.filter (fun x => decide (x.status = Status.paused) &&
        (decide (x.pauseReason = PauseReason.user_paused) ||
          decide (x.pauseReason = PauseReason.insufficient_balance)))).length =
      (l.filter (fun x => decide (x.status = Status.paused) &&
          decide (x.pauseReason = PauseReason.user_paused))).length +
        (l.filter (fun x => decide (x.status = Status.paused) &&
          decide (x.pauseReason = PauseReason.insufficient_balance))).length := by
  induction l with
  | nil => rfl
  | cons a l ih =>
    simp only [List.filter_cons]
    cases hs : decide (a.status = Status.paused) <;> cases hr : a.pauseReason <;> simp [ih] <;> omega

/-- C28, amended. The paused total of the dashboard is the number of subscriptions
that are paused with reason `user_paused` or `insufficient_balance`; it is the
number of paused subscriptions in every store where each paused subscription has a
reason other than `none`. -/
theorem dashboard_paused_total (env : Env) (s : Store) :
    (getDashboardStats env s).body.lookup "pausedSubscriptions" =
        some (Payload.object
          [("voluntary", Payload.number (countPaused s PauseReason.user_paused)),
           ("insufficientBalance", Payload.number (countPaused s PauseReason.insufficient_balance)),
           ("total", Payload.number
             ((s.subscriptions.filter (fun x => decide (x.status = Status.paused) &&
               (decide (x.pauseReason = PauseReason.user_paused) ||
                 decide (x.pauseReason = PauseReason.insufficient_balance)))).length : Nat))]) ∧
      ((∀ x ∈ s.subscriptions, x.status = Status.paused → x.pauseReason ≠ PauseReason.none) →
        (s.subscriptions.filter (fun x => decide (x.status = Status.paused) &&
            (decide (x.pauseReason = PauseReason.user_paused) ||
              decide (x.pauseReason = PauseReason.insufficient_balance)))).length =
          countStatus s Status.paused) := by
  constructor
  · rw [count_paused_split]
    unfold getDashboardStats
    simp only [List.lookup]
    rfl
  · intro h
    unfold countStatus
    congr 1
    apply List.filter_congr
    intro x hx
    by_cases hp : x.status = Status.paused
    · have := h x hx hp
      cases hr : x.pauseReason <;> simp_all
    · simp [hp]

/-! ## The cost of a subscription -/

theorem ceil_quarters (n : Nat) : (((n + 3) / 4 : Nat) : Int) = ⌈((n : ℚ) / 4)⌉ := by
  symm
  rw [Int.ceil_eq_iff]
  generalize hk : (n + 3) / 4 = k
  have h1 : 4 * k ≤ n + 3 := by omega
  have h2 : n ≤ 4 * k := by omega
  have h1q : (4 : ℚ) * (k : ℚ) ≤ (n : ℚ) + 3 := by exact_mod_cast h1
  have h2q : (n : ℚ) ≤ 4 * (k : ℚ) := by exact_mod_cast h2
  rw [Int.cast_natCast]
  constructor
  · linarith
  · linarith

/-- The number of deliveries is the ceiling of the duration times the multiplier. -/
theorem totalDeliveries_ceil (subscriptionPlan deliveryFrequency : String) :
    ((totalDeliveries (durationDays subscriptionPlan) (frequencyMultiplier deliveryFrequency) : Nat) : Int) =
      ⌈((durationDays subscriptionPlan : Nat) : ℚ) *
        (if deliveryFrequency = "daily" then 1
          else if deliveryFrequency = "alternate" then 1 / 2
          else if deliveryFrequency = "weekly" then 1 / 4
          else 1 : ℚ)⌉ := by
  unfold totalDeliveries
  rw [ceil_quarters]
  congr 1
  unfold frequencyMultiplier
  split_ifs <;> push_cast <;> ring

theorem newSubscription_dates {env : Env} {newId userId productId : ObjectId} {product : Product}
    {quantity : Int} {deliveryFrequency subscriptionPlan : String} {paymentMethod : Option String}
    {address : AddressInput} {sub : Subscription}
    (h : newSubscription env newId userId productId product quantity deliveryFrequency subscriptionPlan
      paymentMethod address = some sub) :
    sub.durationDays = (durationDays subscriptionPlan : Nat) ∧ sub.startDate = startDate env ∧
      sub.endDate = startDate env + (durationDays subscriptionPlan : Nat) * dayMs ∧
      sub.nextDeliveryDate = startDate env := by
  unfold newSubscription at h
  split at h
  · simp only [Option.some.injEq] at h
    subst h
    exact ⟨rfl, rfl, rfl, rfl⟩
  · cases h

/-- The ceiling of the plan's days times the frequency multiplier is the number of
deliveries the handler computes. -/
theorem ceil_deliveries (subscriptionPlan deliveryFrequency : String) :
    ⌈(((if subscriptionPlan = "15_days" then 15
          else if subscriptionPlan = "1_month" then 30
          else if subscriptionPlan = "2_months" then 60
          else if subscriptionPlan = "3_months" then 90
          else if subscriptionPlan = "6_months" then 180
          else if subscriptionPlan = "1_year" then 365
          else 15 : Int) : ℚ)) *
        (if deliveryFrequency = "daily" then 1
          else if deliveryFrequency = "alternate" then 1 / 2
          else if deliveryFrequency = "weekly" then 1 / 4
          else 1 : ℚ)⌉ =
      ((totalDeliveries (durationDays subscriptionPlan) (frequencyMultiplier deliveryFrequency) : Nat) : Int) := by
  rw [totalDeliveries_ceil]
  congr 2
  unfold durationDays
  split_ifs <;> norm_num

/-- The two multiplications are exact when the exact total is at most `2 ^ 53` in
magnitude. -/
theorem totalCost_exact (product : Product) (quantity : Int) (deliveryFrequency subscriptionPlan : String)
    (h : (product.pricePerDay * quantity *
        ((totalDeliveries (durationDays subscriptionPlan) (frequencyMultiplier deliveryFrequency) : Nat) : Int)).natAbs ≤
      9007199254740992) :
    totalCost product quantity deliveryFrequency subscriptionPlan =
      product.pricePerDay * quantity *
        ((totalDeliveries (durationDays subscriptionPlan) (frequencyMultiplier deliveryFrequency) : Nat) : Int) := by
  have hd := totalDeliveries_pos subscriptionPlan deliveryFrequency
  have h1 : (product.pricePerDay * quantity).natAbs ≤ 9007199254740992 := by
    rw [Int.natAbs_mul, Int.natAbs_ofNat] at h
    exact le_trans (Nat.le_mul_of_pos_right _ hd) h
  unfold totalCost mulNumber
  rw [roundNumber_of_le h1, roundNumber_of_le h]

/-- C27 as stated fails: the request for three units a day for fifteen days of a
product priced 9007199254740991 is answered 201 and stores the total cost
405323966463344576, the result of the two JavaScript multiplications, while
9007199254740991 × 3 × 15 is 405323966463344595. -/
theorem subscription_cost_counterexample :
    (createSubscription sampleEnv dearStore 1 11 dearBody).1.status = 201 ∧
      (createSubscription sampleEnv dearStore 1 11 dearBody).2.subscriptions.map
          (fun x => (x.pricePerDay, x.quantity, x.durationDays, x.totalCost)) =
        [(9007199254740991, 3, 15, 405323966463344576)] ∧
      mulNumber 9007199254740991 3 = 27021597764222972 ∧
      mulNumber 27021597764222972 15 = 405323966463344576 ∧
      (9007199254740991 : Int) * 3 * 15 = 405323966463344595 := by
  decide

/-- C27, amended. Subscription cost: for an accepted request whose exact total,
the product price times the quantity times the ceiling of the plan's days times
the frequency multiplier, is at most `2 ^ 53` in magnitude, the stored subscription
has `totalCost` equal to that exact total, `endDate` that many days after
`startDate`, and `nextDeliveryDate` equal to `startDate`. -/
theorem subscription_cost (env : Env) (s : Store) (userId newId : ObjectId) (body : CreateSubscriptionBody)
    (product : Product) (hp : Product.findById s (body.productId.getD 0) = some product)
    (hok : (createSubscription env s userId newId body).1.status = 201)
    (hrange :
      (product.pricePerDay * body.quantity.getD 0 *
          ⌈(((if body.subscriptionPlan.getD "" = "15_days" then 15
              else if body.subscriptionPlan.getD "" = "1_month" then 30
              else if body.subscriptionPlan.getD "" = "2_months" then 60
              else if body.subscriptionPlan.getD "" = "3_months" then 90
              else if body.subscriptionPlan.getD "" = "6_months" then 180
              else if body.subscriptionPlan.getD "" = "1_year" then 365
              else 15 : Int) : Int) : ℚ) *
              (if body.deliveryFrequency.getD "" = "daily" then 1
                else if body.deliveryFrequency.getD "" = "alternate" then 1 / 2
                else if body.deliveryFrequency.getD "" = "weekly" then 1 / 4
                else 1 : ℚ)⌉).natAbs ≤ 9007199254740992) :
    ∃ sub,
      (createSubscription env s userId newId body).2.subscriptions = s.subscriptions ++ [sub] ∧
        sub.durationDays =
          (if body.subscriptionPlan.getD "" = "15_days" then 15
              else if body.subscriptionPlan.getD "" = "1_month" then 30
              else if body.subscriptionPlan.getD "" = "2_months" then 60
              else if body.subscriptionPlan.getD "" = "3_months" then 90
              else if body.subscriptionPlan.getD "" = "6_months" then 180
              else if body.subscriptionPlan.getD "" = "1_year" then 365
              else 15 : Int) ∧
        sub.totalCost =
          product.pricePerDay * body.quantity.getD 0 *
            ⌈((sub.durationDays : Int) : ℚ) *
              (if body.deliveryFrequency.getD "" = "daily" then 1
                else if body.deliveryFrequency.getD "" = "alternate" then 1 / 2
                else if body.deliveryFrequency.getD "" = "weekly" then 1 / 4
                else 1 : ℚ)⌉ ∧
        sub.endDate = sub.startDate + sub.durationDays * (24 * 60 * 60 * 1000) ∧
        sub.nextDeliveryDate = sub.startDate := by
  rw [ceil_deliveries] at hrange
  rcases createSubscription_cases env s userId newId body with ⟨hne, _⟩ | ⟨product1, address, hp1, heq⟩
  · exact absurd hok hne
  · have hsame : product1 = product := Option.some.inj (hp1.symm.trans hp)
    subst hsame
    rw [heq] at hok ⊢
    have hplan : ((durationDays (body.subscriptionPlan.getD "") : Nat) : Int) =
        (if body.subscriptionPlan.getD "" = "15_days" then 15
              else if body.subscriptionPlan.getD "" = "1_month" then 30
              else if body.subscriptionPlan.getD "" = "2_months" then 60
              else if body.subscriptionPlan.getD "" = "3_months" then 90
              else if body.subscriptionPlan.getD "" = "6_months" then 180
              else if body.subscriptionPlan.getD "" = "1_year" then 365
              else 15 : Int) := by
      unfold durationDays
      split_ifs <;> rfl
    have hfields : ∀ cand : Subscription,
        newSubscription env newId userId (body.productId.getD 0) product1 (body.quantity.getD 0)
            (body.deliveryFrequency.getD "") (body.subscriptionPlan.getD "") body.paymentMethod address =
          some cand →
        cand.durationDays =
            (if body.subscriptionPlan.getD "" = "15_days" then 15
              else if body.subscriptionPlan.getD "" = "1_month" then 30
              else if body.subscriptionPlan.getD "" = "2_months" then 60
              else if body.subscriptionPlan.getD "" = "3_months" then 90
              else if body.subscriptionPlan.getD "" = "6_months" then 180
              else if body.subscriptionPlan.getD "" = "1_year" then 365
              else 15 : Int) ∧
          cand.totalCost =
            product1.pricePerDay * body.quantity.getD 0 *
              ⌈((cand.durationDays : Int) : ℚ) *
                (if body.deliveryFrequency.getD "" = "daily" then 1
                else if body.deliveryFrequency.getD "" = "alternate" then 1 / 2
                else if body.deliveryFrequency.getD "" = "weekly" then 1 / 4
                else 1 : ℚ)⌉ ∧
          cand.endDate = cand.startDate + cand.durationDays * (24 * 60 * 60 * 1000) ∧
          cand.nextDeliveryDate = cand.startDate := by
      intro cand hcand
      obtain ⟨_, _, _, _, _, _, hcost⟩ := newSubscription_some hcand
      obtain ⟨hdays, hstart, hend, hnext⟩ := newSubscription_dates hcand
      refine ⟨by rw [hdays, hplan], ?_, ?_, ?_⟩
      · rw [hcost, hdays, totalCost_exact _ _ _ _ hrange, totalDeliveries_ceil]
        simp only [Int.cast_natCast]
      · rw [hend, hstart, hdays]
        rfl
      · rw [hnext, hstart]
    rcases processPayment_cases env s (User.findById s userId) product1
        (totalCost product1 (body.quantity.getD 0) (body.deliveryFrequency.getD "")
          (body.subscriptionPlan.getD ""))
        body.paymentMethod
        (newSubscription env newId userId (body.productId.getD 0) product1 (body.quantity.getD 0)
          (body.deliveryFrequency.getD "") (body.subscriptionPlan.getD "") body.paymentMethod address)
      with ⟨_, _, u, cand, _, hcand, _, hout⟩ | ⟨_, _, cand, hcand, hout⟩ | ⟨hne, _⟩
    · refine ⟨{ cand with status := Status.active, lastPaymentDate := some env.now, updatedAt := env.now },
        ?_, hfields cand hcand⟩
      rw [hout]; rfl
    · refine ⟨{ cand with updatedAt := env.now }, ?_, hfields cand hcand⟩
      rw [hout]; rfl
    · exact absurd hok hne

theorem subscription_cost_witness :
    ∃ sub,
      (createSubscription sampleEnv newCustomerStore 1 11 sampleBody).2.subscriptions =
          newCustomerStore.subscriptions ++ [sub] ∧
        sub.durationDays =
          (if sampleBody.subscriptionPlan.getD "" = "15_days" then 15
              else if sampleBody.subscriptionPlan.getD "" = "1_month" then 30
              else if sampleBody.subscriptionPlan.getD "" = "2_months" then 60
              else if sampleBody.subscriptionPlan.getD "" = "3_months" then 90
              else if sampleBody.subscriptionPlan.getD "" = "6_months" then 180
              else if sampleBody.subscriptionPlan.getD "" = "1_year" then 365
              else 15 : Int) ∧
        sub.totalCost =
          sampleProduct.pricePerDay * sampleBody.quantity.getD 0 *
            ⌈((sub.durationDays : Int) : ℚ) *
              (if sampleBody.deliveryFrequency.getD "" = "daily" then 1
                else if sampleBody.deliveryFrequency.getD "" = "alternate" then 1 / 2
                else if sampleBody.deliveryFrequency.getD "" = "weekly" then 1 / 4
                else 1 : ℚ)⌉ ∧
        sub.endDate = sub.startDate + sub.durationDays * (24 * 60 * 60 * 1000) ∧
        sub.nextDeliveryDate = sub.startDate :=
  subscription_cost sampleEnv newCustomerStore 1 11 sampleBody sampleProduct (by decide) (by decide)
    (by rw [ceil_deliveries]; decide)

/-! ## What each handler does to a stored subscription -/

theorem Subscription.findById_save_other {env : Env} {s : Store} (d : SubscriptionDoc) {id : ObjectId}
    (h : d.fields._id ≠ id) :
    Subscription.findById (SubscriptionDoc.save env s d) id = Subscription.findById s id := by
  have hmap := Subscription.findById_mapSubscriptions s
    (fun x => if x._id = d.fields._id then { d.fields with updatedAt := env.now } else x)
    (by intro x; by_cases hx : x._id = d.fields._id <;> simp [hx]) id
  unfold SubscriptionDoc.save
  simp only [] at hmap ⊢
  rw [hmap]
  cases hf : Subscription.findById s id with
  | none => rfl
  | some x =>
    have hx : x._id = id := Subscription.findById_some_id hf
    have hne : ¬ x._id = d.fields._id := fun e => h (e.symm.trans hx)
    simp [hne]

theorem Subscription.findById_insert {env : Env} {s : Store} (d : SubscriptionDoc) {id : ObjectId}
    {x : Subscription} (h : Subscription.findById s id = some x) :
    Subscription.findById (SubscriptionDoc.insert env s d) id = some x := by
  unfold Subscription.findById at h ⊢
  show List.find? _ (s.subscriptions ++ _) = _
  rw [List.find?_append, h]
  rfl

theorem findById_congr_subscriptions {s s1 : Store} (h : s1.subscriptions = s.subscriptions) (id : ObjectId) :
    Subscription.findById s1 id = Subscription.findById s id := by
  unfold Subscription.findById
  rw [h]

/-- The handler `createSubscription` leaves every stored subscription as it was. -/
theorem createSubscription_stored (env : Env) (s : Store) (userId newId : ObjectId)
    (body : CreateSubscriptionBody) {id : ObjectId} {x : Subscription}
    (hx : Subscription.findById s id = some x) :
    Subscription.findById (createSubscription env s userId newId body).2 id = some x := by
  rcases createSubscription_cases env s userId newId body with ⟨_, hs⟩ | ⟨product, address, _, heq⟩
  · rw [hs]; exact hx
  · rw [heq]
    rcases processPayment_cases env s (User.findById s userId) product
        (totalCost product (body.quantity.getD 0) (body.deliveryFrequency.getD "")
          (body.subscriptionPlan.getD ""))
        body.paymentMethod
        (newSubscription env newId userId (body.productId.getD 0) product (body.quantity.getD 0)
          (body.deliveryFrequency.getD "") (body.subscriptionPlan.getD "") body.paymentMethod address)
      with ⟨_, _, u, sub, _, _, _, hout⟩ | ⟨_, _, sub, _, hout⟩ | ⟨_, hsubs⟩
    · rw [hout]
      exact Subscription.findById_insert _ (by rw [findById_congr_subscriptions rfl]; exact hx)
    · rw [hout]
      exact Subscription.findById_insert _ hx
    · rw [findById_congr_subscriptions hsubs]; exact hx

/-- The handler `completeSubscriptionPayment` leaves a stored subscription as it was,
or it is the pending subscription of the request, stored as active. -/
theorem completeSubscriptionPayment_stored (env : Env) (s : Store) (userId id : ObjectId)
    (body : PaymentBody) {x : Subscription} (hx : Subscription.findById s x._id = some x) :
    Subscription.findById (completeSubscriptionPayment env s userId id body).2 x._id = some x ∨
      (id = x._id ∧ userId = x.userId ∧ x.status = Status.pending_payment ∧
        ∃ method,
          Subscription.findById (completeSubscriptionPayment env s userId id body).2 x._id =
            some { x with
                   status := Status.active, lastPaymentDate := some env.now, paymentMethod := method
                   paymentId := body.paymentId, updatedAt := env.now }) := by
  rcases completeSubscriptionPayment_cases env s userId id body with
    ⟨_, hs⟩ | ⟨sub, method, hf, ho, hst, _, hout⟩
  · left; rw [hs]; exact hx
  · have hid : sub._id = id := Subscription.findById_some_id hf
    by_cases hc : id = x._id
    · right
      subst hc
      rw [hx] at hf
      cases hf
      refine ⟨rfl, ho.symm, hst, method, ?_⟩
      rw [hout]
      exact Subscription.findById_save_self _ hx rfl
    · left
      rw [hout]
      rw [Subscription.findById_save_other _ (by show sub._id ≠ x._id; rw [hid]; exact hc)]
      exact hx

/-- The handler `updateSubscriptionStatus` leaves a stored subscription as it was, or
it is the subscription of the request, stored with the requested status. -/
theorem updateSubscriptionStatus_stored (env : Env) (s : Store) (userId id : ObjectId)
    (body : UpdateStatusBody) {x : Subscription} (hx : Subscription.findById s x._id = some x) :
    Subscription.findById (updateSubscriptionStatus env s userId id body).2 x._id = some x ∨
      (id = x._id ∧ userId = x.userId ∧
        ∃ status reason,
          parseRequestedStatus body.status = some status ∧
            Subscription.findById (updateSubscriptionStatus env s userId id body).2 x._id =
              some { x with status := status, pauseReason := reason, updatedAt := env.now }) := by
  rcases updateSubscriptionStatus_cases env s userId id body with
    ⟨_, hs⟩ | ⟨status, sub, reason, hp, hf, ho, _, _, hout⟩
  · left; rw [hs]; exact hx
  · have hid : sub._id = id := Subscription.findById_some_id hf
    by_cases hc : id = x._id
    · right
      subst hc
      rw [hx] at hf
      cases hf
      refine ⟨rfl, ho.symm, status, reason, hp, ?_⟩
      rw [hout]
      exact Subscription.findById_save_self _ hx rfl
    · left
      rw [hout]
      rw [Subscription.findById_save_other _ (by show sub._id ≠ x._id; rw [hid]; exact hc)]
      exact hx

/-- The handler `dispatchDeliveries` leaves a stored subscription as it was, or it was
selected and is stored delivered or paused. -/
theorem dispatchDeliveries_stored (env : Env) (s : Store) (userIds : List ObjectId) (hwf : s.wf)
    {x : Subscription} (hx : x ∈ s.subscriptions) :
    Subscription.findById (dispatchDeliveries env s userIds).2 x._id = some x ∨
      (x.status = Status.active ∧
        (Subscription.findById (dispatchDeliveries env s userIds).2 x._id = some (deliveredDoc env x) ∨
          Subscription.findById (dispatchDeliveries env s userIds).2 x._id = some (pausedDoc env x))) := by
  cases hl : dispatchLoop env { store := s, saves := 0 } (selectSubscriptions s userIds) with
  | error e =>
    rw [dispatchDeliveries_of_error hl]
    exact Or.inl (Subscription.findById_of_mem hwf hx)
  | ok fin =>
    rw [dispatchDeliveries_of_ok hl]
    by_cases hsel : x ∈ selectSubscriptions s userIds
    · right
      obtain ⟨pre, post, hsplit⟩ := List.append_of_mem hsel
      obtain ⟨_, _, user, _, _, _, _, hstored⟩ := dispatchLoop_outcome hwf hsplit hl
      refine ⟨(mem_selectSubscriptions.mp hsel).2.1, ?_⟩
      by_cases hle : x.pricePerDay ≤ user.wallet.balance
      · left; rw [hstored, if_pos hle]
      · right; rw [hstored, if_neg hle]
    · left
      have hid : x._id ∉ (selectSubscriptions s userIds).map (fun y => y._id) := by
        intro hm
        obtain ⟨y, hy, hyx⟩ := List.mem_map.mp hm
        have hymem := (mem_selectSubscriptions.mp hy).1
        have : y = x := List.inj_on_of_nodup_map hwf.1 hymem hx hyx
        exact hsel (this ▸ hy)
      show Subscription.findById fin.store x._id = some x
      rw [dispatchLoop_findById hl hid]
      exact Subscription.findById_of_mem hwf hx

/-- The sweep loop, stopped by a failed write or not, leaves a stored subscription as
it was or stores the processed one with status paused. -/
theorem sweepLoop_stored {env : Env} {subs : List Subscription} {st fin : Session} {e : Option Failure}
    (h : sweepLoop env st subs = (fin, e)) (hnd : (subs.map (fun y => y._id)).Nodup) {id : ObjectId}
    {z : Subscription} (hz : Subscription.findById st.store id = some z)
    (hstored : ∀ sub ∈ subs, sub._id = id → z = sub) :
    Subscription.findById fin.store id = some z ∨
      (z ∈ subs ∧
        Subscription.findById fin.store id = some { z with status := Status.paused, updatedAt := env.now }) := by
  induction subs generalizing st z with
  | nil =>
    simp only [sweepLoop, Prod.mk.injEq] at h
    rw [← h.1]
    exact Or.inl hz
  | cons sub0 rest ih =>
    rw [List.map_cons, List.nodup_cons] at hnd
    unfold sweepLoop at h
    cases h1 : sweepOne env st sub0.hydrate with
    | error err =>
      simp only [h1, Prod.mk.injEq] at h
      rw [← h.1]
      exact Or.inl hz
    | ok st1 =>
      simp only [h1] at h
      rcases sweepOne_ok h1 with ⟨_, hst⟩ | ⟨_, hst⟩
      · subst hst
        rcases ih h hnd.2 hz (fun sub hsub => hstored sub (List.mem_cons_of_mem _ hsub)) with hl | ⟨hm, hr⟩
        · exact Or.inl hl
        · exact Or.inr ⟨List.mem_cons_of_mem _ hm, hr⟩
      · by_cases hc : sub0._id = id
        · have hz0 : z = sub0 := hstored sub0 (List.mem_cons_self _ _) hc
          subst hz0
          have hz1 : Subscription.findById st1.store id =
              some { z with status := Status.paused, updatedAt := env.now } := by
            rw [hst]
            exact Subscription.findById_save_self _ hz hc
          have hnone : ∀ sub ∈ rest, sub._id = id →
              ({ z with status := Status.paused, updatedAt := env.now } : Subscription) = sub := by
            intro sub hsub hid
            exact absurd (List.mem_map.mpr ⟨sub, hsub, hid.trans hc.symm⟩) hnd.1
          rcases ih h hnd.2 hz1 hnone with hl | ⟨hm, _⟩
          · exact Or.inr ⟨List.mem_cons_self _ _, hl⟩
          · exact absurd (List.mem_map.mpr ⟨_, hm, rfl⟩) hnd.1
        · have hz1 : Subscription.findById st1.store id = some z := by
            rw [hst, Subscription.findById_save_other _ (by exact hc)]
            exact hz
          rcases ih h hnd.2 hz1 (fun sub hsub => hstored sub (List.mem_cons_of_mem _ hsub)) with hl | ⟨hm, hr⟩
          · exact Or.inl hl
          · exact Or.inr ⟨List.mem_cons_of_mem _ hm, hr⟩

/-- The sweep leaves a stored subscription as it was, or it was active and is stored
with status paused. -/
theorem sweep_stored (env : Env) (s : Store) (hwf : s.wf) {x : Subscription} (hx : x ∈ s.subscriptions) :
    Subscription.findById (pauseInsufficientBalanceSubscriptions env s).2 x._id = some x ∨
      (x.status = Status.active ∧
        Subscription.findById (pauseInsufficientBalanceSubscriptions env s).2 x._id =
          some { x with status := Status.paused, updatedAt := env.now }) := by
  have hnd : ((s.subscriptions.filter (fun sub => decide (sub.status = Status.active))).map
      (fun y => y._id)).Nodup :=
    List.Nodup.sublist (List.Sublist.map _ (List.filter_sublist _)) hwf.1
  have hout : ∃ fin e, sweepLoop env { store := s, saves := 0 }
        (s.subscriptions.filter (fun sub => decide (sub.status = Status.active))) = (fin, e) ∧
      (pauseInsufficientBalanceSubscriptions env s).2 = fin.store := by
    cases hl : sweepLoop env { store := s, saves := 0 }
        (s.subscriptions.filter (fun sub => decide (sub.status = Status.active))) with
    | mk fin e =>
      refine ⟨fin, e, rfl, ?_⟩
      unfold pauseInsufficientBalanceSubscriptions
      rw [hl]
      cases e <;> rfl
  obtain ⟨fin, e, hloop, hstore⟩ := hout
  rw [hstore]
  have hstored : ∀ sub ∈ s.subscriptions.filter (fun sub => decide (sub.status = Status.active)),
      sub._id = x._id → x = sub := by
    intro sub hsub hid
    exact (List.inj_on_of_nodup_map hwf.1 (List.mem_filter.mp hsub).1 hx hid).symm
  rcases sweepLoop_stored hloop hnd (Subscription.findById_of_mem hwf hx) hstored with hl | ⟨hm, hr⟩
  · exact Or.inl hl
  · exact Or.inr ⟨by simpa using (List.mem_filter.mp hm).2, hr⟩

/-! ## The audit trail -/

/-- C23. Audit trail preserved: after any of the five requests that write
subscriptions, every subscription of the store before is still stored under its
`_id`, and its delivery history before is a prefix of its delivery history after. -/
theorem audit_trail_preserved (s : Store) (hwf : s.wf) (r : Request) (x : Subscription)
    (hx : x ∈ s.subscriptions) :
    ∃ y, y ∈ (Request.apply s r).subscriptions ∧ y._id = x._id ∧
      Subscription.findById (Request.apply s r) x._id = some y ∧
      ∃ appended, y.deliveryHistory = x.deliveryHistory ++ appended := by
  have hfind : Subscription.findById s x._id = some x := Subscription.findById_of_mem hwf hx
  have hsame : ∀ out : Store, Subscription.findById out x._id = some x →
      ∃ y, y ∈ out.subscriptions ∧ y._id = x._id ∧ Subscription.findById out x._id = some y ∧
        ∃ appended, y.deliveryHistory = x.deliveryHistory ++ appended :=
    fun out h => ⟨x, Subscription.mem_of_findById h, rfl, h, [], (List.append_nil _).symm⟩
  cases r with
  | create env userId newId body =>
    exact hsame _ (createSubscription_stored env s userId newId body hfind)
  | completePayment env userId id body =>
    rcases completeSubscriptionPayment_stored env s userId id body hfind with h | ⟨_, _, _, method, h⟩
    · exact hsame _ h
    · exact ⟨_, Subscription.mem_of_findById h, rfl, h, [], (List.append_nil _).symm⟩
  | updateStatus env userId id body =>
    rcases updateSubscriptionStatus_stored env s userId id body hfind with h | ⟨_, _, status, reason, _, h⟩
    · exact hsame _ h
    · exact ⟨_, Subscription.mem_of_findById h, rfl, h, [], (List.append_nil _).symm⟩
  | dispatch env userIds =>
    rcases dispatchDeliveries_stored env s userIds hwf hx with h | ⟨_, h | h⟩
    · exact hsame _ h
    · exact ⟨_, Subscription.mem_of_findById h, rfl, h,
        [{ date := env.now, status := DeliveryStatus.delivered }], rfl⟩
    · exact ⟨_, Subscription.mem_of_findById h, rfl, h, [], (List.append_nil _).symm⟩
  | sweep env =>
    rcases sweep_stored env s hwf hx with h | ⟨_, h⟩
    · exact hsame _ h
    · exact ⟨_, Subscription.mem_of_findById h, rfl, h, [], (List.append_nil _).symm⟩

theorem audit_trail_preserved_witness :
    ∃ y, y ∈ (Request.apply (oneSubscriptionStore 100 30) (Request.dispatch sampleEnv [1])).subscriptions ∧
      y._id = (sampleSubscription 10 1 30 Status.active PauseReason.none)._id ∧
      Subscription.findById (Request.apply (oneSubscriptionStore 100 30) (Request.dispatch sampleEnv [1]))
          (sampleSubscription 10 1 30 Status.active PauseReason.none)._id = some y ∧
      ∃ appended,
        y.deliveryHistory =
          (sampleSubscription 10 1 30 Status.active PauseReason.none).deliveryHistory ++ appended :=
  audit_trail_preserved (oneSubscriptionStore 100 30) (by decide) (Request.dispatch sampleEnv [1])
    (sampleSubscription 10 1 30 Status.active PauseReason.none) (by decide)

/-! ## Activation -/

theorem parseRequestedStatus_active {t : Option String}
    (h : parseRequestedStatus t = some Status.active) : t = some "active" := by
  unfold parseRequestedStatus at h
  cases t with
  | none => cases h
  | some v =>
    simp only at h
    split_ifs at h with h1 h2 h3
    · rw [h1]
    all_goals cases h

/-- C30 as stated fails: the owner's `updateSubscriptionStatus` request for `active`
stores a `pending_payment` subscription as active, and stores a subscription paused
for insufficient balance as active while the balance 10 is below the price 30. -/
theorem activation_without_payment_counterexample :
    (Subscription.findById
        (updateSubscriptionStatus sampleEnv (statusStore Status.pending_payment PauseReason.none) 1 10
          { status := some "active", pauseReason := none }).2 10).map (fun x => x.status) =
        some Status.active ∧
      (User.findById lowBalancePausedStore 1).map (fun u => u.wallet.balance) = some 10 ∧
      (Subscription.findById lowBalancePausedStore 10).map
          (fun x => (x.status, x.pauseReason, x.pricePerDay)) =
        some (Status.paused, PauseReason.insufficient_balance, 30) ∧
      (Subscription.findById
        (updateSubscriptionStatus sampleEnv lowBalancePausedStore 1 10
          { status := some "active", pauseReason := none }).2 10).map (fun x => x.status) =
        some Status.active := by
  decide

/-- C30, amended. A `pending_payment` subscription found active after one request was
activated by `completeSubscriptionPayment` or by `updateSubscriptionStatus` with
status `active`, sent by its owner for its `_id`; creation, dispatch and sweep never
activate it. The owner's `updateSubscriptionStatus` request for `active`, the write
succeeding, stores the subscription as active whatever its status, its pause reason
and the owner's balance. -/
theorem activation_paths (s : Store) (hwf : s.wf) (x : Subscription) (hx : x ∈ s.subscriptions) :
    (∀ r y, x.status = Status.pending_payment →
        Subscription.findById (Request.apply s r) x._id = some y → y.status = Status.active →
        (∃ env body, r = Request.completePayment env x.userId x._id body) ∨
          ∃ env body, r = Request.updateStatus env x.userId x._id body ∧ body.status = some "active") ∧
      (∀ env body, body.status = some "active" → env.saveFails 0 = false →
        (updateSubscriptionStatus env s x.userId x._id body).1.status = 200 ∧
          Subscription.findById (updateSubscriptionStatus env s x.userId x._id body).2 x._id =
            some { x with status := Status.active, updatedAt := env.now }) := by
  have hfind : Subscription.findById s x._id = some x := Subscription.findById_of_mem hwf hx
  constructor
  · intro r y hpending hy hact
    have hne : ¬ x.status = Status.active := by rw [hpending]; decide
    have hsame : ∀ out : Store, Subscription.findById out x._id = some y →
        Subscription.findById out x._id = some x → False := by
      intro out h1 h2
      rw [h1] at h2
      cases h2
      exact hne hact
    cases r with
    | create env userId newId body =>
      exact (hsame _ hy (createSubscription_stored env s userId newId body hfind)).elim
    | completePayment env userId id body =>
      rcases completeSubscriptionPayment_stored env s userId id body hfind with h | ⟨hid, ho, _, _⟩
      · exact (hsame _ hy h).elim
      · left
        exact ⟨env, body, by rw [hid, ho]⟩
    | updateStatus env userId id body =>
      rcases updateSubscriptionStatus_stored env s userId id body hfind with
        h | ⟨hid, ho, status, reason, hp, h⟩
      · exact (hsame _ hy h).elim
      · right
        refine ⟨env, body, by rw [hid, ho], ?_⟩
        have hyeq : Subscription.findById (Request.apply s (Request.updateStatus env userId id body)) x._id =
            some { x with status := status, pauseReason := reason, updatedAt := env.now } := h
        rw [hy] at hyeq
        cases hyeq
        have hst : status = Status.active := hact
        rw [hst] at hp
        exact parseRequestedStatus_active hp
    | dispatch env userIds =>
      rcases dispatchDeliveries_stored env s userIds hwf hx with h | ⟨hactive, _⟩
      · exact (hsame _ hy h).elim
      · exact (hne hactive).elim
    | sweep env =>
      rcases sweep_stored env s hwf hx with h | ⟨hactive, _⟩
      · exact (hsame _ hy h).elim
      · exact (hne hactive).elim
  · intro env body hreq hsave
    have hp : parseRequestedStatus body.status = some Status.active := by
      rw [hreq]; rfl
    have hassign : assignedPauseReason Status.active body.pauseReason x.pauseReason = some x.pauseReason := by
      simp [assignedPauseReason]
    have hrun : updateSubscriptionStatus env s x.userId x._id body =
        ({ status := 200
           body := [("message", Payload.text "Subscription status updated successfully"),
             ("data", Payload.object
               [("subscription",
                  Payload.subscription
                    { x with status := Status.active, pauseReason := x.pauseReason, updatedAt := env.now })])] },
          SubscriptionDoc.save env s
            (Subscription.hydrate { x with status := Status.active, pauseReason := x.pauseReason })) := by
      unfold updateSubscriptionStatus
      simp [hp, hfind, hassign, hsave]
    rw [hrun]
    exact ⟨rfl, Subscription.findById_save_self _ hfind rfl⟩

theorem activation_paths_witness :
    ((∃ env body,
          Request.completePayment sampleEnv 1 10 { paymentId := some "pay_1", paymentMethod := none } =
            Request.completePayment env
              (sampleSubscription 10 1 30 Status.pending_payment PauseReason.none).userId
              (sampleSubscription 10 1 30 Status.pending_payment PauseReason.none)._id body) ∨
        ∃ env body,
          Request.completePayment sampleEnv 1 10 { paymentId := some "pay_1", paymentMethod := none } =
              Request.updateStatus env
                (sampleSubscription 10 1 30 Status.pending_payment PauseReason.none).userId
                (sampleSubscription 10 1 30 Status.pending_payment PauseReason.none)._id body ∧
            body.status = some "active") ∧
      ((updateSubscriptionStatus sampleEnv (statusStore Status.pending_payment PauseReason.none)
          (sampleSubscription 10 1 30 Status.pending_payment PauseReason.none).userId
          (sampleSubscription 10 1 30 Status.pending_payment PauseReason.none)._id
          { status := some "active", pauseReason := none }).1.status = 200 ∧
        Subscription.findById
            (updateSubscriptionStatus sampleEnv (statusStore Status.pending_payment PauseReason.none)
              (sampleSubscription 10 1 30 Status.pending_payment PauseReason.none).userId
              (sampleSubscription 10 1 30 Status.pending_payment PauseReason.none)._id
              { status := some "active", pauseReason := none }).2
            (sampleSubscription 10 1 30 Status.pending_payment PauseReason.none)._id =
          some { sampleSubscription 10 1 30 Status.pending_payment PauseReason.none with
                 status := Status.active, updatedAt := sampleEnv.now }) :=
  ⟨(activation_paths (statusStore Status.pending_payment PauseReason.none) (by decide)
      (sampleSubscription 10 1 30 Status.pending_payment PauseReason.none) (by decide)).1
      (Request.completePayment sampleEnv 1 10 { paymentId := some "pay_1", paymentMethod := none })
      { sampleSubscription 10 1 30 Status.pending_payment PauseReason.none with
        status := Status.active
        lastPaymentDate := some 1000
        paymentMethod := PaymentMethod.online
        paymentId := some "pay_1"
        updatedAt := 1000 }
      rfl (by decide) rfl,
    (activation_paths (statusStore Status.pending_payment PauseReason.none) (by decide)
      (sampleSubscription 10 1 30 Status.pending_payment PauseReason.none) (by decide)).2
      sampleEnv { status := some "active", pauseReason := none } rfl rfl⟩

/-! ## The order of the iterations of a cycle -/

theorem map_replace_comm {α : Type} (key : α → Nat) (a b : α) (h : key a ≠ key b) (l : List α) :
    (l.map (fun e => if key e = key a then a else e)).map (fun e => if key e = key b then b else e) =
      (l.map (fun e => if key e = key b then b else e)).map (fun e => if key e = key a then a else e) := by
  rw [List.map_map, List.map_map]
  apply List.map_congr_left
  intro e _
  simp only [Function.comp]
  by_cases ha : key e = key a
  · have hb : ¬ key e = key b := fun hb => h (ha.symm.trans hb)
    simp [ha, hb, h]
  · by_cases hb : key e = key b
    · have h2 : ¬ key b = key a := fun e2 => h e2.symm
      simp [ha, hb, h2]
    · simp [ha, hb]

theorem Env.clean_add (env : Env) (base n m : Nat) :
    env.clean base (n + m) ↔ env.clean base n ∧ env.clean (base + n) m := by
  unfold Env.clean
  constructor
  · intro h
    refine ⟨fun k hk => h k (by omega), fun k hk => ?_⟩
    rw [Nat.add_assoc]
    exact h (n + k) (by omega)
  · rintro ⟨h1, h2⟩ k hk
    by_cases hkn : k < n
    · exact h1 k hkn
    · have := h2 (k - n) (by omega)
      rw [Nat.add_assoc] at this
      rw [show k = n + (k - n) by omega]
      exact this

theorem Env.clean_one (env : Env) (base : Nat) : env.clean base 1 ↔ env.saveFails base = false := by
  unfold Env.clean
  constructor
  · intro h; exact h 0 (by omega)
  · intro h k hk
    rw [show k = 0 by omega]
    exact h

theorem Env.clean_two (env : Env) (base : Nat) :
    env.clean base 2 ↔ env.saveFails base = false ∧ env.saveFails (base + 1) = false := by
  rw [show 2 = 1 + 1 from rfl, Env.clean_add, Env.clean_one, Env.clean_one]

/-- One loop iteration commits what `settle` computes when none of its writes fails,
and fails otherwise. -/
theorem dispatchOne_settle (env : Env) (st : Session) (sub : Subscription) :
    (dispatchOne env st sub.hydrate).toOption =
      (settle env st.store sub).bind
        (fun p => if env.clean st.saves p.2 then some { store := p.1, saves := st.saves + p.2 } else none) := by
  unfold dispatchOne settle
  cases hu : User.findById st.store sub.userId with
  | none => simp [Subscription.hydrate, hu, Except.toOption]
  | some user =>
    simp only [Subscription.hydrate, hu]
    by_cases hle : sub.pricePerDay ≤ user.wallet.balance
    · simp only [hle, if_true, Option.some_bind, Env.clean_two]
      cases h0 : env.saveFails st.saves <;> cases h1 : env.saveFails (st.saves + 1) <;>
        simp [Except.toOption]
    · simp only [hle, if_false, Option.some_bind, Env.clean_one]
      cases h0 : env.saveFails st.saves <;> simp [Except.toOption]

/-- The loop commits what `settleAll` computes when none of its writes fails, and
fails otherwise. -/
theorem dispatchLoop_settleAll (env : Env) (subs : List Subscription) (st : Session) :
    (dispatchLoop env st subs).toOption =
      (settleAll env st.store subs).bind
        (fun p => if env.clean st.saves p.2 then some { store := p.1, saves := st.saves + p.2 } else none) := by
  induction subs generalizing st with
  | nil =>
    have : env.clean st.saves 0 := fun k hk => absurd hk (Nat.not_lt_zero k)
    simp [dispatchLoop, settleAll, Except.toOption, this]
  | cons sub rest ih =>
    have hone := dispatchOne_settle env st sub
    unfold dispatchLoop settleAll
    cases hs : settle env st.store sub with
    | none =>
      rw [hs] at hone
      cases hd : dispatchOne env st sub.hydrate with
      | error e => simp [Except.toOption]
      | ok st1 => rw [hd] at hone; simp [Except.toOption] at hone
    | some p =>
      rw [hs] at hone
      simp only [Option.some_bind] at hone ⊢
      by_cases hc : env.clean st.saves p.2
      · rw [if_pos hc] at hone
        cases hd : dispatchOne env st sub.hydrate with
        | error e => rw [hd] at hone; simp [Except.toOption] at hone
        | ok st1 =>
          rw [hd] at hone
          simp only [Except.toOption, Option.some.injEq] at hone
          subst hone
          simp only []
          rw [ih]
          cases hr : settleAll env p.1 rest with
          | none => simp
          | some q =>
            simp only [Option.some_bind, Option.map_some', Env.clean_add, hc, true_and, Nat.add_assoc]
      · rw [if_neg hc] at hone
        cases hd : dispatchOne env st sub.hydrate with
        | ok st1 => rw [hd] at hone; simp [Except.toOption] at hone
        | error e =>
          simp only [Except.toOption]
          cases hr : settleAll env p.1 rest with
          | none => simp
          | some q =>
            simp only [Option.some_bind, Option.map_some', Env.clean_add, hc, false_and, if_false]

theorem dispatchIn_settleAll (env : Env) (s : Store) (subs : List Subscription) :
    dispatchIn env s subs =
      (settleAll env s subs).bind (fun p => if env.clean 0 p.2 then some p.1 else none) := by
  have h := dispatchLoop_settleAll env subs { store := s, saves := 0 }
  unfold dispatchIn
  cases hd : dispatchLoop env { store := s, saves := 0 } subs with
  | error e =>
    rw [hd] at h
    simp only [Except.toOption] at h
    cases hr : settleAll env s subs with
    | none => simp
    | some p =>
      rw [hr] at h
      simp only [Option.some_bind] at h ⊢
      by_cases hc : env.clean 0 p.2
      · rw [if_pos hc] at h; cases h
      · rw [if_neg hc]
  | ok fin =>
    rw [hd] at h
    simp only [Except.toOption] at h
    cases hr : settleAll env s subs with
    | none => rw [hr] at h; simp at h
    | some p =>
      rw [hr] at h
      simp only [Option.some_bind] at h ⊢
      by_cases hc : env.clean 0 p.2
      · rw [if_pos hc] at h ⊢
        simp only [Option.some.injEq] at h
        rw [h]
      · rw [if_neg hc] at h; cases h

/-- The result of `settle`, spelled out on the collections. -/
theorem settle_eq (env : Env) (s : Store) (x : Subscription) :
    settle env s x =
      (User.findById s x.userId).map (fun u =>
        (({ users :=
              if x.pricePerDay ≤ u.wallet.balance then
                s.users.map (fun e => if e._id = (chargeUser env u x)._id then chargeUser env u x else e)
              else s.users
            subscriptions :=
              s.subscriptions.map (fun e =>
                if e._id = (if x.pricePerDay ≤ u.wallet.balance then deliveredDoc env x else pausedDoc env x)._id
                then (if x.pricePerDay ≤ u.wallet.balance then deliveredDoc env x else pausedDoc env x)
                else e)
            products := s.products } : Store),
          if x.pricePerDay ≤ u.wallet.balance then 2 else 1)) := by
  unfold settle
  cases hu : User.findById s x.userId with
  | none => rfl
  | some u =>
    simp only [Option.map_some']
    by_cases hle : x.pricePerDay ≤ u.wallet.balance
    · simp only [hle, if_true]
      rfl
    · simp only [hle, if_false]
      rfl

/-- An iteration leaves the users other than the owner as they were. -/
theorem settle_users {env : Env} {s : Store} {x : Subscription} {p : Store × Nat}
    (h : settle env s x = some p) {id : ObjectId} (hid : id ≠ x.userId) :
    User.findById p.1 id = User.findById s id := by
  unfold settle at h
  cases hu : User.findById s x.userId with
  | none => rw [hu] at h; cases h
  | some u =>
    rw [hu] at h
    simp only [] at h
    have hown : u._id = x.userId := User.findById_owner_id hu
    by_cases hle : x.pricePerDay ≤ u.wallet.balance
    · rw [if_pos hle] at h
      simp only [Option.some.injEq] at h
      subst h
      show User.findById (User.save s (chargeUser env u x)) id = _
      rw [User.findById_save]
      have : ¬ id = (chargeUser env u x)._id := fun e => hid (e.trans hown)
      rw [if_neg this]
    · rw [if_neg hle] at h
      simp only [Option.some.injEq] at h
      subst h
      rfl

theorem settle_none {env : Env} {s : Store} {x : Subscription} (h : User.findById s x.userId = none) :
    settle env s x = none := by
  unfold settle
  rw [h]

/-- Two iterations for subscriptions of different owners commute. -/
theorem settle_swap (env : Env) (s : Store) (x y : Subscription) (hown : x.userId ≠ y.userId)
    (hid : x._id ≠ y._id) :
    (settle env s x).bind (fun p => (settle env p.1 y).map (fun q => (q.1, p.2 + q.2))) =
      (settle env s y).bind (fun p => (settle env p.1 x).map (fun q => (q.1, q.2 + p.2))) := by
  cases hsx : settle env s x with
  | none =>
    cases hsy : settle env s y with
    | none => rfl
    | some py =>
      simp only [Option.none_bind, Option.some_bind]
      have hux : User.findById s x.userId = none := by
        rw [settle_eq] at hsx
        cases hu : User.findById s x.userId with
        | none => rfl
        | some u => rw [hu] at hsx; cases hsx
      rw [settle_none (by rw [settle_users hsy hown]; exact hux)]
      rfl
  | some px =>
    cases hsy : settle env s y with
    | none =>
      simp only [Option.none_bind, Option.some_bind]
      have huy : User.findById s y.userId = none := by
        rw [settle_eq] at hsy
        cases hu : User.findById s y.userId with
        | none => rfl
        | some u => rw [hu] at hsy; cases hsy
      rw [settle_none (by rw [settle_users hsx (Ne.symm hown)]; exact huy)]
      rfl
    | some py =>
      simp only [Option.some_bind]
      have hxy := settle_users hsx (Ne.symm hown)
      have hyx := settle_users hsy hown
      rw [settle_eq env px.1 y, settle_eq env py.1 x, hxy, hyx]
      rw [settle_eq] at hsx hsy
      cases hux : User.findById s x.userId with
      | none => rw [hux] at hsx; cases hsx
      | some ux =>
        cases huy : User.findById s y.userId with
        | none => rw [huy] at hsy; cases hsy
        | some uy =>
          rw [hux] at hsx
          rw [huy] at hsy
          simp only [Option.map_some', Option.some.injEq] at hsx hsy ⊢
          subst hsx
          subst hsy
          have hkx : ux._id = x.userId := User.findById_owner_id hux
          have hky : uy._id = y.userId := User.findById_owner_id huy
          have hdx : (if x.pricePerDay ≤ ux.wallet.balance then deliveredDoc env x else pausedDoc env x)._id =
              x._id := by split_ifs <;> rfl
          have hdy : (if y.pricePerDay ≤ uy.wallet.balance then deliveredDoc env y else pausedDoc env y)._id =
              y._id := by split_ifs <;> rfl
          refine Prod.ext ?_ ?_
          · simp only []
            congr 1
            · by_cases hlx : x.pricePerDay ≤ ux.wallet.balance <;>
                by_cases hly : y.pricePerDay ≤ uy.wallet.balance <;>
                simp only [hlx, hly, if_true, if_false]
              exact map_replace_comm (fun e : User => e._id) (chargeUser env ux x) (chargeUser env uy y)
                (by show ux._id ≠ uy._id; rw [hkx, hky]; exact hown) s.users
            · exact map_replace_comm (fun e : Subscription => e._id)
                (if x.pricePerDay ≤ ux.wallet.balance then deliveredDoc env x else pausedDoc env x)
                (if y.pricePerDay ≤ uy.wallet.balance then deliveredDoc env y else pausedDoc env y)
                (by simp only [hdx, hdy]; exact hid) s.subscriptions
          · rfl

theorem settleAll_cons2 (env : Env) (s : Store) (x y : Subscription) (l : List Subscription) :
    settleAll env s (x :: y :: l) =
      ((settle env s x).bind (fun p => (settle env p.1 y).map (fun q => (q.1, p.2 + q.2)))).bind
        (fun r => (settleAll env r.1 l).map (fun q => (q.1, r.2 + q.2))) := by
  simp only [settleAll]
  cases hsx : settle env s x with
  | none => rfl
  | some px =>
    simp only [Option.some_bind]
    cases hsy : settle env px.1 y with
    | none => rfl
    | some py =>
      simp only [Option.some_bind, Option.map_some']
      cases hr : settleAll env py.1 l with
      | none => rfl
      | some q => simp only [Option.map_some', Nat.add_assoc]

/-- The iterations over subscriptions of pairwise different owners and ids give the
same store and the same number of writes in every order. -/
theorem settleAll_perm (env : Env) {l1 l2 : List Subscription} (hperm : l1.Perm l2) :
    (l1.map (fun x => x.userId)).Nodup → (l1.map (fun x => x._id)).Nodup →
      ∀ s, settleAll env s l1 = settleAll env s l2 := by
  induction hperm with
  | nil => intro _ _ s; rfl
  | cons x _ ih =>
    intro hown hid s
    rw [List.map_cons, List.nodup_cons] at hown hid
    simp only [settleAll]
    cases hsx : settle env s x with
    | none => rfl
    | some px =>
      simp only [Option.some_bind]
      rw [ih hown.2 hid.2]
  | swap x y l =>
    intro hown hid s
    rw [settleAll_cons2, settleAll_cons2]
    have hxy : x.userId ≠ y.userId := by
      intro e
      simp only [List.map_cons, List.nodup_cons, List.mem_cons] at hown
      exact hown.1 (Or.inl e.symm)
    have hixy : x._id ≠ y._id := by
      intro e
      simp only [List.map_cons, List.nodup_cons, List.mem_cons] at hid
      exact hid.1 (Or.inl e.symm)
    have hswap := settle_swap env s x y hxy hixy
    have hcomm : (settle env s y).bind (fun p => (settle env p.1 x).map (fun q => (q.1, q.2 + p.2))) =
        (settle env s y).bind (fun p => (settle env p.1 x).map (fun q => (q.1, p.2 + q.2))) := by
      congr 1
      funext p
      congr 1
      funext q
      rw [Nat.add_comm]
    rw [hswap, hcomm]
  | trans h12 _ ih1 ih2 =>
    intro hown hid s
    rw [ih1 hown hid s]
    exact ih2 ((h12.map _).nodup_iff.mp hown) ((h12.map _).nodup_iff.mp hid) s

/-- C24 as stated fails: with one owner holding 50 and two selected subscriptions at
30 and at 50, the loop in the order of the query delivers the first and pauses the
second, leaving balance 20; in the other order it delivers the second and pauses
the first, leaving balance 0. -/
theorem dispatch_order_counterexample :
    selectSubscriptions sharedOwnerStore [1] =
        [sampleSubscription 10 1 30 Status.active PauseReason.none,
         sampleSubscription 11 1 50 Status.active PauseReason.none] ∧
      (dispatchIn sampleEnv sharedOwnerStore
          [sampleSubscription 10 1 30 Status.active PauseReason.none,
           sampleSubscription 11 1 50 Status.active PauseReason.none]).map
          (fun s => (s.users.map (fun u => u.wallet.balance),
            s.subscriptions.map (fun x => (x._id, x.status, x.deliveryHistory.length)))) =
        some ([20], [(10, Status.active, 1), (11, Status.paused, 0)]) ∧
      (dispatchIn sampleEnv sharedOwnerStore
          [sampleSubscription 11 1 50 Status.active PauseReason.none,
           sampleSubscription 10 1 30 Status.active PauseReason.none]).map
          (fun s => (s.users.map (fun u => u.wallet.balance),
            s.subscriptions.map (fun x => (x._id, x.status, x.deliveryHistory.length)))) =
        some ([0], [(10, Status.paused, 0), (11, Status.active, 1)]) := by
  decide

/-- C24, amended. When no two selected subscriptions share an owner, the store a
cycle commits, or its abort, is the same for every order in which the loop
processes the selected subscriptions; the handler commits the result of the order
of the query and leaves the store as it was on abort. -/
theorem dispatch_order_independent (env : Env) (s : Store) (userIds : List ObjectId) (hwf : s.wf)
    (hown : ((selectSubscriptions s userIds).map (fun x => x.userId)).Nodup)
    (subs : List Subscription) (hperm : subs.Perm (selectSubscriptions s userIds)) :
    dispatchIn env s subs = dispatchIn env s (selectSubscriptions s userIds) ∧
      (dispatchDeliveries env s userIds).2 = (dispatchIn env s (selectSubscriptions s userIds)).getD s := by
  constructor
  · rw [dispatchIn_settleAll, dispatchIn_settleAll]
    rw [settleAll_perm env hperm ((hperm.map _).nodup_iff.mpr hown)
      ((hperm.map _).nodup_iff.mpr (selectSubscriptions_nodup hwf userIds)) s]
  · unfold dispatchDeliveries dispatchIn
    cases dispatchLoop env { store := s, saves := 0 } (selectSubscriptions s userIds) <;> rfl

theorem dispatch_order_independent_witness :
    dispatchIn sampleEnv separateOwnersStore
        [sampleSubscription 11 2 80 Status.active PauseReason.none,
         sampleSubscription 10 1 30 Status.active PauseReason.none] =
        dispatchIn sampleEnv separateOwnersStore (selectSubscriptions separateOwnersStore [1, 2]) ∧
      (dispatchDeliveries sampleEnv separateOwnersStore [1, 2]).2 =
        (dispatchIn sampleEnv separateOwnersStore (selectSubscriptions separateOwnersStore [1, 2])).getD
          separateOwnersStore :=
  dispatch_order_independent sampleEnv separateOwnersStore [1, 2] (by decide) (by decide)
    [sampleSubscription 11 2 80 Status.active PauseReason.none,
     sampleSubscription 10 1 30 Status.active PauseReason.none]
    (List.Perm.swap _ _ [])

/-! ## The debits made for a prepaid subscription -/

/-- A cycle over a store with a single subscription whose owner exists leaves the
store as it was, or delivers, or pauses. -/
theorem dispatch_single_cases (env : Env) {s : Store} (userIds : List ObjectId) {sub : Subscription}
    {user : User} (hs : s.subscriptions = [sub]) (hu : User.findById s sub.userId = some user) :
    (dispatchDeliveries env s userIds).2 = s ∨
      (sub.pricePerDay ≤ user.wallet.balance ∧
        (dispatchDeliveries env s userIds).2 =
          { users := (User.save s (chargeUser env user sub)).users
            subscriptions := [deliveredDoc env sub]
            products := s.products }) ∨
      (user.wallet.balance < sub.pricePerDay ∧
        (dispatchDeliveries env s userIds).2 =
          { users := s.users, subscriptions := [pausedDoc env sub], products := s.products }) := by
  by_cases hsel : sub.userId ∈ userIds ∧ sub.status = Status.active
  · have hlist : selectSubscriptions s userIds = [sub] := by
      rw [selectSubscriptions_single userIds hs, if_pos hsel]
    cases hd : dispatchOne env { store := s, saves := 0 } sub.hydrate with
    | error e =>
      left
      have hloop : dispatchLoop env { store := s, saves := 0 } (selectSubscriptions s userIds) =
          Except.error e := by
        rw [hlist]
        simp only [dispatchLoop, hd]
      rw [dispatchDeliveries_of_error hloop]
    | ok st1 =>
      right
      have hloop : dispatchLoop env { store := s, saves := 0 } (selectSubscriptions s userIds) =
          Except.ok st1 := by
        rw [hlist]
        simp only [dispatchLoop, hd]
      rw [dispatchDeliveries_of_ok hloop]
      obtain ⟨user1, hu1, hbranch⟩ := dispatchOne_ok hd
      have huser : user1 = user := by
        have : some user1 = some user := hu1.symm.trans hu
        exact Option.some.inj this
      subst huser
      rcases hbranch with ⟨hle, hst⟩ | ⟨hlt, hst⟩
      · left
        refine ⟨hle, ?_⟩
        show st1.store = _
        rw [hst, markDelivered_save]
        show ({ users := _, subscriptions := List.map _ s.subscriptions, products := _ } : Store) = _
        rw [hs]
        simp [User.save]
      · right
        refine ⟨hlt, ?_⟩
        show st1.store = _
        rw [hst, markPaused_save]
        show ({ users := _, subscriptions := List.map _ s.subscriptions, products := _ } : Store) = _
        rw [hs]
        simp
  · left
    have hloop : dispatchLoop env { store := s, saves := 0 } (selectSubscriptions s userIds) =
        Except.ok { store := s, saves := 0 } := by
      rw [selectSubscriptions_single userIds hs, if_neg hsel]
      rfl
    rw [dispatchDeliveries_of_ok hloop]

theorem sumOf_debitOf (env : Env) (sub : Subscription) :
    sumOf TxnType.debit [debitOf env sub] = sub.pricePerDay := by
  simp [sumOf, debitOf]

/-- One cycle keeps the ledger of a single-subscription customer in step with the
delivery history. -/
theorem chargedFor_dispatch {newId userId : ObjectId} {user0 : User} {s : Store} {n : Nat}
    (h : ChargedFor newId userId user0 s n) (env : Env) (userIds : List ObjectId) :
    ChargedFor newId userId user0 (dispatchDeliveries env s userIds).2 (n + 1) := by
  obtain ⟨user, sub, debits, hu, hs, hid, hown, htx, hdeb, hsum, hbal, hlen⟩ := h
  have hu2 : User.findById s sub.userId = some user := by rw [hown]; exact hu
  rcases dispatch_single_cases env userIds hs hu2 with hsame | ⟨_, hout⟩ | ⟨_, hout⟩
  · rw [hsame]
    exact ⟨user, sub, debits, hu, hs, hid, hown, htx, hdeb, hsum, hbal, Nat.le_succ_of_le hlen⟩
  · rw [hout]
    have hkey : user._id = userId := User.findById_owner_id hu
    have hfind : User.findById
        ({ users := (User.save s (chargeUser env user sub)).users
           subscriptions := [deliveredDoc env sub]
           products := s.products } : Store) userId = some (chargeUser env user sub) := by
      show User.findById (User.save s (chargeUser env user sub)) userId = _
      rw [User.findById_save]
      have : userId = (chargeUser env user sub)._id := hkey.symm
      rw [if_pos this, hu]
      rfl
    have hl : (deliveredDoc env sub).deliveryHistory.length = sub.deliveryHistory.length + 1 := by
      simp [deliveredDoc]
    refine ⟨chargeUser env user sub, deliveredDoc env sub, debits ++ [debitOf env sub], hfind, rfl, hid,
      hown, ?_, ?_, ?_, ?_, ?_⟩
    · show user.wallet.transactions ++ [debitOf env sub] = _
      rw [htx, List.append_assoc]
    · intro t ht
      rcases List.mem_append.mp ht with h1 | h1
      · exact hdeb t h1
      · rw [List.mem_singleton] at h1
        rw [h1]
        rfl
    · rw [sumOf_append, hsum, sumOf_debitOf]
      show _ = sub.totalCost + ((deliveredDoc env sub).deliveryHistory.length : Int) * sub.pricePerDay
      rw [hl]
      push_cast
      ring
    · show user.wallet.balance - sub.pricePerDay = user0.wallet.balance - (sub.totalCost +
        ((deliveredDoc env sub).deliveryHistory.length : Int) * sub.pricePerDay)
      rw [hbal, hl]
      push_cast
      ring
    · rw [hl]
      omega
  · rw [hout]
    exact ⟨user, pausedDoc env sub, debits, hu, rfl, hid, hown, htx, hdeb, hsum, hbal,
      Nat.le_succ_of_le hlen⟩

/-- Any number of cycles keeps the ledger in step with the delivery history. -/
theorem chargedFor_serve {newId userId : ObjectId} {user0 : User} (cycles : List (Env × List ObjectId)) :
    ∀ {s : Store} {n : Nat}, ChargedFor newId userId user0 s n →
      ChargedFor newId userId user0 (serve s (cycles.map (fun c => Request.dispatch c.1 c.2)))
        (n + cycles.length) := by
  induction cycles with
  | nil => intro s n h; exact h
  | cons c rest ih =>
    intro s n h
    have h1 := ih (chargedFor_dispatch h c.1 c.2)
    rw [List.length_cons, show n + (rest.length + 1) = n + 1 + rest.length by omega]
    exact h1

/-- A subscription bought from the wallet by a customer without subscriptions starts
the ledger with the debit of its total cost. -/
theorem chargedFor_create (env : Env) (s0 : Store) (userId newId : ObjectId) (body : CreateSubscriptionBody)
    (hempty : s0.subscriptions = []) (hwallet : body.paymentMethod = some "wallet")
    (hok : (createSubscription env s0 userId newId body).1.status = 201) :
    ∃ user0, User.findById s0 userId = some user0 ∧
      ChargedFor newId userId user0 (createSubscription env s0 userId newId body).2 0 := by
  rcases createSubscription_cases env s0 userId newId body with ⟨hne, _⟩ | ⟨product, address, _, heq⟩
  · exact absurd hok hne
  · rw [heq] at hok ⊢
    rcases processPayment_cases env s0 (User.findById s0 userId) product
        (totalCost product (body.quantity.getD 0) (body.deliveryFrequency.getD "")
          (body.subscriptionPlan.getD ""))
        body.paymentMethod
        (newSubscription env newId userId (body.productId.getD 0) product (body.quantity.getD 0)
          (body.deliveryFrequency.getD "") (body.subscriptionPlan.getD "") body.paymentMethod address)
      with ⟨_, _, u, cand, hu, hcand, _, hout⟩ | ⟨_, hnw, _⟩ | ⟨hne, _⟩
    · obtain ⟨hcid, hcown, _, _, hhist, _, hcost⟩ := newSubscription_some hcand
      have hkey : u._id = userId := User.findById_owner_id hu
      refine ⟨u, hu, ?_⟩
      rw [hout]
      refine ⟨payFromWallet env u
          (totalCost product (body.quantity.getD 0) (body.deliveryFrequency.getD "")
            (body.subscriptionPlan.getD "")) product.name,
        { cand with status := Status.active, lastPaymentDate := some env.now, updatedAt := env.now },
        [{ amount := totalCost product (body.quantity.getD 0) (body.deliveryFrequency.getD "")
            (body.subscriptionPlan.getD ""), type := TxnType.debit, date := env.now }],
        ?_, ?_, hcid, hcown, rfl, ?_, ?_, ?_, ?_⟩
      · show User.findById (User.save s0 _) userId = _
        rw [User.findById_save]
        have : userId = (payFromWallet env u
          (totalCost product (body.quantity.getD 0) (body.deliveryFrequency.getD "")
            (body.subscriptionPlan.getD "")) product.name)._id := hkey.symm
        rw [if_pos this, hu]
        rfl
      · show s0.subscriptions ++ _ = _
        rw [hempty]
        rfl
      · intro t ht
        rw [List.mem_singleton] at ht
        rw [ht]
      · show sumOf TxnType.debit _ = cand.totalCost + (cand.deliveryHistory.length : Int) * cand.pricePerDay
        rw [hhist, hcost]
        simp [sumOf]
      · show u.wallet.balance - _ =
          u.wallet.balance - (cand.totalCost + (cand.deliveryHistory.length : Int) * cand.pricePerDay)
        rw [hhist, hcost]
        simp
      · show cand.deliveryHistory.length ≤ 0
        rw [hhist]
        rfl
    · exact absurd hwallet hnw
    · exact absurd hok hne

/-- C29 as stated fails: a customer with balance 1000 buys from the wallet a
subscription of total cost 480 at 30 a day; one dispatch cycle later the debits made
for it add up to 510 and the balance is 490. -/
theorem prepaid_total_counterexample :
    (createSubscription sampleEnv newCustomerStore 1 11 sampleBody).1.status = 201 ∧
      (createSubscription sampleEnv newCustomerStore 1 11 sampleBody).2.subscriptions.map
          (fun x => (x._id, x.totalCost, x.pricePerDay, x.status)) = [(11, 480, 30, Status.active)] ∧
      (User.findById
          (dispatchDeliveries sampleEnv (createSubscription sampleEnv newCustomerStore 1 11 sampleBody).2
            [1]).2 1).map
          (fun u => (u.wallet.balance, u.wallet.transactions.map (fun t => (t.type, t.amount)),
            sumOf TxnType.debit u.wallet.transactions)) =
        some (490, [(TxnType.debit, 480), (TxnType.debit, 30)], 510) := by
  decide

/-- C29, amended. For a customer without subscriptions who buys one from the wallet,
after the creation and any number of dispatch cycles the transactions appended to
the wallet are debits that add up to the total cost plus `pricePerDay` for every
entry of the delivery history, the balance has fallen by that amount, and there are
at most as many entries as cycles. -/
theorem prepaid_and_delivery_debits (env : Env) (s0 : Store) (userId newId : ObjectId)
    (body : CreateSubscriptionBody) (cycles : List (Env × List ObjectId))
    (hempty : s0.subscriptions = []) (hwallet : body.paymentMethod = some "wallet")
    (hok : (createSubscription env s0 userId newId body).1.status = 201) :
    ∃ user0 user sub debits,
      User.findById s0 userId = some user0 ∧
        User.findById
            (serve (createSubscription env s0 userId newId body).2
              (cycles.map (fun c => Request.dispatch c.1 c.2))) userId = some user ∧
        (serve (createSubscription env s0 userId newId body).2
            (cycles.map (fun c => Request.dispatch c.1 c.2))).subscriptions = [sub] ∧
        sub._id = newId ∧ sub.userId = userId ∧
        user.wallet.transactions = user0.wallet.transactions ++ debits ∧
        (∀ t ∈ debits, t.type = TxnType.debit) ∧
        sumOf TxnType.debit debits = sub.totalCost + sub.deliveryHistory.length * sub.pricePerDay ∧
        user.wallet.balance =
          user0.wallet.balance - (sub.totalCost + sub.deliveryHistory.length * sub.pricePerDay) ∧
        sub.deliveryHistory.length ≤ cycles.length := by
  obtain ⟨user0, hu0, hstart⟩ := chargedFor_create env s0 userId newId body hempty hwallet hok
  obtain ⟨user, sub, debits, hu, hs, hid, hown, htx, hdeb, hsum, hbal, hlen⟩ :=
    chargedFor_serve cycles hstart
  exact ⟨user0, user, sub, debits, hu0, hu, hs, hid, hown, htx, hdeb, hsum, hbal, by simpa using hlen⟩

theorem prepaid_and_delivery_debits_witness :
    ∃ user0 user sub debits,
      User.findById newCustomerStore 1 = some user0 ∧
        User.findById
            (serve (createSubscription sampleEnv newCustomerStore 1 11 sampleBody).2
              ([(sampleEnv, [1]), (sampleEnv, [1])].map (fun c => Request.dispatch c.1 c.2))) 1 = some user ∧
        (serve (createSubscription sampleEnv newCustomerStore 1 11 sampleBody).2
            ([(sampleEnv, [1]), (sampleEnv, [1])].map
              (fun c => Request.dispatch c.1 c.2))).subscriptions = [sub] ∧
        sub._id = 11 ∧ sub.userId = 1 ∧
        user.wallet.transactions = user0.wallet.transactions ++ debits ∧
        (∀ t ∈ debits, t.type = TxnType.debit) ∧
        sumOf TxnType.debit debits = sub.totalCost + sub.deliveryHistory.length * sub.pricePerDay ∧
        user.wallet.balance =
          user0.wallet.balance - (sub.totalCost + sub.deliveryHistory.length * sub.pricePerDay) ∧
        sub.deliveryHistory.length ≤ [(sampleEnv, [1]), (sampleEnv, [1])].length :=
  prepaid_and_delivery_debits sampleEnv newCustomerStore 1 11 sampleBody
    [(sampleEnv, [1]), (sampleEnv, [1])] rfl rfl (by decide)

end MilkDelivery
